import Mathlib

/-!
# go-github-es-timed-events: the crawl scheduler, its page fetchers and the event identifier

A shallow embedding of `crawlrequests.go`, `payload.go` and `main.go`.

* Go strings are Lean strings, Go `int`/`int64` values are `Int`, a nil-able pointer is an
  `Option`.
* A `time.Time` is an integer, the nanoseconds since the Unix epoch; a `time.Duration` is an
  integer, a signed count of nanoseconds.
* Every run-time panic the source can raise (nil dereference, index out of range, the explicit
  `panic(err)`, a failed type assertion) is a value of `Panic`; code that can panic returns a
  `Res` when it touches the state and an `Except Panic` when it does not.
* The outside world of one tick is a `World`: the clock reading and, for each remote call the
  tick can issue, the answer that call receives; every call that is issued is appended to a log.
-/

namespace GithubTimedEvents

/-! ## Data model (`payload.go`, `crawlrequests.go`, `main.go`) -/

/-- The fields of `User` the embedded code can observe. -/
structure User where
  Login : String
  ID : Int
deriving DecidableEq

/-- The fields of `Repository` the embedded code reads (`FullName`, `CreatedAt`) plus its `ID`. -/
structure Repository where
  ID : Int
  FullName : String
  CreatedAt : Int
deriving DecidableEq

/-- A `Reference` (head or base of a pull request). -/
structure Reference where
  User : User
  Repo : Repository
deriving DecidableEq

/-- The fields of `PullRequest` the embedded code reads. `ClosedAt` and `Assignee` are pointers in
the source and therefore optional here. -/
structure PullRequest where
  ID : Int
  Number : Int
  State : String
  Title : String
  CreatedAt : Int
  ClosedAt : Option Int
  Assignee : Option User
  Head : Reference
  Base : Reference
deriving DecidableEq

/-- The fields of `PullRequestEvent` that `toPullRequestEvent` fills in. -/
structure PullRequestEvent where
  Timestamp : Int
  Action : String
  Number : Int
  PullRequest : Option PullRequest
  Repository : Repository
  Sender : User
  Assignee : Option User
deriving DecidableEq

/-- The `WebHookConfig` of the source. -/
structure WebHookConfig where
  ContentType : String
  URL : String
deriving DecidableEq

/-- The fields of `WebHook` the embedded code reads or writes. -/
structure WebHook where
  ID : Option Int
  Name : String
  Active : Bool
  Events : Option (List String)
  Config : WebHookConfig
deriving DecidableEq

/-- The `ConfigGithub` of `main.go`. -/
structure ConfigGithub where
  Secret : String
  Endpoint : String
  PublicAddress : String
  PRPageSize : Int
  WebhookPageSize : Int
  Token : String
deriving DecidableEq

/-- The mutable fields of `Crawler` (the Elasticsearch client handle is part of the world). -/
structure Crawler where
  Config : ConfigGithub
  next : Int
  list : List Repository
  remaining : Int
  lowNotise : Bool
deriving DecidableEq

/-- The errors the embedded functions return. `statusNotAccepted` and `statusUnauthorized` are the
two package-level sentinels; the others stand for the errors of the libraries. -/
inductive Err where
  | statusNotAccepted
  | statusUnauthorized
  | transport
  | readBody
  | unmarshal
  | marshal
deriving DecidableEq

/-- Sentinel `ErrStatusNotAccepted`. -/
def ErrStatusNotAccepted : Err := Err.statusNotAccepted

/-- Sentinel `ErrStatusUnauthorized`. -/
def ErrStatusUnauthorized : Err := Err.statusUnauthorized

/-- The run-time panics of the embedded code. -/
inductive Panic where
  | nilDereference
  | indexOutOfRange
  | typeAssertion
  | explicit (e : Err)
deriving DecidableEq

/-! ## Decimal formatting and parsing (`fmt` with `%v` on integers, `strconv.Atoi`) -/

/-- The character of a decimal digit. -/
def digitChar (d : Nat) : Char := Char.ofNat (48 + d)

/-- Decimal digits of `n`, most significant first; the first argument bounds the number of digits
and `n + 1` is always enough. -/
def natDigits : Nat → Nat → List Char
  | 0, _ => []
  | fuel + 1, n => if n < 10 then [digitChar n] else natDigits fuel (n / 10) ++ [digitChar (n % 10)]

/-- Decimal rendering of a natural number. -/
def formatNat (n : Nat) : List Char := natDigits (n + 1) n

/-- Decimal rendering of an integer the way `%v` prints an `int64`: a minus sign for a negative
value, then the digits. -/
def formatInt (i : Int) : String :=
  if i < 0 then String.mk ('-' :: formatNat (-i).toNat) else String.mk (formatNat i.toNat)

/-- Value of a run of characters read as decimal digits. -/
def digitsValue (ds : List Char) : Nat :=
  ds.foldl (fun acc ch => 10 * acc + (ch.toNat - 48)) 0

/-- Go `strconv.Atoi` (and `strconv.ParseInt(s, 10, 64)`, which accepts the same inputs on a
64-bit platform): an optional sign, then at least one character, all of them decimal digits, and a
value that fits an `int64`; anything else is an error. -/
def Atoi (s : String) : Option Int :=
  match s.data with
  | [] => none
  | ch :: rest =>
    let neg : Bool := ch = '-'
    let ds : List Char := if ch = '-' ∨ ch = '+' then rest else ch :: rest
    if ds = [] ∨ ds.all Char.isDigit = false then none
    else
      let v : Int := if neg then -(digitsValue ds : Int) else (digitsValue ds : Int)
      if v < -9223372036854775808 ∨ 9223372036854775807 < v then none else some v

/-! ## MD5 (RFC 1321, as implemented by Go `crypto/md5`) and the UUID text form -/

/-- Per-round shift amounts. -/
def md5Shifts : List Nat :=
  [7, 12, 17, 22, 7, 12, 17, 22, 7, 12, 17, 22, 7, 12, 17, 22,
   5, 9, 14, 20, 5, 9, 14, 20, 5, 9, 14, 20, 5, 9, 14, 20,
   4, 11, 16, 23, 4, 11, 16, 23, 4, 11, 16, 23, 4, 11, 16, 23,
   6, 10, 15, 21, 6, 10, 15, 21, 6, 10, 15, 21, 6, 10, 15, 21]

/-- The sine-derived constants of the 64 steps. -/
def md5Sines : List Nat :=
  [0xd76aa478, 0xe8c7b756, 0x242070db, 0xc1bdceee,
   0xf57c0faf, 0x4787c62a, 0xa8304613, 0xfd469501,
   0x698098d8, 0x8b44f7af, 0xffff5bb1, 0x895cd7be,
   0x6b901122, 0xfd987193, 0xa679438e, 0x49b40821,
   0xf61e2562, 0xc040b340, 0x265e5a51, 0xe9b6c7aa,
   0xd62f105d, 0x02441453, 0xd8a1e681, 0xe7d3fbc8,
   0x21e1cde6, 0xc33707d6, 0xf4d50d87, 0x455a14ed,
   0xa9e3e905, 0xfcefa3f8, 0x676f02d9, 0x8d2a4c8a,
   0xfffa3942, 0x8771f681, 0x6d9d6122, 0xfde5380c,
   0xa4beea44, 0x4bdecfa9, 0xf6bb4b60, 0xbebfbc70,
   0x289b7ec6, 0xeaa127fa, 0xd4ef3085, 0x04881d05,
   0xd9d4d039, 0xe6db99e5, 0x1fa27cf8, 0xc4ac5665,
   0xf4292244, 0x432aff97, 0xab9423a7, 0xfc93a039,
   0x655b59c3, 0x8f0ccc92, 0xffeff47d, 0x85845dd1,
   0x6fa87e4f, 0xfe2ce6e0, 0xa3014314, 0x4e0811a1,
   0xf7537e82, 0xbd3af235, 0x2ad7d2bb, 0xeb86d391]

/-- Reduction to a 32-bit word. -/
def word32 (x : Nat) : Nat := x % 4294967296

/-- Bitwise complement of a 32-bit word. -/
def not32 (x : Nat) : Nat := word32 x ^^^ 4294967295

/-- Left rotation of a 32-bit word. -/
def rotl32 (x n : Nat) : Nat := word32 ((x <<< n) ||| (x >>> (32 - n)))

/-- Little-endian bytes of a value, `k` of them. -/
def leBytes : Nat → Nat → List Nat
  | 0, _ => []
  | k + 1, x => (x % 256) :: leBytes k (x / 256)

/-- The padded message: a `0x80` byte, zero bytes up to 56 modulo 64, then the bit length as a
64-bit little-endian number. -/
def md5Pad (msg : List Nat) : List Nat :=
  msg ++ [128] ++ List.replicate ((119 - msg.length % 64) % 64) 0
    ++ leBytes 8 ((8 * msg.length) % 18446744073709551616)

/-- The `j`-th little-endian 32-bit word of a block. -/
def md5Word (block : List Nat) (j : Nat) : Nat :=
  block.getD (4 * j) 0 + 256 * block.getD (4 * j + 1) 0 + 65536 * block.getD (4 * j + 2) 0
    + 16777216 * block.getD (4 * j + 3) 0

/-- The four chaining words. -/
structure Md5State where
  a : Nat
  b : Nat
  c : Nat
  d : Nat
deriving DecidableEq

/-- One of the 64 steps of the compression function. -/
def md5Step (block : List Nat) (st : Md5State) (i : Nat) : Md5State :=
  let f : Nat :=
    if i < 16 then (st.b &&& st.c) ||| (not32 st.b &&& st.d)
    else if i < 32 then (st.d &&& st.b) ||| (not32 st.d &&& st.c)
    else if i < 48 then st.b ^^^ st.c ^^^ st.d
    else st.c ^^^ (st.b ||| not32 st.d)
  let g : Nat :=
    if i < 16 then i
    else if i < 32 then (5 * i + 1) % 16
    else if i < 48 then (3 * i + 5) % 16
    else (7 * i) % 16
  let t : Nat := word32 (f + st.a + md5Sines.getD i 0 + md5Word block g)
  { a := st.d, b := word32 (st.b + rotl32 t (md5Shifts.getD i 0)), c := st.b, d := st.c }

/-- The compression function on one 64-byte block. -/
def md5Block (st : Md5State) (block : List Nat) : Md5State :=
  let r := (List.range 64).foldl (md5Step block) st
  { a := word32 (st.a + r.a), b := word32 (st.b + r.b),
    c := word32 (st.c + r.c), d := word32 (st.d + r.d) }

/-- Compression of the first `n` blocks of a padded message. -/
def md5Blocks : Nat → List Nat → Md5State → Md5State
  | 0, _, st => st
  | n + 1, bytes, st => md5Blocks n (bytes.drop 64) (md5Block st (bytes.take 64))

/-- The MD5 digest of a byte string: `h := md5.New(); h.Write(b); h.Sum(nil)`. -/
def md5Sum (msg : List Nat) : List Nat :=
  let padded := md5Pad msg
  let st := md5Blocks (padded.length / 64) padded
    { a := 0x67452301, b := 0xefcdab89, c := 0x98badcfe, d := 0x10325476 }
  leBytes 4 st.a ++ leBytes 4 st.b ++ leBytes 4 st.c ++ leBytes 4 st.d

/-- The bytes of a Go string (UTF-8). -/
def utf8Bytes (s : String) : List Nat :=
  s.data.flatMap (fun ch => (String.utf8EncodeChar ch).map UInt8.toNat)

/-- A lowercase hexadecimal digit. -/
def hexDigit (n : Nat) : Char :=
  if n < 10 then Char.ofNat (48 + n) else Char.ofNat (87 + n)

/-- Two lowercase hexadecimal digits per byte. -/
def hexBytes (bs : List Nat) : List Char :=
  bs.flatMap (fun b => [hexDigit (b / 16 % 16), hexDigit (b % 16)])

/-- A `uuid.UUID`: `uuid.FromBytes` accepts exactly the slices of 16 bytes. -/
def uuidFromBytes (bs : List Nat) : Except Err (List Nat) :=
  if bs.length = 16 then .ok bs else .error Err.unmarshal

/-- The method `UUID.String`: groups of 4, 2, 2, 2 and 6 bytes in hexadecimal, joined by
hyphens. -/
def uuidString (u : List Nat) : String :=
  String.mk (hexBytes (u.take 4) ++ '-' :: hexBytes ((u.drop 4).take 2)
    ++ '-' :: hexBytes ((u.drop 6).take 2) ++ '-' :: hexBytes ((u.drop 8).take 2)
    ++ '-' :: hexBytes ((u.drop 10).take 6))

/-- The string `generateUUID` hands to the hash:
`fmt.Sprintf("%v%v%v%v", pr.Base.Repo.FullName, pr.ID, pr.Number, pr.State)`. -/
def generateString (pr : PullRequest) : String :=
  pr.Base.Repo.FullName ++ formatInt pr.ID ++ formatInt pr.Number ++ pr.State

/-- The method `PullRequest.generateUUID`. The argument `randomUUID` is what `uuid.New().String()`
would return in the fallback branch. -/
def generateUUID (randomUUID : String) (pr : PullRequest) : String :=
  let bs := md5Sum (utf8Bytes (generateString pr))
  match uuidFromBytes bs with
  | .error _ => randomUUID
  | .ok u => uuidString u

/-! ## The world of a tick and the state the code mutates -/

/-- An HTTP response as far as the code inspects it. `readErr` tells that `io.ReadAll(resp.Body)`
fails. Header names are in canonical form, the form `http.Header.Get` looks up. -/
structure Response where
  StatusCode : Int
  Header : List (String × String)
  Body : String
  readErr : Bool
deriving DecidableEq

/-- An Elasticsearch response as far as the code inspects it. -/
structure EsResponse where
  StatusCode : Int
  Body : String
deriving DecidableEq

/-- The remote calls, as they are logged. -/
inductive Call where
  | getRepositories (url : String)
  | getPullRequests (url : String)
  | getWebHooks (url : String)
  | postWebHook (url : String) (body : String)
  | esCreate (index : String) (documentID : String) (body : String)
deriving DecidableEq

/-- What does not belong to the repository: the global configuration value the tick reads and the
behaviour of the libraries on the data they are handed.
* `unmarshal*` is `json.Unmarshal` into the slice type at hand (`none`: it returns an error);
* `marshal*` is `json.Marshal` (`none`: it returns an error);
* `linkNext` gives the URLs of `linkheader.Parse(h).FilterByRel("next")`, in order;
* `esErrorObject` tells whether a body decodes to a JSON object whose member `error` is itself an
  object, which is what the two type assertions of `printESError` need;
* `randomUUID` is the value of `uuid.New().String()`. -/
structure Env where
  elasticIndex : String
  unmarshalRepositories : String → Option (List Repository)
  unmarshalPullRequests : String → Option (List PullRequest)
  unmarshalWebHooks : String → Option (List WebHook)
  marshalEvent : PullRequestEvent → Option String
  marshalWebHook : WebHook → Option String
  linkNext : String → List String
  esErrorObject : String → Bool
  randomUUID : String

/-- The answers one tick receives. `none` as an answer is a transport failure (`client.Do` or the
Elasticsearch client returns an error); a list of answers that runs out stands for a remote side
that no longer answers. `repoPages` answers the successive page fetches of `ListRepositories`,
`esAnswers` the successive create requests. -/
structure World where
  now : Int
  repoPages : List (Option Response)
  pullsAnswer : Option Response
  hooksAnswer : Option Response
  hookPostAnswer : Option Response
  esAnswers : List (Option EsResponse)

/-- The state the code mutates: the crawler, the four Prometheus gauges (kept as integers) and the
log of remote calls, oldest first. -/
structure St where
  c : Crawler
  ratelimit_used : Int
  ratelimit_remaining : Int
  ratelimit_total : Int
  ratelimit_reset : Int
  calls : List Call
deriving DecidableEq

/-- Result of running a piece of code: it returns a value, or it panics; the state reached is kept
in both cases. -/
inductive Res (α : Type) where
  | ok (a : α) (s : St)
  | panic (p : Panic) (s : St)
deriving DecidableEq

/-- The state reached. -/
def Res.state {α : Type} : Res α → St
  | .ok _ s => s
  | .panic _ s => s

/-- Code that reads and writes the state and may panic. -/
def M (α : Type) : Type := St → Res α

/-- Returning a value. -/
def M.pure {α : Type} (a : α) : M α := fun s => Res.ok a s

/-- Sequencing; a panic ends the run. -/
def M.bind {α β : Type} (m : M α) (f : α → M β) : M β := fun s =>
  match m s with
  | Res.ok a s1 => f a s1
  | Res.panic p s1 => Res.panic p s1

instance : Monad M where
  pure := M.pure
  bind := M.bind

/-- A panic. -/
def panicM {α : Type} (p : Panic) : M α := fun s => Res.panic p s

/-- Read the crawler. -/
def getCrawler : M Crawler := fun s => Res.ok s.c s

/-- Update the crawler. -/
def modifyCrawler (f : Crawler → Crawler) : M Unit := fun s => Res.ok () { s with c := f s.c }

/-- Append a remote call to the log. -/
def logCall (call : Call) : M Unit := fun s => Res.ok () { s with calls := s.calls ++ [call] }

/-! ## Rate limits (`crawlrequests.go`, lines 194-245) -/

/-- Go `http.Header.Get`: the first value stored under the name, the empty string if none. -/
def headerGet (header : List (String × String)) (name : String) : String :=
  (header.lookup name).getD ""

/-- The function `convertVar`: the header value as an integer, nil when `strconv.Atoi` fails. -/
def convertVar (header : List (String × String)) (name : String) : Option Int :=
  Atoi (headerGet header name)

/-- The struct `RateLimit`; its four fields are pointers. -/
structure RateLimit where
  Used : Option Int
  Remaining : Option Int
  Total : Option Int
  Reset : Option Int
deriving DecidableEq

/-- Go `time.Unix(sec, 0)`. -/
def timeUnix (sec : Int) : Int := sec * 1000000000

/-- Go `Time.Unix()`: whole seconds since the epoch. -/
def unixSeconds (t : Int) : Int := t / 1000000000

/-- The method `RateLimit.setGauges`: four dereferences in the order of the source, each storing a
gauge; a nil field panics at its dereference. -/
def setGauges (now : Int) (r : RateLimit) : M Unit := fun s =>
  match r.Used with
  | none => Res.panic Panic.nilDereference s
  | some used =>
    let s1 := { s with ratelimit_used := used }
    match r.Remaining with
    | none => Res.panic Panic.nilDereference s1
    | some remaining =>
      let s2 := { s1 with ratelimit_remaining := remaining }
      match r.Total with
      | none => Res.panic Panic.nilDereference s2
      | some total =>
        let s3 := { s2 with ratelimit_total := total }
        match r.Reset with
        | none => Res.panic Panic.nilDereference s3
        | some reset =>
          Res.ok () { s3 with ratelimit_reset := unixSeconds reset - unixSeconds now }

/-- The method `Crawler.getRateLimits`. The assignment `c.remaining = *remaining` dereferences the
result of `convertVar` unconditionally. -/
def getRateLimits (now : Int) (header : List (String × String)) : M RateLimit := do
  let used := convertVar header "X-Ratelimit-Used"
  let remaining := convertVar header "X-Ratelimit-Remaining"
  match remaining with
  | none => panicM Panic.nilDereference
  | some r =>
    modifyCrawler (fun c => { c with remaining := r })
    let limit := convertVar header "X-Ratelimit-Limit"
    let reset : Option Int := (Atoi (headerGet header "X-Ratelimit-Reset")).map timeUnix
    let ratelimit : RateLimit := { Used := used, Remaining := remaining, Total := limit, Reset := reset }
    setGauges now ratelimit
    pure ratelimit

/-! ## Page fetchers (`crawlrequests.go`, lines 129-192 and 348-464)

`http.NewRequest("GET", url, nil)` fails only on a URL that does not parse; the URLs at hand are
fixed well-formed addresses joined with repository names the API returned, and the request
construction is taken to succeed. On a decode error the source returns the partially decoded
slice next to the error; every caller drops it, and so does the embedding. -/

/-- The URL of the first link with relation `next`, or the empty string. -/
def nextURLOf (env : Env) (header : List (String × String)) : String :=
  (env.linkNext (headerGet header "Link")).headD ""

/-- The method `Crawler.getRepositoriesPage`; `answer` is what `client.Do` yields. The two status
checks come before the rate-limit bookkeeping. -/
def getRepositoriesPage (env : Env) (now : Int) (url : String) (answer : Option Response) :
    M (Except Err (List Repository × String)) := do
  logCall (Call.getRepositories url)
  match answer with
  | none => pure (.error Err.transport)
  | some resp =>
    if resp.StatusCode = 401 then pure (.error ErrStatusUnauthorized)
    else if resp.StatusCode ≠ 200 then pure (.error ErrStatusNotAccepted)
    else do
      let _ ← getRateLimits now resp.Header
      let nextURL := nextURLOf env resp.Header
      if resp.readErr then pure (.error Err.readBody)
      else
        match env.unmarshalRepositories resp.Body with
        | none => pure (.error Err.unmarshal)
        | some r => pure (.ok (r, nextURL))

/-- The loop of `Crawler.ListRepositories`, by recursion on the answers still to come. -/
def ListRepositories_loop (env : Env) (now : Int) :
    List (Option Response) → String → List Repository → M (Except Err (List Repository))
  | [], next, r =>
    if next = "" then pure (.ok r)
    else do
      let page ← getRepositoriesPage env now next none
      match page with
      | .error e => pure (.error e)
      | .ok (page, _) => pure (.ok (r ++ page))
  | answer :: rest, next, r =>
    if next = "" then pure (.ok r)
    else do
      let page ← getRepositoriesPage env now next answer
      match page with
      | .error e => pure (.error e)
      | .ok (page, nextURL) => ListRepositories_loop env now rest nextURL (r ++ page)

/-- The method `Crawler.ListRepositories`. -/
def ListRepositories (env : Env) (now : Int) (answers : List (Option Response)) :
    M (Except Err (List Repository)) :=
  ListRepositories_loop env now answers "https://api.github.com/user/repos" []

/-- The method `Crawler.getPullRequestsPage`; the rate-limit bookkeeping comes before the status
checks. -/
def getPullRequestsPage (env : Env) (now : Int) (url : String) (answer : Option Response) :
    M (Except Err (List PullRequest × String)) := do
  logCall (Call.getPullRequests url)
  match answer with
  | none => pure (.error Err.transport)
  | some resp =>
    let _ ← getRateLimits now resp.Header
    let nextURL := nextURLOf env resp.Header
    if resp.StatusCode = 401 then pure (.error ErrStatusUnauthorized)
    else if resp.StatusCode ≠ 200 then pure (.error ErrStatusNotAccepted)
    else if resp.readErr then pure (.error Err.readBody)
    else
      match env.unmarshalPullRequests resp.Body with
      | none => pure (.error Err.unmarshal)
      | some r => pure (.ok (r, nextURL))

/-- The method `Crawler.getWebHooksPage`; same shape as `getPullRequestsPage`. -/
def getWebHooksPage (env : Env) (now : Int) (url : String) (answer : Option Response) :
    M (Except Err (List WebHook × String)) := do
  logCall (Call.getWebHooks url)
  match answer with
  | none => pure (.error Err.transport)
  | some resp =>
    let _ ← getRateLimits now resp.Header
    let nextURL := nextURLOf env resp.Header
    if resp.StatusCode = 401 then pure (.error ErrStatusUnauthorized)
    else if resp.StatusCode ≠ 200 then pure (.error ErrStatusNotAccepted)
    else if resp.readErr then pure (.error Err.readBody)
    else
      match env.unmarshalWebHooks resp.Body with
      | none => pure (.error Err.unmarshal)
      | some r => pure (.ok (r, nextURL))

/-! ## Time arithmetic used by the retention test -/

/-- One hour, in nanoseconds (`time.Hour`). -/
def Hour : Int := 3600000000000

/-- Go `time.Since(t)`, that is `time.Now().Sub(t)`: the difference, saturated to the range of a
`Duration`. -/
def Since (now t : Int) : Int :=
  if now - t < -(9223372036854775808 : Int) then -(9223372036854775808 : Int)
  else if (9223372036854775807 : Int) < now - t then 9223372036854775807
  else now - t

/-- Go `Duration.Hours()`: `float64(d / Hour) + float64(d % Hour) / (60*60*1e9)`, with the
truncating division of Go. The value is kept as an exact rational: both summands are rounded to
floating point in the source, which does not move the sum across the exactly representable
bound 48 it is compared with. -/
def Hours (d : Int) : ℚ :=
  ((Int.tdiv d Hour : Int) : ℚ) + ((Int.tmod d Hour : Int) : ℚ) / 3600000000000

/-! ## Event normalisation (`crawlrequests.go`, lines 335-346; `payload.go`, lines 195-198) -/

/-- The method `PullRequest.toPullRequestEvent`. -/
def toPullRequestEvent (pr : PullRequest) : Except Err PullRequestEvent :=
  .ok { Timestamp := pr.CreatedAt
        Action := "periodic_pull"
        Number := pr.Number
        PullRequest := some pr
        Repository := pr.Base.Repo
        Sender := pr.Head.User
        Assignee := pr.Assignee }

/-- The method `PullRequestEvent.parse`: the receiver after the call, and what `json.Marshal`
returns for it. -/
def parse (env : Env) (now : Int) (pr : PullRequestEvent) :
    PullRequestEvent × Except Err String :=
  let pr1 : PullRequestEvent := { pr with Timestamp := now }
  (pr1, match env.marshalEvent pr1 with
        | none => .error Err.marshal
        | some bytes => .ok bytes)

/-- The function `printESError` of `main.go`: the log line evaluates
`e["error"].(map[string]interface{})` twice, which panics unless the body is an object with an
object under `error`. -/
def printESError (env : Env) (res : EsResponse) : M Unit :=
  if env.esErrorObject res.Body then pure () else panicM Panic.typeAssertion

/-! ## Webhook reconciliation (`main.go`, lines 89-103; `crawlrequests.go`, lines 393-506) -/

/-- The method `ConfigGithub.getWebHookURL`. Indexing the last byte of `PublicAddress` or the
first byte of `Endpoint` panics on an empty string. A byte equals the slash exactly when the
character at that place is the slash. -/
def getWebHookURL (c : ConfigGithub) : Except Panic String :=
  if c.PublicAddress = "" ∧ c.Endpoint = "" then .ok ""
  else
    match c.PublicAddress.data.getLast? with
    | none => .error Panic.indexOutOfRange
    | some last =>
      if last = '/' then
        match c.Endpoint.data with
        | [] => .error Panic.indexOutOfRange
        | e0 :: rest =>
          if e0 = '/' then .ok (c.PublicAddress ++ String.mk rest)
          else .ok (c.PublicAddress ++ c.Endpoint)
      else
        match c.Endpoint.data with
        | [] => .error Panic.indexOutOfRange
        | e0 :: _ =>
          if e0 = '/' then .ok (c.PublicAddress ++ c.Endpoint)
          else .ok (c.PublicAddress ++ "/" ++ c.Endpoint)

/-- The method `WebHook.String`, called on a `*WebHook`: it dereferences the receiver and its
`ID`. -/
def WebHook_String (webhook : Option WebHook) : Except Panic String :=
  match webhook with
  | none => .error Panic.nilDereference
  | some w =>
    match w.ID with
    | none => .error Panic.nilDereference
    | some id => .ok ("ID: " ++ formatInt id ++ ", URL: " ++ w.Config.URL)

/-- The method `Crawler.createWebHook`. Its last step is `json.Unmarshal(bodyText, r)` with `r` a
nil `*WebHook`, which returns an error for every body. -/
def createWebHook (env : Env) (now : Int) (url : String) (webhook : WebHook)
    (answer : Option Response) : M (Except Err (Option WebHook)) :=
  match env.marshalWebHook webhook with
  | none => pure (.error Err.marshal)
  | some marshalled => do
    logCall (Call.postWebHook url marshalled)
    match answer with
    | none => pure (.error Err.transport)
    | some resp =>
      let _ ← getRateLimits now resp.Header
      if resp.StatusCode = 401 then pure (.error ErrStatusUnauthorized)
      else if resp.StatusCode ≠ 200 then pure (.error ErrStatusNotAccepted)
      else if resp.readErr then pure (.error Err.readBody)
      else pure (.error Err.unmarshal)

/-- The method `Crawler.updateWebHooks`; the result is the error it returns, if any. -/
def updateWebHooks (env : Env) (w : World) (repoFullName : String) : M (Option Err) := do
  let c ← getCrawler
  match getWebHookURL c.Config with
  | .error p => panicM p
  | .ok webhookURL =>
    if webhookURL ≠ "" then
      let hooksURL := "https://api.github.com/repos/" ++ repoFullName ++ "/hooks"
      let page ← getWebHooksPage env w.now hooksURL w.hooksAnswer
      match page with
      | .error e => pure (some e)
      | .ok (webhooks, _) =>
        let c1 ← getCrawler
        match getWebHookURL c1.Config with
        | .error p => panicM p
        | .ok url =>
          let newWebhookObject : WebHook :=
            { ID := none, Name := "web", Active := true, Events := some ["pull_request"],
              Config := { URL := url, ContentType := "json" } }
          let found := webhooks.any (fun webhook => webhook.Config.URL = newWebhookObject.Config.URL)
          if found then pure none
          else
            let created ← createWebHook env w.now hooksURL newWebhookObject w.hookPostAnswer
            match created with
            | .error e => pure (some e)
            | .ok newWebhook =>
              match WebHook_String newWebhook with
              | .error p => panicM p
              | .ok _ => pure none
    else pure none

/-! ## The tick (`crawlrequests.go`, lines 32-127) -/

/-- Lines 70-78 of `Tick`: whether a pull request is pushed. A closed pull request dereferences
`ClosedAt`. -/
def Tick_push (now : Int) (pull : PullRequest) : M Bool :=
  if pull.State = "closed" then
    match pull.ClosedAt with
    | none => panicM Panic.nilDereference
    | some closedAt => pure (decide (¬ (48 : ℚ) < Hours (Since now closedAt)))
  else pure true

/-- Lines 70-111 of `Tick`, the body of the loop over the pull requests; it returns the answers of
Elasticsearch that are still to come. -/
def Tick_pull (env : Env) (now : Int) (pull : PullRequest)
    (answers : List (Option EsResponse)) : M (List (Option EsResponse)) := do
  let push ← Tick_push now pull
  if push then
    match toPullRequestEvent pull with
    | .error _ => pure answers
    | .ok event =>
      let byteArray : String :=
        match (parse env now event).2 with
        | .error _ => ""
        | .ok bytes => bytes
      let uuid := generateUUID env.randomUUID pull
      logCall (Call.esCreate env.elasticIndex uuid byteArray)
      match answers with
      | [] => pure []
      | none :: rest => pure rest
      | some res :: rest =>
        if 299 < res.StatusCode then
          if res.StatusCode = 409 then pure rest
          else do
            printESError env res
            pure rest
        else pure rest
  else pure answers

/-- Lines 69-113 of `Tick`: the loop over the pull requests. -/
def Tick_pulls (env : Env) (now : Int) :
    List PullRequest → List (Option EsResponse) → M Unit
  | [], _ => pure ()
  | pull :: rest, answers => do
    let left ← Tick_pull env now pull answers
    Tick_pulls env now rest left

/-- Lines 34-51 of `Tick`: the refresh of an empty list (the loop that follows only logs). -/
def Tick_refresh (env : Env) (w : World) : M Unit := do
  let c ← getCrawler
  if c.list = [] then
    let res ← ListRepositories env w.now w.repoPages
    match res with
    | .error e =>
      if e = ErrStatusUnauthorized then panicM (Panic.explicit e)
      else modifyCrawler (fun c => { c with list := [], next := 0 })
    | .ok list => modifyCrawler (fun c => { c with list := list, next := 0 })
  else pure ()

/-- Go slice indexing `list[i]`: out of range for a negative index or one past the end. -/
def index {α : Type} (list : List α) (i : Int) : Option α :=
  if i < 0 then none else list.get? i.toNat

/-- The URL of the pull-request listing of a repository (lines 58-62 of `Tick`). -/
def pullsURL (config : ConfigGithub) (repository : Repository) : String :=
  let prPageSize : String :=
    if 0 < config.PRPageSize then "&per_page=" ++ formatInt config.PRPageSize else ""
  "https://api.github.com/repos/" ++ repository.FullName ++ "/pulls?state=all" ++ prPageSize

/-- Lines 120-125 of `Tick`: the cursor advance. -/
def advance (c : Crawler) : Crawler :=
  if c.next + 1 = (c.list.length : Int) then { c with next := 0, list := [] }
  else { c with next := c.next + 1 }

/-- Lines 52-126 of `Tick`: the quota test and the processing of one repository. -/
def Tick_process (env : Env) (w : World) : M Unit := do
  let c ← getCrawler
  if c.remaining < 2000 ∧ c.lowNotise = false then
    modifyCrawler (fun c => { c with lowNotise := true })
  else
    modifyCrawler (fun c => { c with lowNotise := false })
    match index c.list c.next with
    | none => panicM Panic.indexOutOfRange
    | some repository =>
      let URL := pullsURL c.Config repository
      let page ← getPullRequestsPage env w.now URL w.pullsAnswer
      match page with
      | .error _ => pure ()
      | .ok (pulls, _) =>
        Tick_pulls env w.now pulls w.esAnswers
        let _ ← updateWebHooks env w repository.FullName
        modifyCrawler advance

/-- The method `Crawler.Tick`. -/
def Tick (env : Env) (w : World) : M Unit := do
  Tick_refresh env w
  Tick_process env w

/-! ## Sample data used by the closed statements -/

/-- A user. -/
def sampleUser : User := { Login := "octocat", ID := 1 }

/-- Repository `A`. -/
def repoA : Repository := { ID := 1, FullName := "o/a", CreatedAt := 0 }

/-- Repository `B`. -/
def repoB : Repository := { ID := 2, FullName := "o/b", CreatedAt := 0 }

/-- An open pull request of repository `A`. -/
def pullOpen : PullRequest :=
  { ID := 7, Number := 1, State := "open", Title := "t", CreatedAt := 0, ClosedAt := none,
    Assignee := none, Head := { User := sampleUser, Repo := repoA },
    Base := { User := sampleUser, Repo := repoA } }

/-- A sample environment: bodies are decoded by name. -/
def sampleEnv : Env :=
  { elasticIndex := "idx"
    unmarshalRepositories := fun body =>
      if body = "[A,B]" then some [repoA, repoB]
      else if body = "[A]" then some [repoA]
      else if body = "[B]" then some [repoB]
      else if body = "[]" then some []
      else none
    unmarshalPullRequests := fun body =>
      if body = "[open]" then some [pullOpen] else if body = "[]" then some [] else none
    unmarshalWebHooks := fun body => if body = "[]" then some [] else none
    marshalEvent := fun _ => some "event"
    marshalWebHook := fun _ => some "hook"
    linkNext := fun h => if h = "" then [] else [h]
    esErrorObject := fun body => decide (body = "error")
    randomUUID := "random" }

/-- Headers with the four rate-limit values; `remaining` is the given text. -/
def sampleHeader (remaining : String) : List (String × String) :=
  [("X-Ratelimit-Used", "1"), ("X-Ratelimit-Remaining", remaining),
   ("X-Ratelimit-Limit", "5000"), ("X-Ratelimit-Reset", "100")]

/-- A response with the given status, remaining quota, next link and body. -/
def sampleResponse (status : Int) (remaining : String) (next : String) (body : String) : Response :=
  { StatusCode := status, Header := ("Link", next) :: sampleHeader remaining, Body := body,
    readErr := false }

/-- A configuration with a webhook address. -/
def sampleConfig : ConfigGithub :=
  { Secret := "", Endpoint := "/webhook", PublicAddress := "http://localhost", PRPageSize := 50,
    WebhookPageSize := 0, Token := "t" }

/-- A state with the given cursor, list, quota and flag, and an empty log. -/
def sampleState (next : Int) (list : List Repository) (remaining : Int) (low : Bool) : St :=
  { c := { Config := sampleConfig, next := next, list := list, remaining := remaining,
           lowNotise := low },
    ratelimit_used := 0, ratelimit_remaining := 0, ratelimit_total := 0, ratelimit_reset := 0,
    calls := [] }

/-- A world in which every call is answered with success and nothing to do. -/
def sampleWorld : World :=
  { now := 0
    repoPages := [some (sampleResponse 200 "4000" "" "[A,B]")]
    pullsAnswer := some (sampleResponse 200 "4000" "" "[open]")
    hooksAnswer := some (sampleResponse 200 "4000" "" "[]")
    hookPostAnswer := some (sampleResponse 201 "4000" "" "")
    esAnswers := [some { StatusCode := 201, Body := "" }] }

/-- The same world with a repository that has no pull requests. -/
def quietWorld : World :=
  { sampleWorld with pullsAnswer := some (sampleResponse 200 "4000" "" "[]") }

/-- A state reached in the sample runs: quota 4000 as read from the sample headers, the gauges set
from them, and the given cursor, list and log. -/
def sampleReached (next : Int) (list : List Repository) (calls : List Call) : St :=
  { c := { Config := sampleConfig, next := next, list := list, remaining := 4000,
           lowNotise := false },
    ratelimit_used := 1, ratelimit_remaining := 4000, ratelimit_total := 5000,
    ratelimit_reset := 100, calls := calls }

/-- The calls of a tick of the quiet world on repository `A`. -/
def callsA : List Call :=
  [Call.getPullRequests "https://api.github.com/repos/o/a/pulls?state=all&per_page=50",
   Call.getWebHooks "https://api.github.com/repos/o/a/hooks",
   Call.postWebHook "https://api.github.com/repos/o/a/hooks" "hook"]

/-- The calls of a tick of the quiet world on repository `B`. -/
def callsB : List Call :=
  [Call.getPullRequests "https://api.github.com/repos/o/b/pulls?state=all&per_page=50",
   Call.getWebHooks "https://api.github.com/repos/o/b/hooks",
   Call.postWebHook "https://api.github.com/repos/o/b/hooks" "hook"]

/-- The call that fetches the first page of the repository listing. -/
def callList : Call := Call.getRepositories "https://api.github.com/user/repos"

/-- The world of `sampleWorld` with a pull-request page that announces a second page. -/
def pagedWorld : World :=
  { sampleWorld with
    pullsAnswer := some (sampleResponse 200 "4000"
      "https://api.github.com/repositories/1/pulls?state=all&per_page=50&page=2" "[open]") }

/-- Two pages of repositories: the first announces the second, the second is the last. -/
def repoPage1 : Response :=
  sampleResponse 200 "4000" "https://api.github.com/user/repos?page=2" "[A]"

/-- The last page of repositories. -/
def repoPage2 : Response := sampleResponse 200 "3999" "" "[B]"

/-- A registered webhook with the expected target URL and everything else different from what
`updateWebHooks` would create: inactive, another content type, another event. -/
def driftedHook : WebHook :=
  { ID := some 5, Name := "web", Active := false, Events := some ["push"],
    Config := { URL := "http://localhost/webhook", ContentType := "form" } }

/-- The sample environment with a decoder that also knows the body listing `driftedHook`. -/
def hookEnv : Env :=
  { sampleEnv with
    unmarshalWebHooks := fun body =>
      if body = "[]" then some [] else if body = "[drifted]" then some [driftedHook] else none }

/-- The world of `sampleWorld` with `driftedHook` registered on the repository. -/
def driftedWorld : World :=
  { sampleWorld with hooksAnswer := some (sampleResponse 200 "4000" "" "[drifted]") }

/-- A response without any header. -/
def bareResponse (status : Int) (body : String) : Response :=
  { StatusCode := status, Header := [], Body := body, readErr := false }

/-- A world in which the repository listing fails in transport. -/
def offlineWorld : World := { sampleWorld with repoPages := [none] }

/-- A world in which the repository listing is answered with status 500. -/
def brokenWorld : World :=
  { sampleWorld with repoPages := [some (sampleResponse 500 "4000" "" "")] }

/-- A second open pull request of repository `A`. -/
def pullOther : PullRequest := { pullOpen with ID := 8, Number := 2 }

/-- The sample environment with a decoder that also knows a page of two pull requests. -/
def twoPullsEnv : Env :=
  { sampleEnv with
    unmarshalPullRequests := fun body =>
      if body = "[open,other]" then some [pullOpen, pullOther]
      else if body = "[open]" then some [pullOpen]
      else if body = "[]" then some []
      else none }

/-- A world with two pull requests in which Elasticsearch answers the first create request with
the given response and the second with 201. -/
def indexWorld (first : EsResponse) : World :=
  { sampleWorld with
    pullsAnswer := some (sampleResponse 200 "4000" "" "[open,other]")
    esAnswers := [some first, some { StatusCode := 201, Body := "" }] }

/-- The configuration of a crawler for which no public address is set: the endpoint keeps its
default `/webhook` and the address is empty. -/
def defaultConfig : ConfigGithub := { sampleConfig with PublicAddress := "" }

/-- The given state with another configuration. -/
def withConfig (config : ConfigGithub) (s : St) : St :=
  { s with c := { s.c with Config := config } }

/-- A pull request of repository `A` closed 48 hours and one minute before time 0. -/
def pullStale : PullRequest :=
  { pullOpen with ID := 10, Number := 4, State := "closed",
                  ClosedAt := some (-(48 * Hour + 60000000000)) }

/-- A pull request of repository `A` closed 47 hours and 59 minutes before time 0. -/
def pullRecent : PullRequest :=
  { pullOpen with ID := 9, Number := 3, State := "closed",
                  ClosedAt := some (-(48 * Hour - 60000000000)) }

/-- The sample environment with a decoder that knows a page of three pull requests. -/
def retentionEnv : Env :=
  { sampleEnv with
    unmarshalPullRequests := fun body =>
      if body = "[stale,recent,other]" then some [pullStale, pullRecent, pullOther] else none }

/-- A world at time 0 whose pull-request page holds `pullStale`, `pullRecent` and `pullOther`, and
in which Elasticsearch answers the first create request with status 502 and an HTML body, and
would answer the second with 201. -/
def retentionWorld : World :=
  { sampleWorld with
    pullsAnswer := some (sampleResponse 200 "4000" "" "[stale,recent,other]")
    esAnswers := [some { StatusCode := 502, Body := "<html>" },
                  some { StatusCode := 201, Body := "" }] }

/-! ## Vocabulary of the statements -/

/-- A relation between the state before and the state after holds for every run of `m`. -/
def Preserves {α : Type} (R : St → St → Prop) (m : M α) : Prop := ∀ s, R s (m s).state

/-- What the steps below the tick leave alone: the cursor, the list, the configuration and the
flag; and the log only grows, by calls that satisfy `P`. -/
def Frame (P : Call → Prop) (s s' : St) : Prop :=
  s'.c.list = s.c.list ∧ s'.c.next = s.c.next ∧ s'.c.Config = s.c.Config ∧
    s'.c.lowNotise = s.c.lowNotise ∧ ∃ new, s'.calls = s.calls ++ new ∧ ∀ call ∈ new, P call


/-- The answer to the pull-request fetch is a success the code accepts: status 200, a readable
body, and a body that decodes. -/
def PullsDecoded (env : Env) (answer : Option Response) : Prop :=
  ∃ resp pulls, answer = some resp ∧ resp.StatusCode = 200 ∧ resp.readErr = false ∧
    env.unmarshalPullRequests resp.Body = some pulls

/-- The URLs of the pull-request fetches in a log, in order. -/
def pullFetches (calls : List Call) : List String :=
  calls.filterMap (fun call =>
    match call with
    | Call.getPullRequests url => some url
    | _ => none)

/-- A call that lists or creates webhooks. -/
def IsHookCall (call : Call) : Prop :=
  (∃ url, call = Call.getWebHooks url) ∨ ∃ url body, call = Call.postWebHook url body

/-- A create request for one of the given pull requests. -/
def IsIndexCallOf (env : Env) (pulls : List PullRequest) (call : Call) : Prop :=
  ∃ pull ∈ pulls, ∃ body,
    call = Call.esCreate env.elasticIndex (generateUUID env.randomUUID pull) body

/-- A call that follows the pull-request fetch of a tick: a webhook call, or a create request for
a pull request of the page the fetch returned. -/
def IsFollowUpCall (env : Env) (w : World) (call : Call) : Prop :=
  IsHookCall call ∨ ∃ resp pulls, w.pullsAnswer = some resp ∧
    env.unmarshalPullRequests resp.Body = some pulls ∧ IsIndexCallOf env pulls call

/-- The log only grows, by calls that satisfy `P`. -/
def LogGrows (P : Call → Prop) (s s' : St) : Prop :=
  ∃ new, s'.calls = s.calls ++ new ∧ ∀ call ∈ new, P call

/-- A run of several ticks, one world per tick (the timer loop of `Ticker`). -/
def Ticks (env : Env) : List World → M Unit
  | [] => pure ()
  | w :: ws => do
    Tick env w
    Ticks env ws

/-- A tick that returns, finds a quota of at least 2000 when the gate is evaluated (after the
refresh, if there is one) and whose pull-request fetch is accepted. -/
def GoodTick (env : Env) (w : World) (s s' : St) : Prop :=
  ∃ s1, Tick_refresh env w s = Res.ok () s1 ∧ 2000 ≤ s1.c.remaining ∧
    PullsDecoded env w.pullsAnswer ∧ Tick_process env w s1 = Res.ok () s'

/-- Consecutive good ticks leading from one state to another. -/
def GoodRun (env : Env) : List World → St → St → Prop
  | [], s, s' => s' = s
  | w :: ws, s, s' => ∃ s1, GoodTick env w s s1 ∧ GoodRun env ws s1 s'

/-- A lowercase hexadecimal digit. -/
def IsLowerHex (ch : Char) : Prop := ch ∈ "0123456789abcdef".data

/-- The canonical text form of a UUID: 36 characters, five groups of 8, 4, 4, 4 and 12 lowercase
hexadecimal digits separated by hyphens. -/
def IsCanonicalUUID (s : String) : Prop :=
  ∃ g1 g2 g3 g4 g5 : List Char,
    s.data = g1 ++ '-' :: (g2 ++ '-' :: (g3 ++ '-' :: (g4 ++ '-' :: g5))) ∧
    g1.length = 8 ∧ g2.length = 4 ∧ g3.length = 4 ∧ g4.length = 4 ∧ g5.length = 12 ∧
    ∀ ch ∈ g1 ++ (g2 ++ (g3 ++ (g4 ++ g5))), IsLowerHex ch

/-- The value of a hexadecimal digit. -/
def hexValue (ch : Char) : Nat := if ch.toNat < 58 then ch.toNat - 48 else ch.toNat - 87

/-- The bytes written by a run of hexadecimal digits, two digits per byte. -/
def unhex : List Char → List Nat
  | a :: b :: rest => (16 * hexValue a + hexValue b) :: unhex rest
  | _ => []

/-- The bytes a UUID text stands for: the hyphens are dropped, the digits read in pairs. -/
def uuidBytes (s : String) : List Nat := unhex (s.data.filter (fun ch => ch ≠ '-'))

/-- The payload of `Test_Test_UUID_Generation` as far as `generateUUID` reads it: pull request 1
of `baxterthehacker/public-repo`, identifier 34778301, state `open`. -/
def testPayload : PullRequest :=
  { ID := 34778301, Number := 1, State := "open", Title := "Update the README with new information",
    CreatedAt := 0, ClosedAt := none, Assignee := none,
    Head := { User := { Login := "baxterthehacker", ID := 6752317 },
              Repo := { ID := 35129377, FullName := "baxterthehacker/public-repo", CreatedAt := 0 } },
    Base := { User := { Login := "baxterthehacker", ID := 6752317 },
              Repo := { ID := 35129377, FullName := "baxterthehacker/public-repo", CreatedAt := 0 } } }

/-- The four rate-limit headers of a response parse. -/
def RateLimitsParse (header : List (String × String)) : Prop :=
  (convertVar header "X-Ratelimit-Used").isSome ∧
    (convertVar header "X-Ratelimit-Remaining").isSome ∧
    (convertVar header "X-Ratelimit-Limit").isSome ∧
    (Atoi (headerGet header "X-Ratelimit-Reset")).isSome

/-- A response that serves a page of repositories: status 200, rate-limit headers that parse, a
readable body that decodes to `page`, and `next` as the URL of its first `next` link (the empty
string when it has none). -/
def ServesRepositories (env : Env) (resp : Response) (page : List Repository)
    (next : String) : Prop :=
  resp.StatusCode = 200 ∧ RateLimitsParse resp.Header ∧ resp.readErr = false ∧
    env.unmarshalRepositories resp.Body = some page ∧ nextURLOf env resp.Header = next

/-- The error contract of a page fetcher in the words of the specification (section 4.2), with
the failure to read the body placed where the code handles it: 401 is the unauthorized error, any
other status but 200 the status error, then a body that cannot be read or decoded is an error,
and a decoded body comes with the URL of the first `next` link (the empty string if none). -/
def pageContract {α : Type} (decode : String → Option (List α)) (env : Env) (resp : Response) :
    Except Err (List α × String) :=
  if resp.StatusCode = 401 then .error ErrStatusUnauthorized
  else if resp.StatusCode ≠ 200 then .error ErrStatusNotAccepted
  else if resp.readErr then .error Err.readBody
  else
    match decode resp.Body with
    | none => .error Err.unmarshal
    | some r => .ok (r, nextURLOf env resp.Header)

/-- The error `createWebHook` returns for a response, by status: 401, any other status but 200,
then the failure to read the body, then the failure to decode into a nil pointer. -/
def createContract (resp : Response) : Err :=
  if resp.StatusCode = 401 then ErrStatusUnauthorized
  else if resp.StatusCode ≠ 200 then ErrStatusNotAccepted
  else if resp.readErr then Err.readBody
  else Err.unmarshal

/-- The webhook `updateWebHooks` expects and creates (`newWebhookObject` in the source). -/
def newWebhookObject (url : String) : WebHook :=
  { ID := none, Name := "web", Active := true, Events := some ["pull_request"],
    Config := { URL := url, ContentType := "json" } }

/-- The URL of the webhook listing of a repository. -/
def hooksURL (repoFullName : String) : String :=
  "https://api.github.com/repos/" ++ repoFullName ++ "/hooks"

/-- A response that serves the list of webhooks: status 200, rate-limit headers that parse and a
readable body that decodes to `hooks`. -/
def ServesWebHooks (env : Env) (resp : Response) (hooks : List WebHook) : Prop :=
  resp.StatusCode = 200 ∧ RateLimitsParse resp.Header ∧ resp.readErr = false ∧
    env.unmarshalWebHooks resp.Body = some hooks

/-- The bounds of the cursor: 0 when the list is empty, inside the list otherwise. -/
def CursorInv (s : St) : Prop :=
  (s.c.list = [] → s.c.next = 0) ∧ (s.c.list ≠ [] → 0 ≤ s.c.next ∧ s.c.next < s.c.list.length)

/-- The retention policy as a test: not closed, or closed at most 48 hours before `now`. -/
def retained (now : Int) (pull : PullRequest) : Bool :=
  decide (pull.State ≠ "closed") ||
    (match pull.ClosedAt with
     | none => false
     | some closedAt => decide (now - closedAt ≤ 48 * Hour))

/-- The body `Tick` submits for a pull request: the serialized event, or nothing when the
serialization fails. -/
def eventBody (env : Env) (now : Int) (pull : PullRequest) : String :=
  match toPullRequestEvent pull with
  | .error _ => ""
  | .ok event =>
    match (parse env now event).2 with
    | .error _ => ""
    | .ok bytes => bytes

/-- The create request `Tick` issues for a pull request. -/
def submission (env : Env) (now : Int) (pull : PullRequest) : Call :=
  Call.esCreate env.elasticIndex (generateUUID env.randomUUID pull) (eventBody env now pull)

/-- An answer of Elasticsearch the loop of `Tick` survives: a transport failure, a status up to
299, a 409, or an error whose body carries an error object. -/
def Survivable (env : Env) (answer : Option EsResponse) : Prop :=
  ∀ res, answer = some res → 299 < res.StatusCode → res.StatusCode ≠ 409 →
    env.esErrorObject res.Body = true

/-! ## Running the monad -/

theorem bind_run {α β : Type} (m : M α) (f : α → M β) (s : St) :
    (m >>= f) s = match m s with
      | Res.ok a s1 => f a s1
      | Res.panic p s1 => Res.panic p s1 := rfl

theorem pure_run {α : Type} (a : α) (s : St) : (pure a : M α) s = Res.ok a s := rfl

theorem Preserves_pure {α : Type} {R : St → St → Prop} (hrefl : ∀ s, R s s) (a : α) :
    Preserves R (pure a : M α) := fun s => hrefl s

theorem Preserves_panicM {α : Type} {R : St → St → Prop} (hrefl : ∀ s, R s s) (p : Panic) :
    Preserves R (panicM p : M α) := fun s => hrefl s

theorem Preserves_bind {α β : Type} {R : St → St → Prop}
    (htrans : ∀ a b c, R a b → R b c → R a c) {m : M α} {f : α → M β}
    (hm : Preserves R m) (hf : ∀ a, Preserves R (f a)) : Preserves R (m >>= f) := by
  intro s
  have h1 := hm s
  rw [bind_run]
  cases hms : m s with
  | ok a s1 =>
    rw [hms] at h1
    exact htrans _ _ _ h1 (hf a s1)
  | panic p s1 =>
    rw [hms] at h1
    exact h1

theorem Frame_refl (P : Call → Prop) (s : St) : Frame P s s :=
  ⟨rfl, rfl, rfl, rfl, [], by simp, by simp⟩

theorem Frame_trans (P : Call → Prop) (a b c : St) (h1 : Frame P a b) (h2 : Frame P b c) :
    Frame P a c := by
  obtain ⟨l1, n1, c1, f1, new1, e1, p1⟩ := h1
  obtain ⟨l2, n2, c2, f2, new2, e2, p2⟩ := h2
  refine ⟨l2.trans l1, n2.trans n1, c2.trans c1, f2.trans f1, new1 ++ new2, ?_, ?_⟩
  · rw [e2, e1, List.append_assoc]
  · intro call hc
    rcases List.mem_append.mp hc with h | h
    · exact p1 call h
    · exact p2 call h

theorem Frame_mono {P Q : Call → Prop} (hPQ : ∀ call, P call → Q call) {s s' : St}
    (h : Frame P s s') : Frame Q s s' := by
  obtain ⟨l1, n1, c1, f1, new1, e1, p1⟩ := h
  exact ⟨l1, n1, c1, f1, new1, e1, fun call hc => hPQ call (p1 call hc)⟩

theorem logCall_frame (P : Call → Prop) (call : Call) (h : P call) :
    Preserves (Frame P) (logCall call) := by
  intro s
  refine ⟨rfl, rfl, rfl, rfl, [call], rfl, ?_⟩
  intro c hc
  rw [List.mem_singleton] at hc
  rw [hc]; exact h

theorem setGauges_frame (P : Call → Prop) (now : Int) (r : RateLimit) :
    Preserves (Frame P) (setGauges now r) := by
  intro s
  unfold setGauges
  rcases r with ⟨_ | u, _ | r, _ | t, _ | x⟩ <;> exact ⟨rfl, rfl, rfl, rfl, [], by simp [Res.state], by simp⟩

theorem getRateLimits_frame (P : Call → Prop) (now : Int) (header : List (String × String)) :
    Preserves (Frame P) (getRateLimits now header) := by
  unfold getRateLimits
  cases convertVar header "X-Ratelimit-Remaining" with
  | none => exact Preserves_panicM (Frame_refl P) _
  | some r =>
    refine Preserves_bind (Frame_trans P) ?_ (fun _ => ?_)
    · intro s
      exact ⟨rfl, rfl, rfl, rfl, [], by simp [modifyCrawler, Res.state], by simp⟩
    · refine Preserves_bind (Frame_trans P) (setGauges_frame P _ _) (fun _ => ?_)
      exact Preserves_pure (Frame_refl P) _

theorem getRepositoriesPage_frame (P : Call → Prop) (env : Env) (now : Int) (url : String)
    (answer : Option Response) (h : P (Call.getRepositories url)) :
    Preserves (Frame P) (getRepositoriesPage env now url answer) := by
  unfold getRepositoriesPage
  refine Preserves_bind (Frame_trans P) (logCall_frame P _ h) (fun _ => ?_)
  cases answer with
  | none => exact Preserves_pure (Frame_refl P) _
  | some resp =>
    dsimp only
    split
    · exact Preserves_pure (Frame_refl P) _
    · split
      · exact Preserves_pure (Frame_refl P) _
      · refine Preserves_bind (Frame_trans P) (getRateLimits_frame P _ _) (fun _ => ?_)
        dsimp only
        split
        · exact Preserves_pure (Frame_refl P) _
        · split <;> exact Preserves_pure (Frame_refl P) _

theorem getPullRequestsPage_frame (P : Call → Prop) (env : Env) (now : Int) (url : String)
    (answer : Option Response) (h : P (Call.getPullRequests url)) :
    Preserves (Frame P) (getPullRequestsPage env now url answer) := by
  unfold getPullRequestsPage
  refine Preserves_bind (Frame_trans P) (logCall_frame P _ h) (fun _ => ?_)
  cases answer with
  | none => exact Preserves_pure (Frame_refl P) _
  | some resp =>
    refine Preserves_bind (Frame_trans P) (getRateLimits_frame P _ _) (fun _ => ?_)
    dsimp only
    split
    · exact Preserves_pure (Frame_refl P) _
    · split
      · exact Preserves_pure (Frame_refl P) _
      · split
        · exact Preserves_pure (Frame_refl P) _
        · split <;> exact Preserves_pure (Frame_refl P) _

theorem getWebHooksPage_frame (P : Call → Prop) (env : Env) (now : Int) (url : String)
    (answer : Option Response) (h : P (Call.getWebHooks url)) :
    Preserves (Frame P) (getWebHooksPage env now url answer) := by
  unfold getWebHooksPage
  refine Preserves_bind (Frame_trans P) (logCall_frame P _ h) (fun _ => ?_)
  cases answer with
  | none => exact Preserves_pure (Frame_refl P) _
  | some resp =>
    refine Preserves_bind (Frame_trans P) (getRateLimits_frame P _ _) (fun _ => ?_)
    dsimp only
    split
    · exact Preserves_pure (Frame_refl P) _
    · split
      · exact Preserves_pure (Frame_refl P) _
      · split
        · exact Preserves_pure (Frame_refl P) _
        · split <;> exact Preserves_pure (Frame_refl P) _

theorem createWebHook_frame (P : Call → Prop) (env : Env) (now : Int) (url : String)
    (webhook : WebHook) (answer : Option Response) (h : ∀ body, P (Call.postWebHook url body)) :
    Preserves (Frame P) (createWebHook env now url webhook answer) := by
  unfold createWebHook
  split
  · exact Preserves_pure (Frame_refl P) _
  · refine Preserves_bind (Frame_trans P) (logCall_frame P _ (h _)) (fun _ => ?_)
    cases answer with
    | none => exact Preserves_pure (Frame_refl P) _
    | some resp =>
      refine Preserves_bind (Frame_trans P) (getRateLimits_frame P _ _) (fun _ => ?_)
      dsimp only
      split
      · exact Preserves_pure (Frame_refl P) _
      · split
        · exact Preserves_pure (Frame_refl P) _
        · split <;> exact Preserves_pure (Frame_refl P) _

theorem getCrawler_frame (P : Call → Prop) : Preserves (Frame P) getCrawler :=
  fun s => Frame_refl P s

theorem updateWebHooks_frame (P : Call → Prop) (env : Env) (w : World) (repoFullName : String)
    (hget : ∀ url, P (Call.getWebHooks url)) (hpost : ∀ url body, P (Call.postWebHook url body)) :
    Preserves (Frame P) (updateWebHooks env w repoFullName) := by
  unfold updateWebHooks
  refine Preserves_bind (Frame_trans P) (getCrawler_frame P) (fun c => ?_)
  split
  · exact Preserves_panicM (Frame_refl P) _
  · split
    · refine Preserves_bind (Frame_trans P) (getWebHooksPage_frame P _ _ _ _ (hget _)) (fun page => ?_)
      split
      · exact Preserves_pure (Frame_refl P) _
      · refine Preserves_bind (Frame_trans P) (getCrawler_frame P) (fun c1 => ?_)
        split
        · exact Preserves_panicM (Frame_refl P) _
        · dsimp only
          split
          · exact Preserves_pure (Frame_refl P) _
          · refine Preserves_bind (Frame_trans P) (createWebHook_frame P _ _ _ _ _ (hpost _)) (fun r => ?_)
            split
            · exact Preserves_pure (Frame_refl P) _
            · split
              · exact Preserves_panicM (Frame_refl P) _
              · exact Preserves_pure (Frame_refl P) _
    · exact Preserves_pure (Frame_refl P) _

theorem Tick_push_frame (P : Call → Prop) (now : Int) (pull : PullRequest) :
    Preserves (Frame P) (Tick_push now pull) := by
  unfold Tick_push
  split
  · split
    · exact Preserves_panicM (Frame_refl P) _
    · exact Preserves_pure (Frame_refl P) _
  · exact Preserves_pure (Frame_refl P) _

theorem printESError_frame (P : Call → Prop) (env : Env) (res : EsResponse) :
    Preserves (Frame P) (printESError env res) := by
  unfold printESError
  split
  · exact Preserves_pure (Frame_refl P) _
  · exact Preserves_panicM (Frame_refl P) _

theorem Tick_pull_frame (P : Call → Prop) (env : Env) (now : Int) (pull : PullRequest)
    (answers : List (Option EsResponse))
    (h : ∀ body, P (Call.esCreate env.elasticIndex (generateUUID env.randomUUID pull) body)) :
    Preserves (Frame P) (Tick_pull env now pull answers) := by
  unfold Tick_pull
  refine Preserves_bind (Frame_trans P) (Tick_push_frame P _ _) (fun push => ?_)
  split
  · split
    · exact Preserves_pure (Frame_refl P) _
    · refine Preserves_bind (Frame_trans P) (logCall_frame P _ (h _)) (fun _ => ?_)
      split
      · exact Preserves_pure (Frame_refl P) _
      · exact Preserves_pure (Frame_refl P) _
      · split
        · split
          · exact Preserves_pure (Frame_refl P) _
          · refine Preserves_bind (Frame_trans P) (printESError_frame P _ _) (fun _ => ?_)
            exact Preserves_pure (Frame_refl P) _
        · exact Preserves_pure (Frame_refl P) _
  · exact Preserves_pure (Frame_refl P) _

theorem Tick_pulls_frame (P : Call → Prop) (env : Env) (now : Int) (pulls : List PullRequest) :
    ∀ (answers : List (Option EsResponse)),
    (∀ pull ∈ pulls, ∀ body,
      P (Call.esCreate env.elasticIndex (generateUUID env.randomUUID pull) body)) →
    Preserves (Frame P) (Tick_pulls env now pulls answers) := by
  induction pulls with
  | nil =>
    intro answers _
    unfold Tick_pulls
    exact Preserves_pure (Frame_refl P) _
  | cons pull rest ih =>
    intro answers h
    unfold Tick_pulls
    refine Preserves_bind (Frame_trans P)
      (Tick_pull_frame P _ _ _ _ (h pull (List.mem_cons_self _ _))) (fun left => ?_)
    exact ih left (fun p hp body => h p (List.mem_cons_of_mem _ hp) body)

theorem ListRepositories_loop_frame (P : Call → Prop) (env : Env) (now : Int)
    (h : ∀ url, P (Call.getRepositories url)) (answers : List (Option Response)) :
    ∀ (next : String) (r : List Repository),
    Preserves (Frame P) (ListRepositories_loop env now answers next r) := by
  induction answers with
  | nil =>
    intro next r
    unfold ListRepositories_loop
    split
    · exact Preserves_pure (Frame_refl P) _
    · refine Preserves_bind (Frame_trans P) (getRepositoriesPage_frame P _ _ _ _ (h _)) (fun page => ?_)
      split <;> exact Preserves_pure (Frame_refl P) _
  | cons answer rest ih =>
    intro next r
    unfold ListRepositories_loop
    split
    · exact Preserves_pure (Frame_refl P) _
    · refine Preserves_bind (Frame_trans P) (getRepositoriesPage_frame P _ _ _ _ (h _)) (fun page => ?_)
      split
      · exact Preserves_pure (Frame_refl P) _
      · exact ih _ _

theorem Tick_of_nonempty (env : Env) (w : World) (s : St) (h : s.c.list ≠ []) :
    Tick env w s = Tick_process env w s := by
  unfold Tick Tick_refresh
  simp [bind_run, getCrawler, h, pure_run]

theorem Tick_process_low (env : Env) (w : World) (s : St) (h1 : s.c.remaining < 2000)
    (h2 : s.c.lowNotise = false) :
    Tick_process env w s = Res.ok () { s with c := { s.c with lowNotise := true } } := by
  unfold Tick_process
  simp [bind_run, getCrawler, h1, h2, modifyCrawler]

theorem Tick_process_run (env : Env) (w : World) (s : St) (repository : Repository)
    (hgate : ¬ (s.c.remaining < 2000 ∧ s.c.lowNotise = false))
    (hidx : index s.c.list s.c.next = some repository) :
    Tick_process env w s =
      match getPullRequestsPage env w.now (pullsURL s.c.Config repository) w.pullsAnswer
          { s with c := { s.c with lowNotise := false } } with
      | Res.panic p s1 => Res.panic p s1
      | Res.ok (.error _) s1 => Res.ok () s1
      | Res.ok (.ok (pulls, _)) s1 =>
        match Tick_pulls env w.now pulls w.esAnswers s1 with
        | Res.panic p s2 => Res.panic p s2
        | Res.ok _ s2 =>
          match updateWebHooks env w repository.FullName s2 with
          | Res.panic p s3 => Res.panic p s3
          | Res.ok _ s3 => Res.ok () { s3 with c := advance s3.c } := by
  unfold Tick_process
  simp only [bind_run, getCrawler, modifyCrawler, hgate, hidx, if_false]
  generalize getPullRequestsPage env w.now _ w.pullsAnswer _ = r
  rcases r with ⟨_ | ⟨pulls, nxt⟩, s1⟩ | ⟨p, s1⟩
  · rfl
  · simp only [bind_run]
    generalize Tick_pulls env w.now pulls w.esAnswers s1 = r2
    rcases r2 with ⟨_, s2⟩ | ⟨p, s2⟩
    · simp only []
      generalize updateWebHooks env w repository.FullName s2 = r3
      rcases r3 with ⟨_, s3⟩ | ⟨p, s3⟩ <;> rfl
    · rfl
  · rfl

theorem index_some {α : Type} (list : List α) (i : Int) (h0 : 0 ≤ i) (h1 : i < list.length) :
    ∃ a, index list i = some a ∧ list.get? i.toNat = some a := by
  have hlt : i.toNat < list.length := by omega
  refine ⟨list.get ⟨i.toNat, hlt⟩, ?_, List.get?_eq_get hlt⟩
  unfold index
  rw [if_neg (by omega)]
  exact List.get?_eq_get hlt

theorem getRateLimits_ok_calls (now : Int) (header : List (String × String)) (s : St) :
    (getRateLimits now header s).state.calls = s.calls := by
  obtain ⟨_, _, _, _, new, e, hP⟩ := getRateLimits_frame (fun _ => False) now header s
  cases new with
  | nil => simpa using e
  | cons call rest => exact (hP call (List.mem_cons_self _ _)).elim

theorem getPullRequestsPage_result (env : Env) (now : Int) (url : String)
    (answer : Option Response) (s s1 : St) (r : Except Err (List PullRequest × String))
    (h : getPullRequestsPage env now url answer s = Res.ok r s1) :
    (∃ resp pulls, answer = some resp ∧ resp.StatusCode = 200 ∧ resp.readErr = false ∧
        env.unmarshalPullRequests resp.Body = some pulls ∧
        r = .ok (pulls, nextURLOf env resp.Header)) ∨
      (¬ PullsDecoded env answer ∧ ∃ e, r = .error e) := by
  unfold getPullRequestsPage at h
  simp only [bind_run, logCall] at h
  cases answer with
  | none =>
    right
    refine ⟨?_, Err.transport, ?_⟩
    · rintro ⟨resp, pulls, h0, _⟩
      cases h0
    · simp only [pure_run] at h
      injection h with h1 h2
      exact h1.symm
  | some resp =>
    simp only [bind_run] at h
    generalize getRateLimits now resp.Header _ = g at h
    rcases g with ⟨rl, s2⟩ | ⟨p, s2⟩
    · simp only [] at h
      by_cases h401 : resp.StatusCode = 401
      · right
        simp only [h401, if_true, pure_run] at h
        injection h with h1 h2
        refine ⟨?_, _, h1.symm⟩
        rintro ⟨resp', pulls, h0, hs, _⟩
        cases h0
        omega
      · by_cases h200 : resp.StatusCode = 200
        · by_cases hread : resp.readErr = true
          · right
            simp only [h401, h200, hread, if_true, if_false, ne_eq, not_true_eq_false, pure_run] at h
            injection h with h1 h2
            refine ⟨?_, _, h1.symm⟩
            rintro ⟨resp', pulls, h0, hs, hr, _⟩
            cases h0
            rw [hread] at hr
            cases hr
          · cases hdec : env.unmarshalPullRequests resp.Body with
            | none =>
              right
              simp only [h401, h200, hread, hdec, if_true, if_false, ne_eq, not_true_eq_false,
                pure_run] at h
              injection h with h1 h2
              refine ⟨?_, _, h1.symm⟩
              rintro ⟨resp', pulls, h0, hs, hr, hd⟩
              cases h0
              rw [hdec] at hd
              cases hd
            | some pulls =>
              left
              simp only [h401, h200, hread, hdec, if_true, if_false, ne_eq, not_true_eq_false,
                pure_run] at h
              injection h with h1 h2
              exact ⟨resp, pulls, rfl, h200, by simpa using hread, hdec, h1.symm⟩
        · right
          simp only [h401, h200, if_true, if_false, ne_eq, not_false_eq_true, pure_run] at h
          injection h with h1 h2
          refine ⟨?_, _, h1.symm⟩
          rintro ⟨resp', pulls, h0, hs, _⟩
          cases h0
          exact h200 hs
    · cases h

theorem getPullRequestsPage_frame_eq (env : Env) (now : Int) (url : String)
    (answer : Option Response) (s : St) :
    Frame (fun call => call = Call.getPullRequests url) s
      (getPullRequestsPage env now url answer s).state :=
  getPullRequestsPage_frame (fun call => call = Call.getPullRequests url) env now url answer rfl s

theorem Tick_process_cursor (env : Env) (w : World) (s s' : St) (repository : Repository)
    (hgate : ¬ (s.c.remaining < 2000 ∧ s.c.lowNotise = false))
    (hidx : index s.c.list s.c.next = some repository)
    (hret : Tick_process env w s = Res.ok () s') :
    (PullsDecoded env w.pullsAnswer →
        s'.c.list = (advance s.c).list ∧ s'.c.next = (advance s.c).next) ∧
      (¬ PullsDecoded env w.pullsAnswer → s'.c.list = s.c.list ∧ s'.c.next = s.c.next) ∧
      s'.c.Config = s.c.Config := by
  rw [Tick_process_run env w s repository hgate hidx] at hret
  have hf := getPullRequestsPage_frame_eq env w.now (pullsURL s.c.Config repository)
    w.pullsAnswer { s with c := { s.c with lowNotise := false } }
  cases hg : getPullRequestsPage env w.now (pullsURL s.c.Config repository) w.pullsAnswer
      { s with c := { s.c with lowNotise := false } } with
  | panic p s1 =>
    rw [hg] at hret
    cases hret
  | ok r s1 =>
    rw [hg] at hret hf
    obtain ⟨hl1, hn1, hc1, -, -⟩ := hf
    simp only [Res.state] at hl1 hn1 hc1
    rcases getPullRequestsPage_result env w.now _ w.pullsAnswer _ s1 r hg with
      ⟨resp, pulls, ha, h200, hread, hdec, hr⟩ | ⟨hnot, e, hr⟩
    · subst hr
      simp only [] at hret
      have hf2 := Tick_pulls_frame (fun _ => True) env w.now pulls w.esAnswers
        (fun _ _ _ => trivial) s1
      cases hp : Tick_pulls env w.now pulls w.esAnswers s1 with
      | panic p s2 =>
        rw [hp] at hret
        cases hret
      | ok u s2 =>
        rw [hp] at hret hf2
        obtain ⟨hl2, hn2, hc2, -, -⟩ := hf2
        simp only [Res.state] at hl2 hn2 hc2
        simp only [] at hret
        have hf3 := updateWebHooks_frame (fun _ => True) env w repository.FullName
          (fun _ => trivial) (fun _ _ => trivial) s2
        cases hu : updateWebHooks env w repository.FullName s2 with
        | panic p s3 =>
          rw [hu] at hret
          cases hret
        | ok e s3 =>
          rw [hu] at hret hf3
          obtain ⟨hl3, hn3, hc3, -, -⟩ := hf3
          simp only [Res.state] at hl3 hn3 hc3
          simp only [] at hret
          injection hret with _ hs
          subst hs
          have hl : s3.c.list = s.c.list := by rw [hl3, hl2, hl1]
          have hn : s3.c.next = s.c.next := by rw [hn3, hn2, hn1]
          have hcfg : s3.c.Config = s.c.Config := by rw [hc3, hc2, hc1]
          refine ⟨fun _ => ?_, fun hnot => (hnot ⟨resp, pulls, ha, h200, hread, hdec⟩).elim, ?_⟩
          · simp only [advance, hl, hn]
            split <;> exact ⟨rfl, rfl⟩
          · simp only [advance]
            split <;> exact hcfg
    · subst hr
      simp only [] at hret
      injection hret with _ hs
      subst hs
      exact ⟨fun hd => (hnot hd).elim, fun _ => ⟨hl1, hn1⟩, hc1⟩

theorem getPullRequestsPage_calls (env : Env) (now : Int) (url : String)
    (answer : Option Response) (s : St) :
    (getPullRequestsPage env now url answer s).state.calls
      = s.calls ++ [Call.getPullRequests url] := by
  unfold getPullRequestsPage
  simp only [bind_run, logCall]
  cases answer with
  | none => rfl
  | some resp =>
    simp only [bind_run]
    have hc := getRateLimits_ok_calls now resp.Header
      { s with calls := s.calls ++ [Call.getPullRequests url] }
    generalize getRateLimits now resp.Header _ = g at hc
    rcases g with ⟨rl, s2⟩ | ⟨p, s2⟩
    · simp only [Res.state] at hc
      simp only []
      split
      · exact hc
      · split
        · exact hc
        · split
          · exact hc
          · cases env.unmarshalPullRequests resp.Body <;> exact hc
    · exact hc

theorem Tick_process_log (env : Env) (w : World) (s : St) (repository : Repository)
    (hgate : ¬ (s.c.remaining < 2000 ∧ s.c.lowNotise = false))
    (hidx : index s.c.list s.c.next = some repository) :
    ∃ post, (Tick_process env w s).state.calls
        = s.calls ++ Call.getPullRequests (pullsURL s.c.Config repository) :: post ∧
      ∀ call ∈ post, IsFollowUpCall env w call := by
  rw [Tick_process_run env w s repository hgate hidx]
  have hc := getPullRequestsPage_calls env w.now (pullsURL s.c.Config repository)
    w.pullsAnswer { s with c := { s.c with lowNotise := false } }
  cases hg : getPullRequestsPage env w.now (pullsURL s.c.Config repository) w.pullsAnswer
      { s with c := { s.c with lowNotise := false } } with
  | panic p s1 =>
    rw [hg] at hc
    exact ⟨[], hc, by simp⟩
  | ok r s1 =>
    rw [hg] at hc
    simp only [Res.state] at hc
    rcases getPullRequestsPage_result env w.now _ w.pullsAnswer _ s1 r hg with
      ⟨resp, pulls, ha, h200, hread, hdec, hr⟩ | ⟨hnot, e, hr⟩
    · subst hr
      simp only []
      have hP : ∀ pull ∈ pulls, ∀ body, IsFollowUpCall env w
          (Call.esCreate env.elasticIndex (generateUUID env.randomUUID pull) body) :=
        fun pull hp body => Or.inr ⟨resp, pulls, ha, hdec, pull, hp, body, rfl⟩
      have hf2 := Tick_pulls_frame (IsFollowUpCall env w) env w.now pulls w.esAnswers hP s1
      have hf3 : ∀ s2, Frame (IsFollowUpCall env w) s2
          (updateWebHooks env w repository.FullName s2).state :=
        updateWebHooks_frame (IsFollowUpCall env w) env w repository.FullName
          (fun url => Or.inl (Or.inl ⟨url, rfl⟩)) (fun url body => Or.inl (Or.inr ⟨url, body, rfl⟩))
      cases hp : Tick_pulls env w.now pulls w.esAnswers s1 with
      | panic p s2 =>
        rw [hp] at hf2
        obtain ⟨-, -, -, -, new2, e2, p2⟩ := hf2
        simp only [Res.state] at e2 ⊢
        exact ⟨new2, by rw [e2, hc]; simp, p2⟩
      | ok u s2 =>
        rw [hp] at hf2
        obtain ⟨-, -, -, -, new2, e2, p2⟩ := hf2
        simp only [Res.state] at e2
        simp only []
        have h3 := hf3 s2
        cases hu : updateWebHooks env w repository.FullName s2 with
        | panic p s3 =>
          rw [hu] at h3
          obtain ⟨-, -, -, -, new3, e3, p3⟩ := h3
          simp only [Res.state] at e3 ⊢
          refine ⟨new2 ++ new3, by rw [e3, e2, hc]; simp, ?_⟩
          intro call hcall
          rcases List.mem_append.mp hcall with h | h
          · exact p2 call h
          · exact p3 call h
        | ok e s3 =>
          rw [hu] at h3
          obtain ⟨-, -, -, -, new3, e3, p3⟩ := h3
          simp only [Res.state] at e3 ⊢
          refine ⟨new2 ++ new3, by rw [e3, e2, hc]; simp, ?_⟩
          intro call hcall
          rcases List.mem_append.mp hcall with h | h
          · exact p2 call h
          · exact p3 call h
    · subst hr
      exact ⟨[], hc, by simp⟩

theorem pullFetches_append (a b : List Call) :
    pullFetches (a ++ b) = pullFetches a ++ pullFetches b := by
  simp [pullFetches, List.filterMap_append]

theorem pullFetches_followUp (env : Env) (w : World) (post : List Call)
    (h : ∀ call ∈ post, IsFollowUpCall env w call) : pullFetches post = [] := by
  induction post with
  | nil => rfl
  | cons call rest ih =>
    have hrest := ih (fun c hc => h c (List.mem_cons_of_mem _ hc))
    have hcall := h call (List.mem_cons_self _ _)
    unfold pullFetches at hrest ⊢
    rcases hcall with (⟨url, rfl⟩ | ⟨url, body, rfl⟩) | ⟨_, _, _, _, _, _, _, rfl⟩ <;>
      simpa [List.filterMap_cons] using hrest

theorem Tick_process_pullFetches (env : Env) (w : World) (s : St) (repository : Repository)
    (hgate : ¬ (s.c.remaining < 2000 ∧ s.c.lowNotise = false))
    (hidx : index s.c.list s.c.next = some repository) :
    pullFetches (Tick_process env w s).state.calls
      = pullFetches s.calls ++ [pullsURL s.c.Config repository] := by
  obtain ⟨post, e, hpost⟩ := Tick_process_log env w s repository hgate hidx
  rw [e, pullFetches_append, ← List.singleton_append, pullFetches_append,
    pullFetches_followUp env w post hpost]
  simp [pullFetches]

theorem LogGrows_refl (P : Call → Prop) (s : St) : LogGrows P s s := ⟨[], by simp, by simp⟩

theorem LogGrows_trans (P : Call → Prop) (a b c : St) (h1 : LogGrows P a b)
    (h2 : LogGrows P b c) : LogGrows P a c := by
  obtain ⟨new1, e1, p1⟩ := h1
  obtain ⟨new2, e2, p2⟩ := h2
  refine ⟨new1 ++ new2, by rw [e2, e1, List.append_assoc], ?_⟩
  intro call hc
  rcases List.mem_append.mp hc with h | h
  · exact p1 call h
  · exact p2 call h

theorem Frame_logGrows {P : Call → Prop} {s s' : St} (h : Frame P s s') : LogGrows P s s' :=
  h.2.2.2.2

theorem Preserves_mono {α : Type} {R R' : St → St → Prop} (h : ∀ s s', R s s' → R' s s')
    {m : M α} (hm : Preserves R m) : Preserves R' m := fun s => h _ _ (hm s)

theorem modifyCrawler_logGrows (P : Call → Prop) (f : Crawler → Crawler) :
    Preserves (LogGrows P) (modifyCrawler f) := fun s => ⟨[], by simp [modifyCrawler, Res.state], by simp⟩

theorem Tick_refresh_nonempty (env : Env) (w : World) (s : St) (h : s.c.list ≠ []) :
    Tick_refresh env w s = Res.ok () s := by
  unfold Tick_refresh
  simp [bind_run, getCrawler, h, pure_run]

theorem Tick_refresh_logGrows (P : Call → Prop) (env : Env) (w : World)
    (h : ∀ url, P (Call.getRepositories url)) : Preserves (LogGrows P) (Tick_refresh env w) := by
  unfold Tick_refresh
  refine Preserves_bind (LogGrows_trans P) (fun s => LogGrows_refl P s) (fun c => ?_)
  split
  · refine Preserves_bind (LogGrows_trans P)
      (Preserves_mono (fun _ _ hf => Frame_logGrows hf)
        (ListRepositories_loop_frame P env w.now h w.repoPages _ _)) (fun res => ?_)
    split
    · split
      · exact Preserves_panicM (LogGrows_refl P) _
      · exact modifyCrawler_logGrows P _
    · exact modifyCrawler_logGrows P _
  · exact Preserves_pure (LogGrows_refl P) _

theorem Tick_refresh_cursor (env : Env) (w : World) (s s1 : St) (hempty : s.c.list = [])
    (h : Tick_refresh env w s = Res.ok () s1) :
    s1.c.next = 0 ∧ s1.c.Config = s.c.Config := by
  unfold Tick_refresh at h
  simp only [bind_run, getCrawler, hempty, if_true] at h
  have hf := ListRepositories_loop_frame (fun _ => True) env w.now (fun _ => trivial)
    w.repoPages "https://api.github.com/user/repos" [] s
  unfold ListRepositories at h
  generalize ListRepositories_loop env w.now w.repoPages _ _ s = r at h hf
  rcases r with ⟨res, s2⟩ | ⟨p, s2⟩
  · obtain ⟨-, -, hc, -, -⟩ := hf
    simp only [Res.state] at hc
    rcases res with e | list
    · simp only [] at h
      split at h
      · cases h
      · simp only [modifyCrawler] at h
        injection h with _ hs
        subst hs
        exact ⟨rfl, hc⟩
    · simp only [modifyCrawler] at h
      injection h with _ hs
      subst hs
      exact ⟨rfl, hc⟩
  · cases h

theorem Tick_process_logGrows (env : Env) (w : World) :
    Preserves (LogGrows (fun _ => True)) (Tick_process env w) := by
  intro s
  by_cases hgate : s.c.remaining < 2000 ∧ s.c.lowNotise = false
  · rw [Tick_process_low env w s hgate.1 hgate.2]
    exact ⟨[], by simp [Res.state], by simp⟩
  · cases hidx : index s.c.list s.c.next with
    | none =>
      have : Tick_process env w s
          = Res.panic Panic.indexOutOfRange { s with c := { s.c with lowNotise := false } } := by
        unfold Tick_process
        simp only [bind_run, getCrawler, modifyCrawler, hgate, hidx, if_false]
        rfl
      rw [this]
      exact ⟨[], by simp [Res.state], by simp⟩
    | some repository =>
      obtain ⟨post, e, -⟩ := Tick_process_log env w s repository hgate hidx
      exact ⟨_, e, fun _ _ => trivial⟩

theorem getRepositoriesPage_calls (env : Env) (now : Int) (url : String)
    (answer : Option Response) (s : St) :
    (getRepositoriesPage env now url answer s).state.calls
      = s.calls ++ [Call.getRepositories url] := by
  unfold getRepositoriesPage
  simp only [bind_run, logCall]
  cases answer with
  | none => rfl
  | some resp =>
    simp only []
    split
    · rfl
    · split
      · rfl
      · simp only [bind_run]
        have hc := getRateLimits_ok_calls now resp.Header
          { s with calls := s.calls ++ [Call.getRepositories url] }
        generalize getRateLimits now resp.Header _ = g at hc
        rcases g with ⟨rl, s2⟩ | ⟨p, s2⟩
        · simp only [Res.state] at hc
          simp only []
          split
          · exact hc
          · cases env.unmarshalRepositories resp.Body <;> exact hc
        · exact hc

theorem ListRepositories_loop_first (env : Env) (now : Int) (answers : List (Option Response))
    (next : String) (r : List Repository) (s : St) (hnext : next ≠ "") :
    ∃ rest, (ListRepositories_loop env now answers next r s).state.calls
      = s.calls ++ Call.getRepositories next :: rest := by
  have hc : ∀ answer, (getRepositoriesPage env now next answer s).state.calls
      = s.calls ++ [Call.getRepositories next] :=
    fun answer => getRepositoriesPage_calls env now next answer s
  cases answers with
  | nil =>
    unfold ListRepositories_loop
    rw [if_neg hnext, bind_run]
    have h := hc none
    generalize getRepositoriesPage env now next none s = g at h
    rcases g with ⟨page, s1⟩ | ⟨p, s1⟩
    · simp only [Res.state] at h
      refine ⟨[], ?_⟩
      rcases page with e | ⟨page, nxt⟩ <;> simpa [pure_run, Res.state] using h
    · exact ⟨[], by simpa [Res.state] using h⟩
  | cons answer rest =>
    unfold ListRepositories_loop
    rw [if_neg hnext, bind_run]
    have h := hc answer
    generalize getRepositoriesPage env now next answer s = g at h
    rcases g with ⟨page, s1⟩ | ⟨p, s1⟩
    · simp only [Res.state] at h
      rcases page with e | ⟨page, nxt⟩
      · exact ⟨[], by simpa [pure_run, Res.state] using h⟩
      · obtain ⟨-, -, -, -, new, e, -⟩ := ListRepositories_loop_frame (fun _ => True) env now
          (fun _ => trivial) rest nxt (r ++ page) s1
        exact ⟨new, by simp only []; rw [e, h]; simp⟩
    · exact ⟨[], by simpa [Res.state] using h⟩

theorem Tick_empty_lists_first (env : Env) (w : World) (s : St) (hempty : s.c.list = []) :
    ∃ rest, (Tick env w s).state.calls
      = s.calls ++ Call.getRepositories "https://api.github.com/user/repos" :: rest := by
  obtain ⟨rest1, h1⟩ := ListRepositories_loop_first env w.now w.repoPages
    "https://api.github.com/user/repos" [] s (by decide)
  have hmod : ∀ f, Preserves (LogGrows (fun _ => True)) (modifyCrawler f) :=
    modifyCrawler_logGrows _
  have hproc := Tick_process_logGrows env w
  unfold Tick Tick_refresh ListRepositories
  simp only [bind_run, getCrawler, hempty, if_true]
  generalize ListRepositories_loop env w.now w.repoPages _ _ s = g at h1
  rcases g with ⟨res, s1⟩ | ⟨p, s1⟩
  · simp only [Res.state] at h1
    simp only []
    have key : ∀ c1 : Crawler, ∃ rest,
        (Tick_process env w { s1 with c := c1 }).state.calls
          = s.calls ++ Call.getRepositories "https://api.github.com/user/repos" :: rest := by
      intro c1
      obtain ⟨new, e, -⟩ := hproc { s1 with c := c1 }
      exact ⟨rest1 ++ new, by rw [e]; simp only []; rw [h1]; simp⟩
    rcases res with e | list
    · simp only []
      by_cases he : e = ErrStatusUnauthorized
      · rw [if_pos he]
        exact ⟨rest1, by simpa [panicM, Res.state] using h1⟩
      · rw [if_neg he]
        simp only [modifyCrawler]
        exact key _
    · simp only [modifyCrawler]
      exact key _
  · exact ⟨rest1, by simpa [Res.state] using h1⟩

theorem drop_of_get {α : Type} (list : List α) :
    ∀ (k : Nat) (a : α), list.get? k = some a → list.drop k = a :: list.drop (k + 1) := by
  induction list with
  | nil =>
    intro k a h
    simp at h
  | cons x xs ih =>
    intro k a h
    cases k with
    | zero =>
      simp at h
      simp [h]
    | succ k =>
      simp only [List.get?_cons_succ] at h
      simpa using ih k a h

theorem GoodRun_from_cursor (env : Env) :
    ∀ (ws : List World) (s sN : St), 0 ≤ s.c.next → s.c.next < s.c.list.length →
      (ws.length : Int) = s.c.list.length - s.c.next → GoodRun env ws s sN →
      sN.c.list = [] ∧ sN.c.next = 0 ∧ sN.c.Config = s.c.Config ∧
        pullFetches sN.calls
          = pullFetches s.calls ++ (s.c.list.drop s.c.next.toNat).map (pullsURL s.c.Config) := by
  intro ws
  induction ws with
  | nil =>
    intro s sN h0 hlt hlen _
    simp at hlen
    omega
  | cons w ws ih =>
    intro s sN h0 hlt hlen hrun
    obtain ⟨s1, ⟨sr, href, hquota, hdec, hproc⟩, hrest⟩ := hrun
    have hlist : s.c.list ≠ [] := by
      intro h
      rw [h] at hlt
      simp at hlt
      omega
    rw [Tick_refresh_nonempty env w s hlist] at href
    injection href with _ hs
    subst hs
    have hgate : ¬ (s.c.remaining < 2000 ∧ s.c.lowNotise = false) := by
      rintro ⟨h, -⟩
      omega
    obtain ⟨repository, hidx, hget⟩ := index_some s.c.list s.c.next h0 hlt
    obtain ⟨hadv, -, hcfg⟩ := Tick_process_cursor env w s s1 repository hgate hidx hproc
    obtain ⟨hl, hn⟩ := hadv hdec
    have hlog := Tick_process_pullFetches env w s repository hgate hidx
    rw [hproc] at hlog
    simp only [Res.state] at hlog
    have hdrop := drop_of_get s.c.list s.c.next.toNat repository hget
    by_cases hlast : s.c.next + 1 = s.c.list.length
    · simp only [advance, if_pos hlast] at hl hn
      have hws : ws = [] := by
        apply List.eq_nil_of_length_eq_zero
        simp at hlen
        omega
      subst hws
      have hsN : sN = s1 := hrest
      subst hsN
      refine ⟨hl, hn, hcfg, ?_⟩
      have hnil : s.c.list.drop (s.c.next.toNat + 1) = [] := by
        apply List.drop_eq_nil_of_le
        omega
      rw [hlog, hdrop, hnil]
      rfl
    · simp only [advance, if_neg hlast] at hl hn
      have ih' := ih s1 sN (by rw [hn]; omega) (by rw [hn, hl]; omega)
        (by rw [hn, hl]; simp at hlen; omega) hrest
      obtain ⟨r1, r2, r3, r4⟩ := ih'
      refine ⟨r1, r2, r3.trans hcfg, ?_⟩
      rw [r4, hlog, hdrop, hl, hn, hcfg]
      have : (s.c.next + 1).toNat = s.c.next.toNat + 1 := by omega
      rw [this]
      simp

theorem GoodTick_tick {env : Env} {w : World} {s s' : St} (h : GoodTick env w s s') :
    Tick env w s = Res.ok () s' := by
  obtain ⟨s1, href, -, -, hproc⟩ := h
  unfold Tick
  rw [bind_run, href]
  exact hproc

theorem GoodRun_ticks (env : Env) :
    ∀ (ws : List World) (s sN : St), GoodRun env ws s sN → Ticks env ws s = Res.ok () sN := by
  intro ws
  induction ws with
  | nil =>
    intro s sN h
    have hs : sN = s := h
    subst hs
    rfl
  | cons w ws ih =>
    intro s sN h
    obtain ⟨s1, htick, hrest⟩ := h
    unfold Ticks
    rw [bind_run, GoodTick_tick htick]
    exact ih s1 sN hrest

theorem pullFetches_repositories (new : List Call)
    (h : ∀ call ∈ new, ∃ url, call = Call.getRepositories url) : pullFetches new = [] := by
  induction new with
  | nil => rfl
  | cons call rest ih =>
    have hrest := ih (fun c hc => h c (List.mem_cons_of_mem _ hc))
    obtain ⟨url, rfl⟩ := h call (List.mem_cons_self _ _)
    unfold pullFetches at hrest ⊢
    simpa [List.filterMap_cons] using hrest

theorem Hours_eq (d : Int) : Hours d = (d : ℚ) / 3600000000000 := by
  unfold Hours
  have h : (Hour : Int) * Int.tdiv d Hour + Int.tmod d Hour = d := Int.tdiv_add_tmod d Hour
  have hq : ((Hour : Int) : ℚ) * ((Int.tdiv d Hour : Int) : ℚ) + ((Int.tmod d Hour : Int) : ℚ)
      = (d : ℚ) := by exact_mod_cast h
  have hH : ((Hour : Int) : ℚ) = 3600000000000 := by
    unfold Hour
    norm_num
  rw [hH] at hq
  rw [← hq]
  field_simp
  ring

theorem Hours_gt_iff (d : Int) : (48 : ℚ) < Hours d ↔ 48 * Hour < d := by
  rw [Hours_eq, lt_div_iff₀ (by norm_num : (0 : ℚ) < 3600000000000)]
  have : (48 : ℚ) * 3600000000000 = ((48 * Hour : Int) : ℚ) := by
    unfold Hour
    norm_num
  rw [this, Int.cast_lt]

theorem Since_gt_iff (now t : Int) :
    (48 : Int) * 3600000000000 < Since now t ↔ (48 : Int) * 3600000000000 < now - t := by
  unfold Since
  by_cases h1 : now - t < -(9223372036854775808 : Int)
  · rw [if_pos h1]
    omega
  · rw [if_neg h1]
    by_cases h2 : (9223372036854775807 : Int) < now - t
    · rw [if_pos h2]
      omega
    · rw [if_neg h2]

theorem Tick_push_eq (now : Int) (pull : PullRequest) (s : St) :
    Tick_push now pull s =
      if pull.State = "closed" then
        match pull.ClosedAt with
        | none => Res.panic Panic.nilDereference s
        | some closedAt => Res.ok (decide (now - closedAt ≤ 48 * Hour)) s
      else Res.ok true s := by
  unfold Tick_push
  split
  · cases pull.ClosedAt with
    | none => rfl
    | some closedAt =>
      simp only [pure_run]
      congr 1
      rw [decide_eq_decide, Hours_gt_iff]
      have h := Since_gt_iff now closedAt
      have hH : (48 : Int) * Hour = 48 * 3600000000000 := rfl
      rw [hH]
      constructor
      · intro h1
        exact Int.not_lt.mp (fun h2 => h1 (h.mpr h2))
      · intro h1 h2
        exact absurd (h.mp h2) (Int.not_lt.mpr h1)
  · rfl

theorem Tick_pull_of_push_true (env : Env) (now : Int) (pull : PullRequest)
    (answers : List (Option EsResponse)) (s : St) (h : Tick_push now pull s = Res.ok true s) :
    ∃ body, (Tick_pull env now pull answers s).state.calls
      = s.calls ++ [Call.esCreate env.elasticIndex (generateUUID env.randomUUID pull) body] := by
  unfold Tick_pull
  rw [bind_run, h]
  simp only [if_true, toPullRequestEvent, bind_run, logCall]
  rcases answers with _ | ⟨_ | res, rest⟩
  · exact ⟨_, rfl⟩
  · exact ⟨_, rfl⟩
  · simp only []
    by_cases h1 : 299 < res.StatusCode
    · rw [if_pos h1]
      by_cases h2 : res.StatusCode = 409
      · rw [if_pos h2]
        exact ⟨_, rfl⟩
      · rw [if_neg h2, bind_run]
        unfold printESError
        by_cases h3 : env.esErrorObject res.Body = true
        · rw [if_pos h3]
          exact ⟨_, rfl⟩
        · rw [if_neg h3]
          exact ⟨_, rfl⟩
    · rw [if_neg h1]
      exact ⟨_, rfl⟩

theorem Tick_pull_of_push_false (env : Env) (now : Int) (pull : PullRequest)
    (answers : List (Option EsResponse)) (s : St) (h : Tick_push now pull s = Res.ok false s) :
    Tick_pull env now pull answers s = Res.ok answers s := by
  unfold Tick_pull
  rw [bind_run, h]
  rfl

theorem Tick_pull_of_push_panic (env : Env) (now : Int) (pull : PullRequest)
    (answers : List (Option EsResponse)) (s : St) (p : Panic)
    (h : Tick_push now pull s = Res.panic p s) :
    Tick_pull env now pull answers s = Res.panic p s := by
  unfold Tick_pull
  rw [bind_run, h]

/-! ### Decimal rendering -/

theorem digitChar_toNat (d : Nat) (h : d < 10) : (digitChar d).toNat - 48 = d := by
  interval_cases d <;> rfl

theorem digitChar_ne_minus (d : Nat) (h : d < 10) : digitChar d ≠ '-' := by
  interval_cases d <;> decide

theorem digitsValue_snoc (ds : List Char) (ch : Char) :
    digitsValue (ds ++ [ch]) = 10 * digitsValue ds + (ch.toNat - 48) := by
  unfold digitsValue
  rw [List.foldl_append]
  rfl

theorem natDigits_value : ∀ (fuel n : Nat), n < fuel → digitsValue (natDigits fuel n) = n := by
  intro fuel
  induction fuel with
  | zero =>
    intro n h
    omega
  | succ fuel ih =>
    intro n h
    unfold natDigits
    by_cases h10 : n < 10
    · rw [if_pos h10]
      have := digitsValue_snoc [] (digitChar n)
      simp only [List.nil_append] at this
      rw [this, digitChar_toNat n h10]
      simp [digitsValue]
    · rw [if_neg h10, digitsValue_snoc, ih (n / 10) (by omega),
        digitChar_toNat (n % 10) (Nat.mod_lt _ (by norm_num))]
      omega

theorem natDigits_digit : ∀ (fuel n : Nat) (ch : Char), ch ∈ natDigits fuel n → ch ≠ '-' := by
  intro fuel
  induction fuel with
  | zero =>
    intro n ch h
    simp [natDigits] at h
  | succ fuel ih =>
    intro n ch h
    unfold natDigits at h
    by_cases h10 : n < 10
    · rw [if_pos h10, List.mem_singleton] at h
      rw [h]
      exact digitChar_ne_minus n h10
    · rw [if_neg h10] at h
      rcases List.mem_append.mp h with h | h
      · exact ih _ ch h
      · rw [List.mem_singleton] at h
        rw [h]
        exact digitChar_ne_minus _ (Nat.mod_lt _ (by norm_num))

theorem formatNat_injective (a b : Nat) (h : formatNat a = formatNat b) : a = b := by
  have ha := natDigits_value (a + 1) a (by omega)
  have hb := natDigits_value (b + 1) b (by omega)
  unfold formatNat at h
  rw [h, hb] at ha
  exact ha.symm

theorem formatNat_head (n : Nat) (rest : List Char) : formatNat n ≠ '-' :: rest := by
  intro h
  have := natDigits_digit (n + 1) n '-' (by
    unfold formatNat at h
    rw [h]
    exact List.mem_cons_self _ _)
  exact this rfl

theorem formatInt_injective (i j : Int) (h : formatInt i = formatInt j) : i = j := by
  unfold formatInt at h
  by_cases hi : i < 0
  · by_cases hj : j < 0
    · rw [if_pos hi, if_pos hj] at h
      have h1 : formatNat (-i).toNat = formatNat (-j).toNat := by
        have := congrArg String.data h
        simpa using this
      have := formatNat_injective _ _ h1
      omega
    · rw [if_pos hi, if_neg hj] at h
      have := congrArg String.data h
      simp only at this
      exact (formatNat_head _ _ this.symm).elim
  · by_cases hj : j < 0
    · rw [if_neg hi, if_pos hj] at h
      have := congrArg String.data h
      simp only at this
      exact (formatNat_head _ _ this).elim
    · rw [if_neg hi, if_neg hj] at h
      have h1 : formatNat i.toNat = formatNat j.toNat := by
        have := congrArg String.data h
        simpa using this
      have := formatNat_injective _ _ h1
      omega

theorem generateString_data (pr : PullRequest) :
    (generateString pr).data = pr.Base.Repo.FullName.data ++
      ((formatInt pr.ID).data ++ ((formatInt pr.Number).data ++ pr.State.data)) := by
  unfold generateString
  simp [String.data_append, List.append_assoc]

/-- Equal hashed strings with aligned field boundaries come from equal fields. -/
theorem generateString_aligned (pr1 pr2 : PullRequest)
    (hs : generateString pr1 = generateString pr2)
    (hF : pr1.Base.Repo.FullName.length = pr2.Base.Repo.FullName.length)
    (hI : (formatInt pr1.ID).length = (formatInt pr2.ID).length)
    (hN : (formatInt pr1.Number).length = (formatInt pr2.Number).length) :
    pr1.Base.Repo.FullName = pr2.Base.Repo.FullName ∧ pr1.ID = pr2.ID ∧
      pr1.Number = pr2.Number ∧ pr1.State = pr2.State := by
  have h := congrArg String.data hs
  rw [generateString_data, generateString_data] at h
  obtain ⟨h1, h⟩ := List.append_inj h hF
  obtain ⟨h2, h⟩ := List.append_inj h hI
  obtain ⟨h3, h4⟩ := List.append_inj h hN
  exact ⟨String.ext h1, formatInt_injective _ _ (String.ext h2),
    formatInt_injective _ _ (String.ext h3), String.ext h4⟩

theorem generateString_length (pr : PullRequest) :
    (generateString pr).length = pr.Base.Repo.FullName.length + ((formatInt pr.ID).length +
      ((formatInt pr.Number).length + pr.State.length)) := by
  show (generateString pr).data.length = _
  rw [generateString_data, List.length_append, List.length_append, List.length_append]
  rfl

/-! ### Hexadecimal text of a digest -/

theorem hexDigit_hex (n : Nat) (h : n < 16) : IsLowerHex (hexDigit n) := by
  unfold IsLowerHex
  interval_cases n <;> decide

theorem hexDigit_ne_hyphen (n : Nat) (h : n < 16) : hexDigit n ≠ '-' := by
  interval_cases n <;> decide

theorem hexValue_hexDigit (n : Nat) (h : n < 16) : hexValue (hexDigit n) = n := by
  interval_cases n <;> rfl

theorem hexBytes_nil : hexBytes [] = [] := rfl

theorem hexBytes_cons (b : Nat) (bs : List Nat) :
    hexBytes (b :: bs) = hexDigit (b / 16 % 16) :: hexDigit (b % 16) :: hexBytes bs := by
  simp [hexBytes, List.flatMap_cons]

theorem hexBytes_append (as bs : List Nat) : hexBytes (as ++ bs) = hexBytes as ++ hexBytes bs := by
  induction as with
  | nil => rfl
  | cons a as ih => rw [List.cons_append, hexBytes_cons, hexBytes_cons, ih]; rfl

theorem hexBytes_length (bs : List Nat) : (hexBytes bs).length = 2 * bs.length := by
  induction bs with
  | nil => rfl
  | cons b bs ih =>
    rw [hexBytes_cons, List.length_cons, List.length_cons, ih, List.length_cons]
    omega

theorem hexBytes_hex (bs : List Nat) : ∀ ch ∈ hexBytes bs, IsLowerHex ch := by
  induction bs with
  | nil =>
    intro ch h
    simp [hexBytes_nil] at h
  | cons b bs ih =>
    intro ch h
    rw [hexBytes_cons] at h
    rcases List.mem_cons.mp h with h | h
    · rw [h]
      exact hexDigit_hex _ (Nat.mod_lt _ (by norm_num))
    · rcases List.mem_cons.mp h with h | h
      · rw [h]
        exact hexDigit_hex _ (Nat.mod_lt _ (by norm_num))
      · exact ih ch h

theorem hexBytes_ne_hyphen (bs : List Nat) : ∀ ch ∈ hexBytes bs, ch ≠ '-' := by
  induction bs with
  | nil =>
    intro ch h
    simp [hexBytes_nil] at h
  | cons b bs ih =>
    intro ch h
    rw [hexBytes_cons] at h
    rcases List.mem_cons.mp h with h | h
    · rw [h]
      exact hexDigit_ne_hyphen _ (Nat.mod_lt _ (by norm_num))
    · rcases List.mem_cons.mp h with h | h
      · rw [h]
        exact hexDigit_ne_hyphen _ (Nat.mod_lt _ (by norm_num))
      · exact ih ch h

theorem hexBytes_filter (bs : List Nat) :
    (hexBytes bs).filter (fun ch => ch ≠ '-') = hexBytes bs := by
  rw [List.filter_eq_self]
  intro ch h
  simpa using hexBytes_ne_hyphen bs ch h

theorem unhex_hexBytes (bs : List Nat) (h : ∀ b ∈ bs, b < 256) : unhex (hexBytes bs) = bs := by
  induction bs with
  | nil => rfl
  | cons b bs ih =>
    have hb := h b (List.mem_cons_self _ _)
    rw [hexBytes_cons, unhex, hexValue_hexDigit _ (Nat.mod_lt _ (by norm_num)),
      hexValue_hexDigit _ (Nat.mod_lt _ (by norm_num)),
      ih (fun x hx => h x (List.mem_cons_of_mem _ hx))]
    congr 1
    omega

theorem split16 (u : List Nat) (h : u.length = 16) :
    u.take 4 ++ ((u.drop 4).take 2 ++ ((u.drop 6).take 2 ++ ((u.drop 8).take 2
      ++ (u.drop 10).take 6))) = u := by
  have h1 : (u.drop 10).take 6 = u.drop 10 :=
    List.take_of_length_le (by rw [List.length_drop]; omega)
  have h2 : (u.drop 8).take 2 ++ u.drop 10 = u.drop 8 := by
    have := List.take_append_drop 2 (u.drop 8)
    rwa [List.drop_drop] at this
  have h3 : (u.drop 6).take 2 ++ u.drop 8 = u.drop 6 := by
    have := List.take_append_drop 2 (u.drop 6)
    rwa [List.drop_drop] at this
  have h4 : (u.drop 4).take 2 ++ u.drop 6 = u.drop 4 := by
    have := List.take_append_drop 2 (u.drop 4)
    rwa [List.drop_drop] at this
  rw [h1, h2, h3, h4, List.take_append_drop]

theorem uuidString_data (u : List Nat) :
    (uuidString u).data = hexBytes (u.take 4) ++ '-' :: (hexBytes ((u.drop 4).take 2)
      ++ '-' :: (hexBytes ((u.drop 6).take 2) ++ '-' :: (hexBytes ((u.drop 8).take 2)
      ++ '-' :: hexBytes ((u.drop 10).take 6)))) := by
  unfold uuidString
  simp [List.append_assoc]

theorem uuidString_canonical (u : List Nat) (h : u.length = 16) :
    IsCanonicalUUID (uuidString u) := by
  refine ⟨_, _, _, _, _, uuidString_data u, ?_, ?_, ?_, ?_, ?_, ?_⟩
  · rw [hexBytes_length, List.length_take]; omega
  · rw [hexBytes_length, List.length_take, List.length_drop]; omega
  · rw [hexBytes_length, List.length_take, List.length_drop]; omega
  · rw [hexBytes_length, List.length_take, List.length_drop]; omega
  · rw [hexBytes_length, List.length_take, List.length_drop]; omega
  · rw [← hexBytes_append, ← hexBytes_append, ← hexBytes_append, ← hexBytes_append]
    exact hexBytes_hex _

theorem uuidBytes_uuidString (u : List Nat) (h : u.length = 16) (hb : ∀ b ∈ u, b < 256) :
    uuidBytes (uuidString u) = u := by
  unfold uuidBytes
  rw [uuidString_data]
  simp only [List.filter_append, List.filter_cons, hexBytes_filter, ne_eq, not_true_eq_false,
    decide_False, Bool.false_eq_true, if_false]
  rw [← hexBytes_append, ← hexBytes_append, ← hexBytes_append, ← hexBytes_append, split16 u h]
  exact unhex_hexBytes u hb

theorem leBytes_length : ∀ (k x : Nat), (leBytes k x).length = k := by
  intro k
  induction k with
  | zero => intro x; rfl
  | succ k ih => intro x; simp [leBytes, ih]

theorem leBytes_lt : ∀ (k x b : Nat), b ∈ leBytes k x → b < 256 := by
  intro k
  induction k with
  | zero =>
    intro x b h
    simp [leBytes] at h
  | succ k ih =>
    intro x b h
    unfold leBytes at h
    rcases List.mem_cons.mp h with h | h
    · rw [h]
      exact Nat.mod_lt _ (by norm_num)
    · exact ih _ b h

theorem md5Sum_length (msg : List Nat) : (md5Sum msg).length = 16 := by
  unfold md5Sum
  simp [leBytes_length]

theorem md5Sum_lt (msg : List Nat) : ∀ b ∈ md5Sum msg, b < 256 := by
  intro b h
  unfold md5Sum at h
  simp only [List.mem_append] at h
  rcases h with ((h | h) | h) | h <;> exact leBytes_lt _ _ b h

theorem generateUUID_eq (randomUUID : String) (pr : PullRequest) :
    generateUUID randomUUID pr = uuidString (md5Sum (utf8Bytes (generateString pr))) := by
  unfold generateUUID uuidFromBytes
  simp [md5Sum_length]

/-! ### Rate limits and pages -/

theorem getRateLimits_ok (now : Int) (header : List (String × String)) (s : St)
    (h : RateLimitsParse header) :
    ∃ r rl s', convertVar header "X-Ratelimit-Remaining" = some r ∧
      getRateLimits now header s = Res.ok rl s' ∧ s'.c = { s.c with remaining := r } ∧
      s'.calls = s.calls := by
  obtain ⟨h1, h2, h3, h4⟩ := h
  obtain ⟨u, hu⟩ := Option.isSome_iff_exists.mp h1
  obtain ⟨r, hr⟩ := Option.isSome_iff_exists.mp h2
  obtain ⟨t, ht⟩ := Option.isSome_iff_exists.mp h3
  obtain ⟨x, hx⟩ := Option.isSome_iff_exists.mp h4
  have hg : getRateLimits now header s
      = Res.ok { Used := some u, Remaining := some r, Total := some t, Reset := some (timeUnix x) }
          { c := { s.c with remaining := r }, ratelimit_used := u, ratelimit_remaining := r,
            ratelimit_total := t, ratelimit_reset := unixSeconds (timeUnix x) - unixSeconds now,
            calls := s.calls } := by
    unfold getRateLimits
    simp only [hu, hr, ht, hx, bind_run, modifyCrawler, setGauges, Option.map_some', pure_run]
  exact ⟨r, _, _, hr, hg, rfl, rfl⟩

theorem getRepositoriesPage_served (env : Env) (now : Int) (url : String) (resp : Response)
    (page : List Repository) (next : String) (s : St)
    (h : ServesRepositories env resp page next) :
    ∃ s', getRepositoriesPage env now url (some resp) s = Res.ok (.ok (page, next)) s' ∧
      s'.calls = s.calls ++ [Call.getRepositories url] := by
  obtain ⟨h200, hrl, hread, hdec, hnext⟩ := h
  obtain ⟨r, rl, s1, -, hg, -, hc⟩ := getRateLimits_ok now resp.Header
    { s with calls := s.calls ++ [Call.getRepositories url] } hrl
  refine ⟨s1, ?_, hc⟩
  unfold getRepositoriesPage
  simp only [bind_run, logCall, h200, hread, hdec, hnext]
  rw [if_neg (by decide), if_neg (by decide), bind_run, hg]
  rfl

theorem ListRepositories_loop_done (env : Env) (now : Int) (answers : List (Option Response))
    (r : List Repository) (s : St) :
    ListRepositories_loop env now answers "" r s = Res.ok (.ok r) s := by
  cases answers <;> rfl

theorem ListRepositories_loop_pages (env : Env) (now : Int) (last : Response × List Repository)
    (rest : List (Option Response)) (hlast : ServesRepositories env last.1 last.2 "") :
    ∀ (pages : List (Response × List Repository × String)) (url : String)
      (acc : List Repository) (s : St), url ≠ "" →
      (∀ p ∈ pages, ServesRepositories env p.1 p.2.1 p.2.2 ∧ p.2.2 ≠ "") →
      ∃ s', ListRepositories_loop env now
            (pages.map (fun p => some p.1) ++ some last.1 :: rest) url acc s
          = Res.ok (.ok (acc ++ (pages.flatMap (fun p => p.2.1) ++ last.2))) s' ∧
        s'.calls = s.calls ++ (url :: pages.map (fun p => p.2.2)).map Call.getRepositories := by
  intro pages
  induction pages with
  | nil =>
    intro url acc s hurl _
    obtain ⟨s1, hf, hc⟩ := getRepositoriesPage_served env now url last.1 last.2 "" s hlast
    refine ⟨s1, ?_, by simpa using hc⟩
    simp only [List.map_nil, List.nil_append, List.flatMap_nil]
    unfold ListRepositories_loop
    rw [if_neg hurl, bind_run, hf]
    exact ListRepositories_loop_done env now rest _ s1
  | cons p pages ih =>
    intro url acc s hurl hp
    obtain ⟨hserve, hne⟩ := hp p (List.mem_cons_self _ _)
    obtain ⟨s1, hf, hc⟩ := getRepositoriesPage_served env now url p.1 p.2.1 p.2.2 s hserve
    obtain ⟨s2, hl, hc2⟩ := ih p.2.2 (acc ++ p.2.1) s1 hne
      (fun q hq => hp q (List.mem_cons_of_mem _ hq))
    refine ⟨s2, ?_, ?_⟩
    · simp only [List.map_cons, List.cons_append, List.flatMap_cons]
      unfold ListRepositories_loop
      rw [if_neg hurl, bind_run, hf]
      simp only []
      rw [hl, List.append_assoc, List.append_assoc]
    · rw [hc2, hc]
      simp

theorem Tick_process_log_all (env : Env) (w : World) (s : St) :
    ∃ fetched post, (Tick_process env w s).state.calls = s.calls ++ (fetched ++ post) ∧
      (fetched = [] ∨ ∃ url, fetched = [Call.getPullRequests url]) ∧
      ∀ call ∈ post, IsFollowUpCall env w call := by
  by_cases hgate : s.c.remaining < 2000 ∧ s.c.lowNotise = false
  · rw [Tick_process_low env w s hgate.1 hgate.2]
    exact ⟨[], [], by simp [Res.state], Or.inl rfl, by simp⟩
  · cases hidx : index s.c.list s.c.next with
    | none =>
      have : Tick_process env w s
          = Res.panic Panic.indexOutOfRange { s with c := { s.c with lowNotise := false } } := by
        unfold Tick_process
        simp only [bind_run, getCrawler, modifyCrawler, hgate, hidx, if_false]
        rfl
      rw [this]
      exact ⟨[], [], by simp [Res.state], Or.inl rfl, by simp⟩
    | some repository =>
      obtain ⟨post, e, hpost⟩ := Tick_process_log env w s repository hgate hidx
      exact ⟨[Call.getPullRequests (pullsURL s.c.Config repository)], post, by rw [e]; simp,
        Or.inr ⟨_, rfl⟩, hpost⟩

theorem Tick_log (env : Env) (w : World) (s : St) :
    ∃ pre fetched post, (Tick env w s).state.calls = s.calls ++ (pre ++ (fetched ++ post)) ∧
      (∀ call ∈ pre, ∃ url, call = Call.getRepositories url) ∧
      (fetched = [] ∨ ∃ url, fetched = [Call.getPullRequests url]) ∧
      ∀ call ∈ post, IsFollowUpCall env w call := by
  have href := Tick_refresh_logGrows (fun call => ∃ url, call = Call.getRepositories url) env w
    (fun url => ⟨url, rfl⟩) s
  unfold Tick
  rw [bind_run]
  cases hr : Tick_refresh env w s with
  | panic p s1 =>
    rw [hr] at href
    obtain ⟨pre, e, hpre⟩ := href
    exact ⟨pre, [], [], by simpa [Res.state] using e, hpre, Or.inl rfl, by simp⟩
  | ok u s1 =>
    rw [hr] at href
    obtain ⟨pre, e, hpre⟩ := href
    simp only [Res.state] at e
    obtain ⟨fetched, post, e2, hf, hpost⟩ := Tick_process_log_all env w s1
    exact ⟨pre, fetched, post, by simp only []; rw [e2, e]; simp, hpre, hf, hpost⟩

theorem getPullRequestsPage_tracks (env : Env) (now : Int) (url : String) (resp : Response)
    (s : St) (h : RateLimitsParse resp.Header) :
    ∃ r res s', convertVar resp.Header "X-Ratelimit-Remaining" = some r ∧
      getPullRequestsPage env now url (some resp) s = Res.ok res s' ∧ s'.c.remaining = r := by
  obtain ⟨r, rl, s1, hr, hg, hc, -⟩ := getRateLimits_ok now resp.Header
    { s with calls := s.calls ++ [Call.getPullRequests url] } h
  have hrem : s1.c.remaining = r := by rw [hc]
  unfold getPullRequestsPage
  simp only [bind_run, logCall, hg]
  by_cases h401 : resp.StatusCode = 401
  · exact ⟨r, _, s1, hr, by rw [if_pos h401]; rfl, hrem⟩
  · rw [if_neg h401]
    by_cases h200 : resp.StatusCode ≠ 200
    · exact ⟨r, _, s1, hr, by rw [if_pos h200]; rfl, hrem⟩
    · rw [if_neg h200]
      by_cases hread : resp.readErr = true
      · exact ⟨r, _, s1, hr, by rw [if_pos hread]; rfl, hrem⟩
      · rw [if_neg hread]
        cases env.unmarshalPullRequests resp.Body with
        | none => exact ⟨r, _, s1, hr, rfl, hrem⟩
        | some pulls => exact ⟨r, _, s1, hr, rfl, hrem⟩

theorem getWebHooksPage_tracks (env : Env) (now : Int) (url : String) (resp : Response)
    (s : St) (h : RateLimitsParse resp.Header) :
    ∃ r res s', convertVar resp.Header "X-Ratelimit-Remaining" = some r ∧
      getWebHooksPage env now url (some resp) s = Res.ok res s' ∧ s'.c.remaining = r := by
  obtain ⟨r, rl, s1, hr, hg, hc, -⟩ := getRateLimits_ok now resp.Header
    { s with calls := s.calls ++ [Call.getWebHooks url] } h
  have hrem : s1.c.remaining = r := by rw [hc]
  unfold getWebHooksPage
  simp only [bind_run, logCall, hg]
  by_cases h401 : resp.StatusCode = 401
  · exact ⟨r, _, s1, hr, by rw [if_pos h401]; rfl, hrem⟩
  · rw [if_neg h401]
    by_cases h200 : resp.StatusCode ≠ 200
    · exact ⟨r, _, s1, hr, by rw [if_pos h200]; rfl, hrem⟩
    · rw [if_neg h200]
      by_cases hread : resp.readErr = true
      · exact ⟨r, _, s1, hr, by rw [if_pos hread]; rfl, hrem⟩
      · rw [if_neg hread]
        cases env.unmarshalWebHooks resp.Body with
        | none => exact ⟨r, _, s1, hr, rfl, hrem⟩
        | some hooks => exact ⟨r, _, s1, hr, rfl, hrem⟩

theorem getRepositoriesPage_not_ok (env : Env) (now : Int) (url : String) (resp : Response)
    (s : St) (h : resp.StatusCode ≠ 200) :
    getRepositoriesPage env now url (some resp) s
      = Res.ok (.error (if resp.StatusCode = 401 then ErrStatusUnauthorized
          else ErrStatusNotAccepted)) { s with calls := s.calls ++ [Call.getRepositories url] } := by
  unfold getRepositoriesPage
  simp only [bind_run, logCall]
  by_cases h401 : resp.StatusCode = 401
  · rw [if_pos h401, if_pos h401]
    rfl
  · rw [if_neg h401, if_neg h401, if_pos h]
    rfl

/-! ### The webhook URL -/

theorem string_eq_empty_iff (s : String) : s = "" ↔ s.data = [] := by
  constructor
  · intro h
    rw [h]
  · intro h
    exact String.ext h

theorem getWebHookURL_both_empty (c : ConfigGithub) (h1 : c.PublicAddress = "")
    (h2 : c.Endpoint = "") : getWebHookURL c = .ok "" := by
  unfold getWebHookURL
  rw [if_pos ⟨h1, h2⟩]

theorem getWebHookURL_no_address (c : ConfigGithub) (h1 : c.PublicAddress = "")
    (h2 : c.Endpoint ≠ "") : getWebHookURL c = .error Panic.indexOutOfRange := by
  unfold getWebHookURL
  rw [if_neg (fun h => h2 h.2)]
  have : c.PublicAddress.data = [] := (string_eq_empty_iff _).mp h1
  rw [this]
  rfl

theorem getWebHookURL_no_endpoint (c : ConfigGithub) (h1 : c.PublicAddress ≠ "")
    (h2 : c.Endpoint = "") : getWebHookURL c = .error Panic.indexOutOfRange := by
  unfold getWebHookURL
  rw [if_neg (fun h => h1 h.1)]
  have he : c.Endpoint.data = [] := (string_eq_empty_iff _).mp h2
  rw [he]
  cases c.PublicAddress.data.getLast? with
  | none => rfl
  | some last =>
    simp only []
    split <;> rfl

theorem getWebHookURL_both (c : ConfigGithub) (last e0 : Char) (rest : List Char)
    (h1 : c.PublicAddress.data.getLast? = some last) (h2 : c.Endpoint.data = e0 :: rest) :
    getWebHookURL c = .ok
      (if last = '/' then
        (if e0 = '/' then c.PublicAddress ++ String.mk rest else c.PublicAddress ++ c.Endpoint)
       else
        (if e0 = '/' then c.PublicAddress ++ c.Endpoint
         else c.PublicAddress ++ "/" ++ c.Endpoint)) := by
  have hE : c.Endpoint ≠ "" := by
    intro h
    rw [(string_eq_empty_iff _).mp h] at h2
    cases h2
  unfold getWebHookURL
  rw [if_neg (fun h => hE h.2), h1, h2]
  simp only []
  by_cases hl : last = '/'
  · rw [if_pos hl, if_pos hl]
    by_cases he : e0 = '/'
    · rw [if_pos he, if_pos he]
    · rw [if_neg he, if_neg he]
  · rw [if_neg hl, if_neg hl]
    by_cases he : e0 = '/'
    · rw [if_pos he, if_pos he]
    · rw [if_neg he, if_neg he]

theorem append_ne_empty (a b : String) (h : a ≠ "") : a ++ b ≠ "" := by
  intro hab
  have := (string_eq_empty_iff _).mp hab
  rw [String.data_append] at this
  exact h ((string_eq_empty_iff _).mpr (List.append_eq_nil.mp this).1)

theorem getWebHookURL_nonempty (c : ConfigGithub) (h1 : c.PublicAddress ≠ "")
    (h2 : c.Endpoint ≠ "") : ∃ url, getWebHookURL c = .ok url ∧ url ≠ "" := by
  have hd1 : c.PublicAddress.data ≠ [] := fun h => h1 ((string_eq_empty_iff _).mpr h)
  have hd2 : c.Endpoint.data ≠ [] := fun h => h2 ((string_eq_empty_iff _).mpr h)
  obtain ⟨last, hlast⟩ : ∃ last, c.PublicAddress.data.getLast? = some last := by
    cases h : c.PublicAddress.data.getLast? with
    | none => exact (hd1 (List.getLast?_eq_none_iff.mp h)).elim
    | some last => exact ⟨last, rfl⟩
  obtain ⟨e0, rest, hE⟩ : ∃ e0 rest, c.Endpoint.data = e0 :: rest := by
    cases h : c.Endpoint.data with
    | nil => exact (hd2 h).elim
    | cons e0 rest => exact ⟨e0, rest, rfl⟩
  refine ⟨_, getWebHookURL_both c last e0 rest hlast hE, ?_⟩
  split
  · split
    · exact append_ne_empty _ _ h1
    · exact append_ne_empty _ _ h1
  · split
    · exact append_ne_empty _ _ h1
    · exact append_ne_empty _ _ (append_ne_empty _ _ h1)

/-! ### When the rate-limit extraction returns -/

theorem getRateLimits_no_remaining (now : Int) (header : List (String × String)) (s : St)
    (h : convertVar header "X-Ratelimit-Remaining" = none) :
    getRateLimits now header s = Res.panic Panic.nilDereference s := by
  unfold getRateLimits
  simp only [h]
  rfl

theorem getRateLimits_panics (now : Int) (header : List (String × String)) (s : St)
    (h : ¬ RateLimitsParse header) :
    ∃ s', getRateLimits now header s = Res.panic Panic.nilDereference s' := by
  cases hr : convertVar header "X-Ratelimit-Remaining" with
  | none => exact ⟨s, getRateLimits_no_remaining now header s hr⟩
  | some r =>
    unfold getRateLimits
    simp only [hr, bind_run, modifyCrawler, setGauges]
    cases hu : convertVar header "X-Ratelimit-Used" with
    | none => exact ⟨_, rfl⟩
    | some u =>
      cases hl : convertVar header "X-Ratelimit-Limit" with
      | none => exact ⟨_, rfl⟩
      | some l =>
        cases hx : Atoi (headerGet header "X-Ratelimit-Reset") with
        | none => exact ⟨_, rfl⟩
        | some x =>
          refine (h ⟨?_, ?_, ?_, ?_⟩).elim
          · rw [hu]; rfl
          · rw [hr]; rfl
          · rw [hl]; rfl
          · rw [hx]; rfl

theorem getRateLimits_value (now : Int) (header : List (String × String)) (s s' : St)
    (rl : RateLimit) (h : getRateLimits now header s = Res.ok rl s') :
    rl = { Used := convertVar header "X-Ratelimit-Used",
           Remaining := convertVar header "X-Ratelimit-Remaining",
           Total := convertVar header "X-Ratelimit-Limit",
           Reset := (Atoi (headerGet header "X-Ratelimit-Reset")).map timeUnix } := by
  unfold getRateLimits at h
  cases hr : convertVar header "X-Ratelimit-Remaining" with
  | none =>
    simp only [hr] at h
    cases h
  | some r =>
    simp only [hr, bind_run, modifyCrawler] at h
    generalize hg : setGauges now _ _ = g at h
    rcases g with ⟨u, s1⟩ | ⟨p, s1⟩
    · simp only [pure_run] at h
      injection h with h1 _
      exact h1.symm
    · cases h

/-! ### The contract of the page fetchers and of the webhook creation -/

theorem getPullRequestsPage_contract (env : Env) (now : Int) (url : String) (resp : Response)
    (s : St) (h : RateLimitsParse resp.Header) :
    ∃ r s', convertVar resp.Header "X-Ratelimit-Remaining" = some r ∧
      getPullRequestsPage env now url (some resp) s
        = Res.ok (pageContract env.unmarshalPullRequests env resp) s' ∧
      s'.c = { s.c with remaining := r } ∧ s'.calls = s.calls ++ [Call.getPullRequests url] := by
  obtain ⟨r, rl, s1, hr, hg, hc, hcalls⟩ := getRateLimits_ok now resp.Header
    { s with calls := s.calls ++ [Call.getPullRequests url] } h
  refine ⟨r, s1, hr, ?_, hc, hcalls⟩
  unfold getPullRequestsPage pageContract
  simp only [bind_run, logCall, hg]
  by_cases h401 : resp.StatusCode = 401
  · rw [if_pos h401, if_pos h401]; rfl
  · rw [if_neg h401, if_neg h401]
    by_cases h200 : resp.StatusCode ≠ 200
    · rw [if_pos h200, if_pos h200]; rfl
    · rw [if_neg h200, if_neg h200]
      by_cases hread : resp.readErr = true
      · rw [if_pos hread, if_pos hread]; rfl
      · rw [if_neg hread, if_neg hread]
        cases env.unmarshalPullRequests resp.Body <;> rfl

theorem getWebHooksPage_contract (env : Env) (now : Int) (url : String) (resp : Response)
    (s : St) (h : RateLimitsParse resp.Header) :
    ∃ r s', convertVar resp.Header "X-Ratelimit-Remaining" = some r ∧
      getWebHooksPage env now url (some resp) s
        = Res.ok (pageContract env.unmarshalWebHooks env resp) s' ∧
      s'.c = { s.c with remaining := r } ∧ s'.calls = s.calls ++ [Call.getWebHooks url] := by
  obtain ⟨r, rl, s1, hr, hg, hc, hcalls⟩ := getRateLimits_ok now resp.Header
    { s with calls := s.calls ++ [Call.getWebHooks url] } h
  refine ⟨r, s1, hr, ?_, hc, hcalls⟩
  unfold getWebHooksPage pageContract
  simp only [bind_run, logCall, hg]
  by_cases h401 : resp.StatusCode = 401
  · rw [if_pos h401, if_pos h401]; rfl
  · rw [if_neg h401, if_neg h401]
    by_cases h200 : resp.StatusCode ≠ 200
    · rw [if_pos h200, if_pos h200]; rfl
    · rw [if_neg h200, if_neg h200]
      by_cases hread : resp.readErr = true
      · rw [if_pos hread, if_pos hread]; rfl
      · rw [if_neg hread, if_neg hread]
        cases env.unmarshalWebHooks resp.Body <;> rfl

theorem getRepositoriesPage_contract (env : Env) (now : Int) (url : String) (resp : Response)
    (s : St) (h : RateLimitsParse resp.Header) :
    ∃ s', getRepositoriesPage env now url (some resp) s
        = Res.ok (pageContract env.unmarshalRepositories env resp) s' ∧
      s'.calls = s.calls ++ [Call.getRepositories url] := by
  by_cases h200 : resp.StatusCode ≠ 200
  · refine ⟨{ s with calls := s.calls ++ [Call.getRepositories url] }, ?_, rfl⟩
    rw [getRepositoriesPage_not_ok env now url resp s h200]
    unfold pageContract
    by_cases h401 : resp.StatusCode = 401
    · rw [if_pos h401, if_pos h401]
    · rw [if_neg h401, if_neg h401, if_pos h200]
  · obtain ⟨r, rl, s1, hr, hg, hc, hcalls⟩ := getRateLimits_ok now resp.Header
      { s with calls := s.calls ++ [Call.getRepositories url] } h
    refine ⟨s1, ?_, hcalls⟩
    have h401 : ¬ resp.StatusCode = 401 := by
      intro h4
      apply h200
      rw [h4]
      decide
    unfold getRepositoriesPage pageContract
    simp only [bind_run, logCall]
    rw [if_neg h401, if_neg h401, if_neg h200, if_neg h200, bind_run, hg]
    simp only []
    by_cases hread : resp.readErr = true
    · rw [if_pos hread, if_pos hread]; rfl
    · rw [if_neg hread, if_neg hread]
      cases env.unmarshalRepositories resp.Body <;> rfl

theorem createWebHook_never_ok (env : Env) (now : Int) (url : String) (webhook : WebHook)
    (answer : Option Response) (s s' : St) (r : Except Err (Option WebHook))
    (h : createWebHook env now url webhook answer s = Res.ok r s') : ∃ e, r = .error e := by
  unfold createWebHook at h
  cases hm : env.marshalWebHook webhook with
  | none =>
    simp only [hm, pure_run] at h
    injection h with h1 _
    exact ⟨_, h1.symm⟩
  | some body =>
    simp only [hm, bind_run, logCall] at h
    cases answer with
    | none =>
      simp only [pure_run] at h
      injection h with h1 _
      exact ⟨_, h1.symm⟩
    | some resp =>
      simp only [bind_run] at h
      generalize getRateLimits now resp.Header _ = g at h
      rcases g with ⟨rl, s1⟩ | ⟨p, s1⟩
      · simp only [] at h
        by_cases h401 : resp.StatusCode = 401
        · rw [if_pos h401] at h
          injection h with h1 _
          exact ⟨_, h1.symm⟩
        · rw [if_neg h401] at h
          by_cases h200 : resp.StatusCode ≠ 200
          · rw [if_pos h200] at h
            injection h with h1 _
            exact ⟨_, h1.symm⟩
          · rw [if_neg h200] at h
            by_cases hread : resp.readErr = true
            · rw [if_pos hread] at h
              injection h with h1 _
              exact ⟨_, h1.symm⟩
            · rw [if_neg hread] at h
              injection h with h1 _
              exact ⟨_, h1.symm⟩
      · cases h

theorem createWebHook_calls (env : Env) (now : Int) (url : String) (webhook : WebHook)
    (answer : Option Response) (s : St) (body : String)
    (hm : env.marshalWebHook webhook = some body) :
    (createWebHook env now url webhook answer s).state.calls
      = s.calls ++ [Call.postWebHook url body] := by
  unfold createWebHook
  simp only [hm, bind_run, logCall]
  cases answer with
  | none => rfl
  | some resp =>
    simp only [bind_run]
    have hc := getRateLimits_ok_calls now resp.Header
      { s with calls := s.calls ++ [Call.postWebHook url body] }
    generalize getRateLimits now resp.Header _ = g at hc
    rcases g with ⟨rl, s2⟩ | ⟨p, s2⟩
    · simp only [Res.state] at hc
      simp only []
      split
      · exact hc
      · split
        · exact hc
        · split <;> exact hc
    · exact hc

theorem createWebHook_contract (env : Env) (now : Int) (url : String) (webhook : WebHook)
    (resp : Response) (s : St) (body : String) (hm : env.marshalWebHook webhook = some body)
    (h : RateLimitsParse resp.Header) :
    ∃ s', createWebHook env now url webhook (some resp) s
        = Res.ok (.error (createContract resp)) s' := by
  obtain ⟨r, rl, s1, hr, hg, hc, hcalls⟩ := getRateLimits_ok now resp.Header
    { s with calls := s.calls ++ [Call.postWebHook url body] } h
  refine ⟨s1, ?_⟩
  unfold createWebHook createContract
  simp only [hm, bind_run, logCall, hg]
  by_cases h401 : resp.StatusCode = 401
  · rw [if_pos h401, if_pos h401]; rfl
  · rw [if_neg h401, if_neg h401]
    by_cases h200 : resp.StatusCode ≠ 200
    · rw [if_pos h200, if_pos h200]; rfl
    · rw [if_neg h200, if_neg h200]
      by_cases hread : resp.readErr = true
      · rw [if_pos hread, if_pos hread]; rfl
      · rw [if_neg hread, if_neg hread]; rfl

theorem pageContract_served (env : Env) (resp : Response) (hooks : List WebHook)
    (h : ServesWebHooks env resp hooks) :
    pageContract env.unmarshalWebHooks env resp = .ok (hooks, nextURLOf env resp.Header) := by
  obtain ⟨h200, -, hread, hdec⟩ := h
  unfold pageContract
  rw [if_neg (by rw [h200]; decide), if_neg (by rw [h200]; decide), if_neg (by rw [hread]; decide),
    hdec]

theorem updateWebHooks_run (env : Env) (w : World) (repoFullName : String) (s : St)
    (url : String) (resp : Response) (hooks : List WebHook)
    (hurl : getWebHookURL s.c.Config = .ok url) (hne : url ≠ "")
    (hans : w.hooksAnswer = some resp) (hserve : ServesWebHooks env resp hooks) :
    ∃ s1, s1.calls = s.calls ++ [Call.getWebHooks (hooksURL repoFullName)] ∧
      updateWebHooks env w repoFullName s =
        if hooks.any (fun hook => hook.Config.URL = url) = true then Res.ok none s1
        else
          match createWebHook env w.now (hooksURL repoFullName) (newWebhookObject url)
              w.hookPostAnswer s1 with
          | Res.ok (.error e) s2 => Res.ok (some e) s2
          | Res.ok (.ok hook) s2 =>
            (match WebHook_String hook with
             | .error p => Res.panic p s2
             | .ok _ => Res.ok none s2)
          | Res.panic p s2 => Res.panic p s2 := by
  obtain ⟨r, s1, -, hg, hc, hcalls⟩ := getWebHooksPage_contract env w.now (hooksURL repoFullName)
    resp s hserve.2.1
  rw [pageContract_served env resp hooks hserve] at hg
  have hurl1 : getWebHookURL s1.c.Config = .ok url := by rw [hc]; exact hurl
  refine ⟨s1, hcalls, ?_⟩
  unfold updateWebHooks
  simp only [bind_run, getCrawler, hurl, hans]
  rw [if_pos hne]
  unfold hooksURL at hg
  rw [bind_run, hg]
  simp only [bind_run, getCrawler, hurl1]
  by_cases hfound : hooks.any (fun hook => hook.Config.URL = url) = true
  · rw [if_pos hfound, if_pos hfound]
    rfl
  · rw [if_neg hfound, if_neg hfound, bind_run]
    unfold hooksURL newWebhookObject
    generalize createWebHook env w.now _ _ w.hookPostAnswer s1 = g
    rcases g with ⟨_ | hook, s2⟩ | ⟨p, s2⟩
    · rfl
    · simp only []
      cases WebHook_String hook <;> rfl
    · rfl

/-! ### The cursor stays in bounds -/

theorem index_bounds {α : Type} (list : List α) (i : Int) (a : α) (h : index list i = some a) :
    0 ≤ i ∧ i < list.length := by
  unfold index at h
  by_cases hi : i < 0
  · rw [if_pos hi] at h
    cases h
  · rw [if_neg hi] at h
    have := List.get?_eq_some.mp h
    obtain ⟨hlt, -⟩ := this
    omega

theorem index_nil {α : Type} (i : Int) : index ([] : List α) i = none := by
  unfold index
  split <;> rfl

theorem Tick_process_no_repository (env : Env) (w : World) (s : St)
    (hgate : ¬ (s.c.remaining < 2000 ∧ s.c.lowNotise = false))
    (hidx : index s.c.list s.c.next = none) :
    Tick_process env w s
      = Res.panic Panic.indexOutOfRange { s with c := { s.c with lowNotise := false } } := by
  unfold Tick_process
  simp only [bind_run, getCrawler, modifyCrawler, hgate, hidx, if_false]
  rfl

theorem Tick_refresh_inv (env : Env) (w : World) (s s1 : St) (hinv : CursorInv s)
    (h : Tick_refresh env w s = Res.ok () s1) : CursorInv s1 := by
  by_cases hl : s.c.list = []
  · obtain ⟨hn, -⟩ := Tick_refresh_cursor env w s s1 hl h
    refine ⟨fun _ => hn, fun hne => ?_⟩
    rw [hn]
    have : 0 < s1.c.list.length := List.length_pos.mpr hne
    omega
  · rw [Tick_refresh_nonempty env w s hl] at h
    injection h with _ hs
    rw [← hs]
    exact hinv

theorem Tick_process_inv (env : Env) (w : World) (s s' : St) (hinv : CursorInv s)
    (h : Tick_process env w s = Res.ok () s') : CursorInv s' := by
  by_cases hgate : s.c.remaining < 2000 ∧ s.c.lowNotise = false
  · rw [Tick_process_low env w s hgate.1 hgate.2] at h
    injection h with _ hs
    rw [← hs]
    exact hinv
  · cases hidx : index s.c.list s.c.next with
    | none =>
      rw [Tick_process_no_repository env w s hgate hidx] at h
      cases h
    | some repository =>
      obtain ⟨hb0, hb1⟩ := index_bounds _ _ _ hidx
      obtain ⟨hadv, hkeep, -⟩ := Tick_process_cursor env w s s' repository hgate hidx h
      by_cases hd : PullsDecoded env w.pullsAnswer
      · obtain ⟨hl, hn⟩ := hadv hd
        unfold advance at hl hn
        by_cases hlast : s.c.next + 1 = s.c.list.length
        · rw [if_pos hlast] at hl hn
          dsimp only at hl hn
          exact ⟨fun _ => hn, fun hne => (hne hl).elim⟩
        · rw [if_neg hlast] at hl hn
          dsimp only at hl hn
          refine ⟨fun he => ?_, fun _ => ?_⟩
          · rw [hl] at he
            rw [he] at hb1
            simp at hb1
            omega
          · rw [hl, hn]
            omega
      · obtain ⟨hl, hn⟩ := hkeep hd
        refine ⟨fun he => ?_, fun hne => ?_⟩
        · rw [hn]
          exact hinv.1 (hl ▸ he)
        · rw [hl, hn]
          exact ⟨hb0, hb1⟩

theorem Tick_inv (env : Env) (w : World) (s s' : St) (hinv : CursorInv s)
    (h : Tick env w s = Res.ok () s') : CursorInv s' := by
  unfold Tick at h
  rw [bind_run] at h
  cases hr : Tick_refresh env w s with
  | panic p s1 =>
    rw [hr] at h
    cases h
  | ok u s1 =>
    rw [hr] at h
    exact Tick_process_inv env w s1 s' (Tick_refresh_inv env w s s1 hinv hr) h

theorem Ticks_inv (env : Env) :
    ∀ (ws : List World) (s s' : St), CursorInv s → Ticks env ws s = Res.ok () s' →
      CursorInv s' := by
  intro ws
  induction ws with
  | nil =>
    intro s s' hinv h
    unfold Ticks at h
    injection h with _ hs
    rw [← hs]
    exact hinv
  | cons w ws ih =>
    intro s s' hinv h
    unfold Ticks at h
    rw [bind_run] at h
    cases ht : Tick env w s with
    | panic p s1 =>
      rw [ht] at h
      cases h
    | ok u s1 =>
      rw [ht] at h
      exact ih s1 s' (Tick_inv env w s s1 hinv ht) h

theorem Ticks_cons_ok (env : Env) (w : World) (ws : List World) (s s1 : St) (r : Res Unit)
    (h : Tick env w s = Res.ok () s1) (hrest : Ticks env ws s1 = r) :
    Ticks env (w :: ws) s = r := by
  unfold Ticks
  rw [bind_run, h]
  exact hrest

theorem Tick_of_parts (env : Env) (w : World) (s s1 : St) (r : Res Unit)
    (h : Tick_refresh env w s = Res.ok () s1) (hproc : Tick_process env w s1 = r) :
    Tick env w s = r := by
  unfold Tick
  rw [bind_run, h]
  exact hproc

/-! ### The loop over the pull requests -/

theorem Tick_push_retained (now : Int) (pull : PullRequest) (s s' : St) (push : Bool)
    (h : Tick_push now pull s = Res.ok push s') : push = retained now pull ∧ s' = s := by
  rw [Tick_push_eq] at h
  unfold retained
  by_cases hc : pull.State = "closed"
  · rw [if_pos hc] at h
    cases hca : pull.ClosedAt with
    | none =>
      rw [hca] at h
      cases h
    | some closedAt =>
      rw [hca] at h
      simp only [] at h
      injection h with h1 h2
      refine ⟨?_, h2.symm⟩
      rw [← h1]
      simp [hc]
  · rw [if_neg hc] at h
    injection h with h1 h2
    refine ⟨?_, h2.symm⟩
    rw [← h1]
    simp [hc]

theorem Tick_pull_pushed_log (env : Env) (now : Int) (pull : PullRequest)
    (answers : List (Option EsResponse)) (s : St) (h : Tick_push now pull s = Res.ok true s) :
    (Tick_pull env now pull answers s).state.calls = s.calls ++ [submission env now pull] := by
  unfold Tick_pull
  rw [bind_run, h]
  simp only [if_true, toPullRequestEvent, bind_run, logCall]
  rcases answers with _ | ⟨_ | res, rest⟩
  · rfl
  · rfl
  · simp only []
    by_cases h1 : 299 < res.StatusCode
    · rw [if_pos h1]
      by_cases h2 : res.StatusCode = 409
      · rw [if_pos h2]
        rfl
      · rw [if_neg h2, bind_run]
        unfold printESError
        by_cases h3 : env.esErrorObject res.Body = true
        · rw [if_pos h3]
          rfl
        · rw [if_neg h3]
          rfl
    · rw [if_neg h1]
      rfl

theorem Tick_pull_returns_log (env : Env) (now : Int) (pull : PullRequest)
    (answers left : List (Option EsResponse)) (s s' : St)
    (h : Tick_pull env now pull answers s = Res.ok left s') :
    s'.calls = s.calls ++ (if retained now pull = true then [submission env now pull] else []) := by
  cases hp : Tick_push now pull s with
  | panic p s1 =>
    have hs : s1 = s := by
      have := Tick_push_eq now pull s
      rw [hp] at this
      split at this
      · split at this
        · injection this with _ h2
        · cases this
      · cases this
    subst hs
    rw [Tick_pull_of_push_panic env now pull answers s1 p hp] at h
    cases h
  | ok push s1 =>
    obtain ⟨hpush, hs⟩ := Tick_push_retained now pull s s1 push hp
    subst hs
    cases hr : retained now pull with
    | true =>
      rw [hr] at hpush
      subst hpush
      have := Tick_pull_pushed_log env now pull answers s1 hp
      rw [h] at this
      simpa using this
    | false =>
      rw [hr] at hpush
      subst hpush
      rw [Tick_pull_of_push_false env now pull answers s1 hp] at h
      injection h with _ h2
      rw [← h2]
      simp

theorem Tick_pulls_returns_log (env : Env) (now : Int) :
    ∀ (pulls : List PullRequest) (answers : List (Option EsResponse)) (s s' : St),
      Tick_pulls env now pulls answers s = Res.ok () s' →
      s'.calls = s.calls ++ (pulls.filter (retained now)).map (submission env now) := by
  intro pulls
  induction pulls with
  | nil =>
    intro answers s s' h
    unfold Tick_pulls at h
    injection h with _ h2
    rw [← h2]
    simp
  | cons pull rest ih =>
    intro answers s s' h
    unfold Tick_pulls at h
    rw [bind_run] at h
    cases hp : Tick_pull env now pull answers s with
    | panic p s1 =>
      rw [hp] at h
      cases h
    | ok left s1 =>
      rw [hp] at h
      have h1 := Tick_pull_returns_log env now pull answers left s s1 hp
      have h2 := ih left s1 s' h
      rw [h2, h1]
      cases hr : retained now pull <;> simp [List.filter_cons, hr]

theorem Tick_pull_returns (env : Env) (now : Int) (pull : PullRequest)
    (answers : List (Option EsResponse)) (s : St)
    (hclosed : pull.State = "closed" → pull.ClosedAt ≠ none)
    (hans : ∀ a ∈ answers, Survivable env a) :
    ∃ left s', Tick_pull env now pull answers s = Res.ok left s' ∧
      ∀ a ∈ left, Survivable env a := by
  have hpush : ∃ push, Tick_push now pull s = Res.ok push s := by
    rw [Tick_push_eq]
    by_cases hc : pull.State = "closed"
    · rw [if_pos hc]
      cases hca : pull.ClosedAt with
      | none => exact (hclosed hc hca).elim
      | some closedAt => exact ⟨_, rfl⟩
    · rw [if_neg hc]
      exact ⟨_, rfl⟩
  obtain ⟨push, hp⟩ := hpush
  cases push with
  | false => exact ⟨answers, s, Tick_pull_of_push_false env now pull answers s hp, hans⟩
  | true =>
    unfold Tick_pull
    rw [bind_run, hp]
    simp only [if_true, toPullRequestEvent, bind_run, logCall]
    rcases answers with _ | ⟨_ | res, rest⟩
    · exact ⟨[], _, rfl, by simp⟩
    · exact ⟨rest, _, rfl, fun a ha => hans a (List.mem_cons_of_mem _ ha)⟩
    · have hrest : ∀ a ∈ rest, Survivable env a := fun a ha => hans a (List.mem_cons_of_mem _ ha)
      simp only []
      by_cases h1 : 299 < res.StatusCode
      · rw [if_pos h1]
        by_cases h2 : res.StatusCode = 409
        · rw [if_pos h2]
          exact ⟨rest, _, rfl, hrest⟩
        · rw [if_neg h2, bind_run]
          unfold printESError
          rw [if_pos (hans (some res) (List.mem_cons_self _ _) res rfl h1 h2)]
          exact ⟨rest, _, rfl, hrest⟩
      · rw [if_neg h1]
        exact ⟨rest, _, rfl, hrest⟩

theorem Tick_pulls_returns (env : Env) (now : Int) :
    ∀ (pulls : List PullRequest) (answers : List (Option EsResponse)) (s : St),
      (∀ pull ∈ pulls, pull.State = "closed" → pull.ClosedAt ≠ none) →
      (∀ a ∈ answers, Survivable env a) →
      ∃ s', Tick_pulls env now pulls answers s = Res.ok () s' := by
  intro pulls
  induction pulls with
  | nil =>
    intro answers s _ _
    exact ⟨s, rfl⟩
  | cons pull rest ih =>
    intro answers s hclosed hans
    obtain ⟨left, s1, h1, hleft⟩ := Tick_pull_returns env now pull answers s
      (hclosed pull (List.mem_cons_self _ _)) hans
    obtain ⟨s2, h2⟩ := ih left s1 (fun p hp => hclosed p (List.mem_cons_of_mem _ hp)) hleft
    refine ⟨s2, ?_⟩
    unfold Tick_pulls
    rw [bind_run, h1]
    exact h2

theorem Tick_process_of_parts (env : Env) (w : World) (s s1 s2 s3 : St)
    (repository : Repository) (pulls : List PullRequest) (nextURL : String) (e : Option Err)
    (hgate : ¬ (s.c.remaining < 2000 ∧ s.c.lowNotise = false))
    (hidx : index s.c.list s.c.next = some repository)
    (hfetch : getPullRequestsPage env w.now (pullsURL s.c.Config repository) w.pullsAnswer
        { s with c := { s.c with lowNotise := false } } = Res.ok (.ok (pulls, nextURL)) s1)
    (hpulls : Tick_pulls env w.now pulls w.esAnswers s1 = Res.ok () s2)
    (hhooks : updateWebHooks env w repository.FullName s2 = Res.ok e s3) :
    Tick_process env w s = Res.ok () { s3 with c := advance s3.c } := by
  rw [Tick_process_run env w s repository hgate hidx, hfetch]
  simp only []
  rw [hpulls]
  simp only []
  rw [hhooks]

theorem Ticks_cons_panic (env : Env) (w : World) (ws : List World) (s s1 : St) (p : Panic)
    (h : Tick env w s = Res.panic p s1) : Ticks env (w :: ws) s = Res.panic p s1 := by
  unfold Ticks
  rw [bind_run, h]

theorem Tick_pull_of_push (env : Env) (now : Int) (pull : PullRequest)
    (answers : List (Option EsResponse)) (s : St) (h : Tick_push now pull s = Res.ok true s) :
    Tick_pull env now pull answers s
      = (match toPullRequestEvent pull with
         | .error _ => (pure answers : M (List (Option EsResponse)))
         | .ok event => do
           let byteArray : String :=
             match (parse env now event).2 with
             | .error _ => ""
             | .ok bytes => bytes
           let uuid := generateUUID env.randomUUID pull
           logCall (Call.esCreate env.elasticIndex uuid byteArray)
           match answers with
           | [] => pure []
           | none :: rest => pure rest
           | some res :: rest =>
             if 299 < res.StatusCode then
               if res.StatusCode = 409 then pure rest
               else do
                 printESError env res
                 pure rest
             else pure rest) s := by
  unfold Tick_pull
  rw [bind_run, h]
  rfl

theorem Tick_pulls_cons_ok (env : Env) (now : Int) (pull : PullRequest) (rest : List PullRequest)
    (answers left : List (Option EsResponse)) (s s1 : St) (r : Res Unit)
    (h : Tick_pull env now pull answers s = Res.ok left s1)
    (hrest : Tick_pulls env now rest left s1 = r) :
    Tick_pulls env now (pull :: rest) answers s = r := by
  unfold Tick_pulls
  rw [bind_run, h]
  exact hrest

theorem Tick_pulls_cons_panic (env : Env) (now : Int) (pull : PullRequest)
    (rest : List PullRequest) (answers : List (Option EsResponse)) (s s1 : St) (p : Panic)
    (h : Tick_pull env now pull answers s = Res.panic p s1) :
    Tick_pulls env now (pull :: rest) answers s = Res.panic p s1 := by
  unfold Tick_pulls
  rw [bind_run, h]

theorem Tick_process_pulls_panic (env : Env) (w : World) (s s1 s2 : St)
    (repository : Repository) (pulls : List PullRequest) (nextURL : String) (p : Panic)
    (hgate : ¬ (s.c.remaining < 2000 ∧ s.c.lowNotise = false))
    (hidx : index s.c.list s.c.next = some repository)
    (hfetch : getPullRequestsPage env w.now (pullsURL s.c.Config repository) w.pullsAnswer
        { s with c := { s.c with lowNotise := false } } = Res.ok (.ok (pulls, nextURL)) s1)
    (hpulls : Tick_pulls env w.now pulls w.esAnswers s1 = Res.panic p s2) :
    Tick_process env w s = Res.panic p s2 := by
  rw [Tick_process_run env w s repository hgate hidx, hfetch]
  simp only []
  rw [hpulls]

/-! ## The quota gate and the cursor (`Tick`, lines 52-57 and 116-125) -/

/-- With a non-empty list and a cursor in range, a tick whose quota is below 2000 and whose flag
is clear does nothing but set the flag: no call is issued, cursor and list stay. -/
theorem Tick_gate_skips (env : Env) (w : World) (s : St) (hlist : s.c.list ≠ [])
    (hlow : s.c.remaining < 2000) (hflag : s.c.lowNotise = false) :
    Tick env w s = Res.ok () { s with c := { s.c with lowNotise := true } } := by
  rw [Tick_of_nonempty env w s hlist]
  exact Tick_process_low env w s hlow hflag

/-- With a non-empty list and a cursor in range, a tick fetches the pull requests of the
repository at the cursor exactly when the quota is at least 2000 or the flag is already set. -/
theorem Tick_gate_processes (env : Env) (w : World) (s : St) (h0 : 0 ≤ s.c.next)
    (hlt : s.c.next < s.c.list.length) :
    (∃ repository, s.c.list.get? s.c.next.toNat = some repository ∧
        pullFetches (Tick env w s).state.calls
          = pullFetches s.calls ++ [pullsURL s.c.Config repository]) ↔
      (2000 ≤ s.c.remaining ∨ s.c.lowNotise = true) := by
  have hlist : s.c.list ≠ [] := by
    intro h
    rw [h] at hlt
    simp at hlt
    omega
  obtain ⟨repository, hidx, hget⟩ := index_some s.c.list s.c.next h0 hlt
  rw [Tick_of_nonempty env w s hlist]
  constructor
  · rintro ⟨repo, _, hf⟩
    by_contra hcon
    have hlow : s.c.remaining < 2000 := by omega
    have hflag : s.c.lowNotise = false := by
      cases h : s.c.lowNotise with
      | false => rfl
      | true => exact (hcon (Or.inr h)).elim
    rw [Tick_process_low env w s hlow hflag] at hf
    simp [Res.state] at hf
  · intro h
    refine ⟨repository, hget, Tick_process_pullFetches env w s repository ?_ hidx⟩
    rintro ⟨h1, h2⟩
    rcases h with h | h
    · omega
    · rw [h2] at h
      cases h

/-- C2 (amended). A tick that passes the gate with the cursor inside a non-empty list and returns:
when the pull-request fetch is accepted, exactly one repository is advanced, whatever indexing and
webhook reconciliation did (the list is discarded and the cursor reset if the cursor was at the
last index, otherwise the list stays and the cursor grows by one); when the fetch fails, the list
and the cursor are left as they were. -/
theorem Tick_cursor_advance (env : Env) (w : World) (s s' : St) (h0 : 0 ≤ s.c.next)
    (hlt : s.c.next < s.c.list.length)
    (hgate : ¬ (s.c.remaining < 2000 ∧ s.c.lowNotise = false))
    (hret : Tick env w s = Res.ok () s') :
    (PullsDecoded env w.pullsAnswer →
        if s.c.next + 1 = s.c.list.length then s'.c.list = [] ∧ s'.c.next = 0
        else s'.c.list = s.c.list ∧ s'.c.next = s.c.next + 1) ∧
      (¬ PullsDecoded env w.pullsAnswer → s'.c.list = s.c.list ∧ s'.c.next = s.c.next) := by
  have hlist : s.c.list ≠ [] := by
    intro h
    rw [h] at hlt
    simp at hlt
    omega
  obtain ⟨repository, hidx, -⟩ := index_some s.c.list s.c.next h0 hlt
  rw [Tick_of_nonempty env w s hlist] at hret
  obtain ⟨h1, h2, -⟩ := Tick_process_cursor env w s s' repository hgate hidx hret
  refine ⟨fun hd => ?_, h2⟩
  have h := h1 hd
  unfold advance at h
  split
  · rename_i heq
    rw [if_pos heq] at h
    exact h
  · rename_i hne
    rw [if_neg hne] at h
    exact h

set_option maxRecDepth 1000000 in
/-- Witness of `Tick_cursor_advance`: list `[A, B]`, cursor 0, quota 2001, every call answered.
The tick returns, the fetch is accepted, the list stays and the cursor moves to 1. -/
theorem Tick_cursor_advance_witness :
    Tick sampleEnv quietWorld (sampleState 0 [repoA, repoB] 2001 false)
        = Res.ok () (sampleReached 1 [repoA, repoB] callsA) ∧
      PullsDecoded sampleEnv quietWorld.pullsAnswer ∧
      (sampleReached 1 [repoA, repoB] callsA).c.list
        = (sampleState 0 [repoA, repoB] 2001 false).c.list ∧
      (sampleReached 1 [repoA, repoB] callsA).c.next
        = (sampleState 0 [repoA, repoB] 2001 false).c.next + 1 := by
  have hd : PullsDecoded sampleEnv quietWorld.pullsAnswer :=
    ⟨sampleResponse 200 "4000" "" "[]", [], rfl, rfl, rfl, rfl⟩
  have hret : Tick sampleEnv quietWorld (sampleState 0 [repoA, repoB] 2001 false)
      = Res.ok () (sampleReached 1 [repoA, repoB] callsA) := rfl
  have h := (Tick_cursor_advance sampleEnv quietWorld (sampleState 0 [repoA, repoB] 2001 false)
    (sampleReached 1 [repoA, repoB] callsA) (by decide) (by decide) (by decide) hret).1 hd
  rw [if_neg (by decide)] at h
  exact ⟨hret, hd, h⟩

set_option maxRecDepth 1000000 in
/-- C2 as stated fails: with list `[A, B]`, cursor 0 and quota 2001 the gate is passed, and when
the pull-request fetch fails in transport the tick returns with the list and the cursor
untouched; no repository is advanced. -/
theorem Tick_failed_fetch_keeps_cursor :
    let s := sampleState 0 [repoA, repoB] 2001 false
    let w : World := { sampleWorld with pullsAnswer := none }
    2000 ≤ s.c.remaining ∧ s.c.next < s.c.list.length ∧
      Tick sampleEnv w s
        = Res.ok () { s with calls :=
            [Call.getPullRequests "https://api.github.com/repos/o/a/pulls?state=all&per_page=50"] } ∧
      (Tick sampleEnv w s).state.c.list = [repoA, repoB] ∧
      (Tick sampleEnv w s).state.c.next = 0 :=
  ⟨by decide, by decide, rfl, rfl, rfl⟩
/-! ## A full cycle through the list (`Tick`, lines 32-127) -/

/-- The cycle, for runs in which every tick returns. A tick refreshes the empty list and the
refresh returns a list of `N ≥ 1` repositories; `N` consecutive ticks, starting with that one,
each return, each find a quota of at least 2000 at the gate and each have their pull-request
fetch accepted. Then the run of these `N` ticks fetches the pull requests of `list[0]`, ...,
`list[N-1]`, in this order and once each, it ends with the list discarded and the cursor at 0,
and whatever tick comes next starts with a fetch of the first page of the repository listing. -/
theorem Ticks_cycle_completion (env : Env) (w : World) (ws : List World) (s0 s1 sN : St)
    (hempty : s0.c.list = []) (hrefresh : Tick_refresh env w s0 = Res.ok () s1)
    (hne : s1.c.list ≠ []) (hlen : (w :: ws).length = s1.c.list.length)
    (hrun : GoodRun env (w :: ws) s0 sN) :
    Ticks env (w :: ws) s0 = Res.ok () sN ∧
      pullFetches sN.calls = pullFetches s0.calls ++ s1.c.list.map (pullsURL s0.c.Config) ∧
      sN.c.list = [] ∧ sN.c.next = 0 ∧
      ∀ w', ∃ rest, (Tick env w' sN).state.calls
        = sN.calls ++ Call.getRepositories "https://api.github.com/user/repos" :: rest := by
  have hticks := GoodRun_ticks env (w :: ws) s0 sN hrun
  obtain ⟨sA, ⟨sr, href, hquota, hdec, hproc⟩, hrest⟩ := hrun
  rw [hrefresh] at href
  injection href with _ hs
  subst hs
  obtain ⟨hnext, hcfg⟩ := Tick_refresh_cursor env w s0 s1 hempty hrefresh
  have hgrow := Tick_refresh_logGrows (fun call => ∃ url, call = Call.getRepositories url) env w
    (fun url => ⟨url, rfl⟩) s0
  rw [hrefresh] at hgrow
  obtain ⟨new, enew, hnew⟩ := hgrow
  simp only [Res.state] at enew
  have hrun1 : GoodRun env (w :: ws) s1 sN :=
    ⟨sA, ⟨s1, Tick_refresh_nonempty env w s1 hne, hquota, hdec, hproc⟩, hrest⟩
  have hpos : 0 < s1.c.list.length := List.length_pos.mpr hne
  obtain ⟨r1, r2, -, r4⟩ := GoodRun_from_cursor env (w :: ws) s1 sN (by rw [hnext])
    (by rw [hnext]; omega) (by rw [hnext, hlen]; simp) hrun1
  refine ⟨hticks, ?_, r1, r2, fun w' => Tick_empty_lists_first env w' sN r1⟩
  rw [r4, enew, pullFetches_append, pullFetches_repositories new hnew, hnext, hcfg]
  simp

set_option maxRecDepth 1000000 in
/-- The example of the specification, for `Ticks_cycle_completion`: the refresh returns
`[A, B]`; tick 1 processes `A` (cursor 1), tick 2 processes `B` and clears the list, and a third
tick lists the repositories again. -/
theorem Ticks_cycle_completion_witness :
    Ticks sampleEnv [quietWorld, quietWorld] (sampleState 0 [] 0 false)
        = Res.ok () (sampleReached 0 [] (callList :: callsA ++ callsB)) ∧
      pullFetches (sampleReached 0 [] (callList :: callsA ++ callsB)).calls
        = pullFetches (sampleState 0 [] 0 false).calls
          ++ [repoA, repoB].map (pullsURL sampleConfig) ∧
      (sampleReached 0 [] (callList :: callsA ++ callsB)).c.list = [] ∧
      (sampleReached 0 [] (callList :: callsA ++ callsB)).c.next = 0 ∧
      ∀ w', ∃ rest,
        (Tick sampleEnv w' (sampleReached 0 [] (callList :: callsA ++ callsB))).state.calls
          = (sampleReached 0 [] (callList :: callsA ++ callsB)).calls
            ++ Call.getRepositories "https://api.github.com/user/repos" :: rest :=
  have hd : PullsDecoded sampleEnv quietWorld.pullsAnswer :=
    ⟨sampleResponse 200 "4000" "" "[]", [], rfl, rfl, rfl, rfl⟩
  Ticks_cycle_completion sampleEnv quietWorld [quietWorld] (sampleState 0 [] 0 false)
    (sampleReached 0 [repoA, repoB] [callList])
    (sampleReached 0 [] (callList :: callsA ++ callsB))
    rfl rfl (by decide) rfl
    ⟨sampleReached 1 [repoA, repoB] (callList :: callsA),
      ⟨sampleReached 0 [repoA, repoB] [callList], rfl, by decide, hd, rfl⟩,
      ⟨sampleReached 0 [] (callList :: callsA ++ callsB),
        ⟨sampleReached 1 [repoA, repoB] (callList :: callsA), rfl, by decide, hd, rfl⟩, rfl⟩⟩

set_option maxRecDepth 1000000 in
/-- C3, evaluated on a crawler without a public address (the endpoint is the default `/webhook`),
with an empty list and cursor 0. The listing returns `[A, B]` with a quota of 4000 and the
pull-request fetch of `A` is accepted, as the claim asks. The first tick then panics with an
index out of range in `getWebHookURL`, reached from `updateWebHooks` before the cursor advance:
the cursor stays at 0 with the list `[A, B]`, and a run of two ticks ends in that panic, so `B` is
never processed and the list is never discarded. -/
theorem Ticks_default_config_panics :
    getWebHookURL defaultConfig = .error Panic.indexOutOfRange ∧
      Tick_refresh sampleEnv quietWorld (withConfig defaultConfig (sampleState 0 [] 0 false))
        = Res.ok () (withConfig defaultConfig (sampleReached 0 [repoA, repoB] [callList])) ∧
      2000 ≤ (withConfig defaultConfig (sampleReached 0 [repoA, repoB] [callList])).c.remaining ∧
      PullsDecoded sampleEnv quietWorld.pullsAnswer ∧
      Tick sampleEnv quietWorld (withConfig defaultConfig (sampleState 0 [] 0 false))
        = Res.panic Panic.indexOutOfRange
            (withConfig defaultConfig (sampleReached 0 [repoA, repoB]
              [callList, Call.getPullRequests
                "https://api.github.com/repos/o/a/pulls?state=all&per_page=50"])) ∧
      Ticks sampleEnv [quietWorld, quietWorld]
          (withConfig defaultConfig (sampleState 0 [] 0 false))
        = Res.panic Panic.indexOutOfRange
            (withConfig defaultConfig (sampleReached 0 [repoA, repoB]
              [callList, Call.getPullRequests
                "https://api.github.com/repos/o/a/pulls?state=all&per_page=50"])) :=
  have htick : Tick sampleEnv quietWorld (withConfig defaultConfig (sampleState 0 [] 0 false))
      = Res.panic Panic.indexOutOfRange
          (withConfig defaultConfig (sampleReached 0 [repoA, repoB]
            [callList, Call.getPullRequests
              "https://api.github.com/repos/o/a/pulls?state=all&per_page=50"])) :=
    Tick_of_parts sampleEnv quietWorld (withConfig defaultConfig (sampleState 0 [] 0 false))
      (withConfig defaultConfig (sampleReached 0 [repoA, repoB] [callList])) _ rfl rfl
  ⟨rfl, rfl, by decide, ⟨sampleResponse 200 "4000" "" "[]", [], rfl, rfl, rfl, rfl⟩, htick,
    Ticks_cons_panic sampleEnv quietWorld [quietWorld] _ _ _ htick⟩


/-! ## Retention policy (`Tick`, lines 69-79) -/

/-- The decision of the loop body, for one pull request. The body of the loop over the fetched
pull requests submits a pull request to the index
(one create request, keyed by its generated identifier) exactly when its state is not `closed` or
its `closed_at` lies at most 48 hours before the current time; in every other case it issues no
call at all. In particular a pull request closed 48 hours and one minute ago is not submitted,
one closed 47 hours and 59 minutes ago (or exactly 48 hours ago) is, and an open one is, whatever
its age. -/
theorem Tick_pull_retention (env : Env) (now : Int) (pull : PullRequest)
    (answers : List (Option EsResponse)) (s : St) :
    ((∃ body, (Tick_pull env now pull answers s).state.calls
          = s.calls ++ [Call.esCreate env.elasticIndex (generateUUID env.randomUUID pull) body]) ↔
        (pull.State ≠ "closed" ∨
          ∃ closedAt, pull.ClosedAt = some closedAt ∧ now - closedAt ≤ 48 * Hour)) ∧
      (¬ (pull.State ≠ "closed" ∨
          ∃ closedAt, pull.ClosedAt = some closedAt ∧ now - closedAt ≤ 48 * Hour) →
        (Tick_pull env now pull answers s).state.calls = s.calls) ∧
      (pull.State = "closed" → pull.ClosedAt = some (now - (48 * Hour + 60000000000)) →
        (Tick_pull env now pull answers s).state.calls = s.calls) ∧
      (pull.State = "closed" →
        (pull.ClosedAt = some (now - (48 * Hour - 60000000000)) ∨
          pull.ClosedAt = some (now - 48 * Hour)) →
        ∃ body, (Tick_pull env now pull answers s).state.calls
          = s.calls ++ [Call.esCreate env.elasticIndex (generateUUID env.randomUUID pull) body]) ∧
      (pull.State = "open" →
        ∃ body, (Tick_pull env now pull answers s).state.calls
          = s.calls ++ [Call.esCreate env.elasticIndex (generateUUID env.randomUUID pull) body]) := by
  have core : ((∃ body, (Tick_pull env now pull answers s).state.calls
          = s.calls ++ [Call.esCreate env.elasticIndex (generateUUID env.randomUUID pull) body]) ↔
        (pull.State ≠ "closed" ∨
          ∃ closedAt, pull.ClosedAt = some closedAt ∧ now - closedAt ≤ 48 * Hour)) ∧
      (¬ (pull.State ≠ "closed" ∨
          ∃ closedAt, pull.ClosedAt = some closedAt ∧ now - closedAt ≤ 48 * Hour) →
        (Tick_pull env now pull answers s).state.calls = s.calls) := by
    have hpush := Tick_push_eq now pull s
    have hno : ∀ (r : Res (List (Option EsResponse))), r.state.calls = s.calls →
        ¬ ∃ body, r.state.calls
          = s.calls ++ [Call.esCreate env.elasticIndex (generateUUID env.randomUUID pull) body] := by
      rintro r hr ⟨body, hb⟩
      rw [hr] at hb
      have := congrArg List.length hb
      simp at this
    by_cases hc : pull.State = "closed"
    · rw [if_pos hc] at hpush
      cases hca : pull.ClosedAt with
      | none =>
        rw [hca] at hpush
        have hp := Tick_pull_of_push_panic env now pull answers s _ hpush
        have hcalls : (Tick_pull env now pull answers s).state.calls = s.calls := by rw [hp]; rfl
        have hcond : ¬ (pull.State ≠ "closed" ∨
            ∃ closedAt, none = some closedAt ∧ now - closedAt ≤ 48 * Hour) := by
          rintro (h | ⟨t, ht, -⟩)
          · exact h hc
          · cases ht
        exact ⟨⟨fun h => (hno _ hcalls h).elim, fun h => (hcond h).elim⟩, fun _ => hcalls⟩
      | some closedAt =>
        rw [hca] at hpush
        by_cases hage : now - closedAt ≤ 48 * Hour
        · simp only [hage, decide_True] at hpush
          have hp := Tick_pull_of_push_true env now pull answers s hpush
          have hcond : pull.State ≠ "closed" ∨
              ∃ t, some closedAt = some t ∧ now - t ≤ 48 * Hour := Or.inr ⟨closedAt, rfl, hage⟩
          exact ⟨⟨fun _ => hcond, fun _ => hp⟩, fun h => (h hcond).elim⟩
        · simp only [hage, decide_False] at hpush
          have hp := Tick_pull_of_push_false env now pull answers s hpush
          have hcalls : (Tick_pull env now pull answers s).state.calls = s.calls := by rw [hp]; rfl
          have hcond : ¬ (pull.State ≠ "closed" ∨
              ∃ t, some closedAt = some t ∧ now - t ≤ 48 * Hour) := by
            rintro (h | ⟨t, ht, hle⟩)
            · exact h hc
            · injection ht with ht
              subst ht
              exact hage hle
          exact ⟨⟨fun h => (hno _ hcalls h).elim, fun h => (hcond h).elim⟩, fun _ => hcalls⟩
    · rw [if_neg hc] at hpush
      have hp := Tick_pull_of_push_true env now pull answers s hpush
      exact ⟨⟨fun _ => Or.inl hc, fun _ => hp⟩, fun h => (h (Or.inl hc)).elim⟩
  obtain ⟨hiff, hnot⟩ := core
  refine ⟨hiff, hnot, fun hc ht => hnot ?_, fun hc ht => hiff.mpr (Or.inr ?_),
    fun ho => hiff.mpr (Or.inl ?_)⟩
  · rintro (h | ⟨t, h1, h2⟩)
    · exact h hc
    · rw [ht] at h1
      injection h1 with h1
      subst h1
      unfold Hour at h2
      omega
  · rcases ht with ht | ht
    · exact ⟨_, ht, by unfold Hour; omega⟩
    · exact ⟨_, ht, by unfold Hour; omega⟩
  · rw [ho]
    decide

set_option maxRecDepth 1000000 in
/-- C4, evaluated at time 0 on a page of three pull requests: one closed 48 hours and one minute
ago, one closed 47 hours and 59 minutes ago and an open one. The policy retains the second and
the third. The tick skips the first and submits the second; Elasticsearch answers with status
502 and a body that is not a JSON error object, `printESError` panics on its type assertion, and
the open pull request is never submitted. -/
theorem Tick_retained_pull_not_emitted :
    retained 0 pullStale = false ∧ retained 0 pullRecent = true ∧ retained 0 pullOther = true ∧
      Tick retentionEnv retentionWorld (sampleState 0 [repoA, repoB] 2001 false)
        = Res.panic Panic.typeAssertion (sampleReached 0 [repoA, repoB]
            [Call.getPullRequests "https://api.github.com/repos/o/a/pulls?state=all&per_page=50",
             Call.esCreate "idx" "89ad039c-f8a2-2500-3e90-e2df86d1e233" "event"]) ∧
      submission retentionEnv 0 pullOther
        = Call.esCreate "idx" "6b5bcee3-cceb-63d1-f16c-6fb7904c5f66" "event" := by
  have hstale : Tick_push 0 pullStale (sampleReached 0 [repoA, repoB]
      [Call.getPullRequests "https://api.github.com/repos/o/a/pulls?state=all&per_page=50"])
      = Res.ok false (sampleReached 0 [repoA, repoB]
        [Call.getPullRequests "https://api.github.com/repos/o/a/pulls?state=all&per_page=50"]) := by
    rw [Tick_push_eq]
    rfl
  have hrecent : Tick_push 0 pullRecent (sampleReached 0 [repoA, repoB]
      [Call.getPullRequests "https://api.github.com/repos/o/a/pulls?state=all&per_page=50"])
      = Res.ok true (sampleReached 0 [repoA, repoB]
        [Call.getPullRequests "https://api.github.com/repos/o/a/pulls?state=all&per_page=50"]) := by
    rw [Tick_push_eq]
    rfl
  have hpull : Tick_pull retentionEnv 0 pullRecent retentionWorld.esAnswers
      (sampleReached 0 [repoA, repoB]
        [Call.getPullRequests "https://api.github.com/repos/o/a/pulls?state=all&per_page=50"])
      = Res.panic Panic.typeAssertion (sampleReached 0 [repoA, repoB]
          [Call.getPullRequests "https://api.github.com/repos/o/a/pulls?state=all&per_page=50",
           Call.esCreate "idx" "89ad039c-f8a2-2500-3e90-e2df86d1e233" "event"]) := by
    rw [Tick_pull_of_push _ _ _ _ _ hrecent]
    rfl
  have htick : Tick retentionEnv retentionWorld (sampleState 0 [repoA, repoB] 2001 false)
      = Res.panic Panic.typeAssertion (sampleReached 0 [repoA, repoB]
          [Call.getPullRequests "https://api.github.com/repos/o/a/pulls?state=all&per_page=50",
           Call.esCreate "idx" "89ad039c-f8a2-2500-3e90-e2df86d1e233" "event"]) := by
    rw [Tick_of_nonempty _ _ _ (by decide)]
    exact Tick_process_pulls_panic retentionEnv retentionWorld
      (sampleState 0 [repoA, repoB] 2001 false)
      (sampleReached 0 [repoA, repoB]
        [Call.getPullRequests "https://api.github.com/repos/o/a/pulls?state=all&per_page=50"])
      _ repoA [pullStale, pullRecent, pullOther] "" Panic.typeAssertion (by decide) rfl rfl
      (Tick_pulls_cons_ok _ _ _ _ _ _ _ _ _
        (Tick_pull_of_push_false _ _ _ _ _ hstale)
        (Tick_pulls_cons_panic _ _ _ _ _ _ _ _ hpull))
  exact ⟨by decide, by decide, by decide, htick, rfl⟩


/-! ## The deterministic event identifier (`payload.go`, lines 139-150) -/

set_option maxRecDepth 1000000 in
/-- C5. For every pull request, `generateUUID` hashes the string made of the full name of the base
repository, the decimal identifier, the decimal number and the state; the digest has 16 bytes, so
the random fallback (whatever it would return) is never taken; the result is the canonical
36-character text of that digest (lowercase hexadecimal in groups of 8, 4, 4, 4 and 12), and
reading the text back gives the digest, bit for bit. Two pull requests that agree on the four
fields get the same identifier, and the payload of the test gets
`c39b05e9-4c8e-aa2e-8e6d-f3b47804e88d`. -/
theorem generateUUID_deterministic (randomUUID : String) (pr : PullRequest) :
    (md5Sum (utf8Bytes (pr.Base.Repo.FullName ++ formatInt pr.ID ++ formatInt pr.Number
        ++ pr.State))).length = 16 ∧
      generateUUID randomUUID pr = uuidString (md5Sum (utf8Bytes (pr.Base.Repo.FullName
        ++ formatInt pr.ID ++ formatInt pr.Number ++ pr.State))) ∧
      IsCanonicalUUID (generateUUID randomUUID pr) ∧
      (generateUUID randomUUID pr).length = 36 ∧
      uuidBytes (generateUUID randomUUID pr) = md5Sum (utf8Bytes (pr.Base.Repo.FullName
        ++ formatInt pr.ID ++ formatInt pr.Number ++ pr.State)) ∧
      (∀ (otherRandom : String) (other : PullRequest),
        other.Base.Repo.FullName = pr.Base.Repo.FullName → other.ID = pr.ID →
        other.Number = pr.Number → other.State = pr.State →
        generateUUID otherRandom other = generateUUID randomUUID pr) ∧
      generateUUID randomUUID testPayload = "c39b05e9-4c8e-aa2e-8e6d-f3b47804e88d" := by
  have hlen := md5Sum_length (utf8Bytes (generateString pr))
  have heq := generateUUID_eq randomUUID pr
  have hcan : IsCanonicalUUID (generateUUID randomUUID pr) := by
    rw [heq]
    exact uuidString_canonical _ hlen
  refine ⟨hlen, heq, hcan, ?_, ?_, ?_, ?_⟩
  · obtain ⟨g1, g2, g3, g4, g5, hd, h1, h2, h3, h4, h5, -⟩ := hcan
    show (generateUUID randomUUID pr).data.length = 36
    rw [hd]
    simp [h1, h2, h3, h4, h5]
  · rw [heq]
    exact uuidBytes_uuidString _ hlen (md5Sum_lt _)
  · intro otherRandom other hF hI hN hS
    rw [generateUUID_eq, generateUUID_eq]
    unfold generateString
    rw [hF, hI, hN, hS]
  · rw [generateUUID_eq]
    rfl

/-- C6. Two pull requests whose (full name, identifier, number, state) differ in exactly one field
hand different strings to the hash; if they nevertheless got the same identifier, the two
different strings would have the same MD5 digest. -/
theorem generateString_one_field_differs (random1 random2 : String) (pr1 pr2 : PullRequest)
    (h : (pr1.Base.Repo.FullName ≠ pr2.Base.Repo.FullName ∧ pr1.ID = pr2.ID ∧
          pr1.Number = pr2.Number ∧ pr1.State = pr2.State) ∨
        (pr1.Base.Repo.FullName = pr2.Base.Repo.FullName ∧ pr1.ID ≠ pr2.ID ∧
          pr1.Number = pr2.Number ∧ pr1.State = pr2.State) ∨
        (pr1.Base.Repo.FullName = pr2.Base.Repo.FullName ∧ pr1.ID = pr2.ID ∧
          pr1.Number ≠ pr2.Number ∧ pr1.State = pr2.State) ∨
        (pr1.Base.Repo.FullName = pr2.Base.Repo.FullName ∧ pr1.ID = pr2.ID ∧
          pr1.Number = pr2.Number ∧ pr1.State ≠ pr2.State)) :
    generateString pr1 ≠ generateString pr2 ∧
      (generateUUID random1 pr1 = generateUUID random2 pr2 →
        md5Sum (utf8Bytes (generateString pr1)) = md5Sum (utf8Bytes (generateString pr2))) := by
  constructor
  · intro hs
    have hlen := congrArg String.length hs
    rw [generateString_length, generateString_length] at hlen
    rcases h with ⟨hne, hI, hN, hS⟩ | ⟨hF, hne, hN, hS⟩ | ⟨hF, hI, hne, hS⟩ | ⟨hF, hI, hN, hne⟩
    · rw [hI, hN, hS] at hlen
      exact hne (generateString_aligned pr1 pr2 hs (by omega) (by rw [hI]) (by rw [hN])).1
    · rw [hF, hN, hS] at hlen
      exact hne (generateString_aligned pr1 pr2 hs (by rw [hF]) (by omega) (by rw [hN])).2.1
    · rw [hF, hI, hS] at hlen
      exact hne (generateString_aligned pr1 pr2 hs (by rw [hF]) (by rw [hI]) (by omega)).2.2.1
    · exact hne (generateString_aligned pr1 pr2 hs (by rw [hF]) (by rw [hI]) (by rw [hN])).2.2.2
  · intro hu
    rw [generateUUID_eq, generateUUID_eq] at hu
    have h1 := uuidBytes_uuidString _ (md5Sum_length (utf8Bytes (generateString pr1)))
      (md5Sum_lt _)
    have h2 := uuidBytes_uuidString _ (md5Sum_length (utf8Bytes (generateString pr2)))
      (md5Sum_lt _)
    rw [← h1, ← h2, hu]

/-- Witness of `generateString_one_field_differs`: the payload of the test, open and closed. -/
theorem generateString_one_field_differs_witness :
    generateString testPayload ≠ generateString { testPayload with State := "closed" } :=
  (generateString_one_field_differs "" "" testPayload { testPayload with State := "closed" }
    (Or.inr (Or.inr (Or.inr ⟨rfl, rfl, rfl, by decide⟩)))).1

/-- C8. The pages `p1, ..., pk` (`k ≥ 1`) are served in a chain: each fetch succeeds, every page
but the last announces a non-empty next URL, the last announces none. Then `ListRepositories`
returns `p1 ++ ... ++ pk` with a nil error after exactly `k` fetches: the first of the fixed
listing URL, each following one of the URL the page before announced; answers that are still
available after the last page are not asked for. -/
theorem ListRepositories_pagination (env : Env) (now : Int)
    (pages : List (Response × List Repository × String)) (last : Response × List Repository)
    (rest : List (Option Response)) (s : St)
    (hpages : ∀ p ∈ pages, ServesRepositories env p.1 p.2.1 p.2.2 ∧ p.2.2 ≠ "")
    (hlast : ServesRepositories env last.1 last.2 "") :
    ∃ s', ListRepositories env now (pages.map (fun p => some p.1) ++ some last.1 :: rest) s
          = Res.ok (.ok (pages.flatMap (fun p => p.2.1) ++ last.2)) s' ∧
      s'.calls = s.calls ++ ("https://api.github.com/user/repos"
          :: pages.map (fun p => p.2.2)).map Call.getRepositories ∧
      (s'.calls.length = s.calls.length + (pages.length + 1)) := by
  obtain ⟨s', h1, h2⟩ := ListRepositories_loop_pages env now last rest hlast pages
    "https://api.github.com/user/repos" [] s (by decide) hpages
  refine ⟨s', ?_, h2, ?_⟩
  · unfold ListRepositories
    rw [h1]
    rfl
  · rw [h2]
    simp

set_option maxRecDepth 1000000 in
/-- Witness of `ListRepositories_pagination`: two pages, `[A]` announcing a second page and
`[B]` announcing none, give `[A, B]` after two fetches. -/
theorem ListRepositories_pagination_witness :
    ∃ s', ListRepositories sampleEnv 0 [some repoPage1, some repoPage2] (sampleState 0 [] 0 false)
          = Res.ok (.ok [repoA, repoB]) s' ∧
      s'.calls = [Call.getRepositories "https://api.github.com/user/repos",
                  Call.getRepositories "https://api.github.com/user/repos?page=2"] ∧
      s'.calls.length = 2 :=
  ListRepositories_pagination sampleEnv 0
    [(repoPage1, [repoA], "https://api.github.com/user/repos?page=2")] (repoPage2, [repoB]) []
    (sampleState 0 [] 0 false)
    (fun p hp => by
      rw [List.mem_singleton] at hp
      subst hp
      exact ⟨⟨rfl, ⟨rfl, rfl, rfl, rfl⟩, rfl, rfl, rfl⟩, by decide⟩)
    ⟨rfl, ⟨rfl, rfl, rfl, rfl⟩, rfl, rfl, rfl⟩

/-- C9 (amended). A tick that processes a repository (its refresh step returns, the gate passes
and the cursor points into the list) issues exactly one pull-request fetch, whether or not it
returns afterwards: the fetch of the first page of that repository, with `per_page` set to
`PRPageSize` when that is positive. This holds whatever next URL the page announces, so no
further page is fetched, and every document the tick submits belongs to a pull request of that
first page. -/
theorem Tick_fetches_first_page_only (env : Env) (w : World) (s s1 : St)
    (repository : Repository) (hrefresh : Tick_refresh env w s = Res.ok () s1)
    (hgate : ¬ (s1.c.remaining < 2000 ∧ s1.c.lowNotise = false))
    (hidx : index s1.c.list s1.c.next = some repository) :
    pullFetches (Tick env w s).state.calls
        = pullFetches s.calls ++ [pullsURL s.c.Config repository] ∧
      pullsURL s.c.Config repository
        = "https://api.github.com/repos/" ++ repository.FullName ++ "/pulls?state=all"
          ++ (if 0 < s.c.Config.PRPageSize then "&per_page=" ++ formatInt s.c.Config.PRPageSize
              else "") ∧
      ∃ new, (Tick env w s).state.calls = s.calls ++ new ∧
        ∀ index documentID body, Call.esCreate index documentID body ∈ new →
          ∃ resp pulls pull, w.pullsAnswer = some resp ∧
            env.unmarshalPullRequests resp.Body = some pulls ∧ pull ∈ pulls ∧
            documentID = generateUUID env.randomUUID pull := by
  have hcfg : s1.c.Config = s.c.Config := by
    by_cases hl : s.c.list = []
    · exact (Tick_refresh_cursor env w s s1 hl hrefresh).2
    · rw [Tick_refresh_nonempty env w s hl] at hrefresh
      injection hrefresh with _ hs
      rw [hs]
  have hgrow := Tick_refresh_logGrows (fun call => ∃ url, call = Call.getRepositories url) env w
    (fun url => ⟨url, rfl⟩) s
  rw [hrefresh] at hgrow
  obtain ⟨pre0, epre0, hpre0⟩ := hgrow
  simp only [Res.state] at epre0
  refine ⟨?_, rfl, ?_⟩
  · rw [Tick_of_parts env w s s1 _ hrefresh rfl,
      Tick_process_pullFetches env w s1 repository hgate hidx, epre0, pullFetches_append,
      pullFetches_repositories pre0 hpre0, hcfg]
    simp
  · obtain ⟨pre, fetched, post, e, hpre, hf, hpost⟩ := Tick_log env w s
    refine ⟨pre ++ (fetched ++ post), e, ?_⟩
    intro index documentID body hmem
    rcases List.mem_append.mp hmem with h | h
    · obtain ⟨url, hu⟩ := hpre _ h
      cases hu
    · rcases List.mem_append.mp h with h | h
      · rcases hf with hf | ⟨url, hf⟩
        · rw [hf] at h
          simp at h
        · rw [hf, List.mem_singleton] at h
          cases h
      · rcases hpost _ h with (⟨url, hu⟩ | ⟨url, b, hu⟩) | ⟨resp, pulls, ha, hdec, pull, hp, b, hu⟩
        · cases hu
        · cases hu
        · injection hu with _ hid _
          exact ⟨resp, pulls, pull, ha, hdec, hp, hid⟩

set_option maxRecDepth 1000000 in
/-- Witness of `Tick_fetches_first_page_only`: repository `A` of the list `[A, B]` is processed
with a quota of 2001, its first page of pull requests announces a second page, and the one
pull-request fetch of the tick is that of the first page, with `per_page=50`. -/
theorem Tick_fetches_first_page_only_witness :
    (∃ resp, pagedWorld.pullsAnswer = some resp ∧ nextURLOf sampleEnv resp.Header ≠ "") ∧
      pullFetches (Tick sampleEnv pagedWorld (sampleState 0 [repoA, repoB] 2001 false)).state.calls
        = pullFetches (sampleState 0 [repoA, repoB] 2001 false).calls
          ++ [pullsURL (sampleState 0 [repoA, repoB] 2001 false).c.Config repoA] ∧
      pullsURL (sampleState 0 [repoA, repoB] 2001 false).c.Config repoA
        = "https://api.github.com/repos/o/a/pulls?state=all&per_page=50" :=
  ⟨⟨_, rfl, by decide⟩,
    (Tick_fetches_first_page_only sampleEnv pagedWorld (sampleState 0 [repoA, repoB] 2001 false)
      (sampleState 0 [repoA, repoB] 2001 false) repoA rfl (by decide) rfl).1,
    rfl⟩

set_option maxRecDepth 1000000 in
/-- C9 as stated fails: the first page of pull requests announces a second page, and the tick
still issues one pull-request fetch only before it goes on to the index and to the webhooks. -/
theorem Tick_ignores_next_pulls_page :
    (∃ resp, pagedWorld.pullsAnswer = some resp ∧ nextURLOf sampleEnv resp.Header
        = "https://api.github.com/repositories/1/pulls?state=all&per_page=50&page=2") ∧
      Tick sampleEnv pagedWorld (sampleState 0 [repoA, repoB] 2001 false)
        = Res.ok () (sampleReached 1 [repoA, repoB]
          [Call.getPullRequests "https://api.github.com/repos/o/a/pulls?state=all&per_page=50",
           Call.esCreate "idx" "a4c68cab-2bbe-9354-4e60-18aab0f84607" "event",
           Call.getWebHooks "https://api.github.com/repos/o/a/hooks",
           Call.postWebHook "https://api.github.com/repos/o/a/hooks" "hook"]) :=
  ⟨⟨_, rfl, rfl⟩, rfl⟩

/-! ## Rate-limit bookkeeping of the page fetchers (lines 166-177, 365-380, 438-453) -/

set_option maxRecDepth 1000000 in
/-- C10, evaluated on responses with status 403 and 401 whose rate-limit headers parse and
announce a remaining quota of 0, the tracked quota being 4000: `getRepositoriesPage` returns its
status error and leaves the tracked quota at 4000, while `getPullRequestsPage` and
`getWebHooksPage` set it to 0 on the same responses. -/
theorem getRepositoriesPage_keeps_quota_on_error :
    convertVar (sampleResponse 403 "0" "" "").Header "X-Ratelimit-Remaining" = some 0 ∧
      getRepositoriesPage sampleEnv 0 "https://api.github.com/user/repos"
          (some (sampleResponse 403 "0" "" "")) (sampleState 0 [] 4000 false)
        = Res.ok (.error ErrStatusNotAccepted)
            { sampleState 0 [] 4000 false with calls := [callList] } ∧
      getRepositoriesPage sampleEnv 0 "https://api.github.com/user/repos"
          (some (sampleResponse 401 "0" "" "")) (sampleState 0 [] 4000 false)
        = Res.ok (.error ErrStatusUnauthorized)
            { sampleState 0 [] 4000 false with calls := [callList] } ∧
      (getPullRequestsPage sampleEnv 0 "https://api.github.com/repos/o/a/pulls?state=all"
          (some (sampleResponse 403 "0" "" "")) (sampleState 0 [] 4000 false)).state.c.remaining
        = 0 ∧
      (getWebHooksPage sampleEnv 0 "https://api.github.com/repos/o/a/hooks"
          (some (sampleResponse 401 "0" "" "")) (sampleState 0 [] 4000 false)).state.c.remaining
        = 0 :=
  ⟨rfl, rfl, rfl, rfl, rfl⟩

/-- What the three page fetchers do with the rate-limit headers of a response whose four
rate-limit headers parse: `getPullRequestsPage` and `getWebHooksPage` return with the tracked
quota set to the header value whatever the status; `getRepositoriesPage` leaves the state of the
crawler untouched when the status is not 200. -/
theorem page_fetchers_rate_limits (env : Env) (now : Int) (url : String) (resp : Response)
    (s : St) (h : RateLimitsParse resp.Header) :
    (∃ r res s', convertVar resp.Header "X-Ratelimit-Remaining" = some r ∧
        getPullRequestsPage env now url (some resp) s = Res.ok res s' ∧ s'.c.remaining = r) ∧
      (∃ r res s', convertVar resp.Header "X-Ratelimit-Remaining" = some r ∧
        getWebHooksPage env now url (some resp) s = Res.ok res s' ∧ s'.c.remaining = r) ∧
      (resp.StatusCode ≠ 200 →
        (getRepositoriesPage env now url (some resp) s).state.c = s.c) := by
  refine ⟨getPullRequestsPage_tracks env now url resp s h,
    getWebHooksPage_tracks env now url resp s h, fun hne => ?_⟩
  rw [getRepositoriesPage_not_ok env now url resp s hne]
  rfl

/-! ## Rate-limit extraction (`crawlrequests.go`, lines 194-245) -/

/-- The extraction returns exactly when all four rate-limit headers parse; in every other case it
ends in a nil dereference. When it returns, the fields of the result are the parsed values. -/
theorem getRateLimits_returns_iff (now : Int) (header : List (String × String)) (s : St) :
    ((∃ rl s', getRateLimits now header s = Res.ok rl s') ↔ RateLimitsParse header) ∧
      (¬ RateLimitsParse header →
        ∃ s', getRateLimits now header s = Res.panic Panic.nilDereference s') ∧
      (∀ rl s', getRateLimits now header s = Res.ok rl s' →
        rl = { Used := convertVar header "X-Ratelimit-Used",
               Remaining := convertVar header "X-Ratelimit-Remaining",
               Total := convertVar header "X-Ratelimit-Limit",
               Reset := (Atoi (headerGet header "X-Ratelimit-Reset")).map timeUnix }) := by
  refine ⟨⟨?_, ?_⟩, getRateLimits_panics now header s, fun rl s' h =>
    getRateLimits_value now header s s' rl h⟩
  · rintro ⟨rl, s', h⟩
    by_contra hno
    obtain ⟨s2, h2⟩ := getRateLimits_panics now header s hno
    rw [h2] at h
    cases h
  · intro h
    obtain ⟨r, rl, s', -, hg, -, -⟩ := getRateLimits_ok now header s h
    exact ⟨rl, s', hg⟩

/-- C11, evaluated on header sets with a field that does not parse. Without
`X-Ratelimit-Remaining` the extraction panics at `c.remaining = *remaining`; with a remaining
quota of 12 and an `X-Ratelimit-Used` that is not a number, `convertVar` yields nil for the
field, the tracked quota is set to 12, and the extraction panics in `setGauges`. In neither
case is a `RateLimit` returned. -/
theorem getRateLimits_nil_dereference :
    convertVar [] "X-Ratelimit-Remaining" = none ∧
      getRateLimits 0 [] (sampleState 0 [] 4000 false)
        = Res.panic Panic.nilDereference (sampleState 0 [] 4000 false) ∧
      convertVar [("X-Ratelimit-Used", "x"), ("X-Ratelimit-Remaining", "12"),
          ("X-Ratelimit-Limit", "5000"), ("X-Ratelimit-Reset", "100")] "X-Ratelimit-Used"
        = none ∧
      getRateLimits 0 [("X-Ratelimit-Used", "x"), ("X-Ratelimit-Remaining", "12"),
          ("X-Ratelimit-Limit", "5000"), ("X-Ratelimit-Reset", "100")]
          (sampleState 0 [] 4000 false)
        = Res.panic Panic.nilDereference (sampleState 0 [] 12 false) :=
  ⟨rfl, rfl, rfl, rfl⟩

/-! ## The error contract of the page fetchers (lines 150-192, 348-464) -/

/-- C13 (amended). `getRepositoriesPage` checks the status before it reads the rate-limit
headers: for every response with a status other than 200 it returns `ErrStatusUnauthorized` for
401 and `ErrStatusNotAccepted` otherwise. `getPullRequestsPage` and `getWebHooksPage` do so for
every response whose rate-limit headers parse. For status 200 and rate-limit headers that parse,
each of the three returns the read error for a body that cannot be read, the decode error for a
readable body that does not decode, and for a decodable body the decoded collection with the URL
of the first `next` link, or the empty string. The two sentinels differ, and the read and decode
errors are neither. -/
theorem page_fetchers_contract (env : Env) (now : Int) (url : String) (resp : Response) (s : St) :
    (resp.StatusCode ≠ 200 ∨ RateLimitsParse resp.Header →
        ∃ s', getRepositoriesPage env now url (some resp) s
          = Res.ok (pageContract env.unmarshalRepositories env resp) s') ∧
      (RateLimitsParse resp.Header →
        (∃ s', getPullRequestsPage env now url (some resp) s
          = Res.ok (pageContract env.unmarshalPullRequests env resp) s') ∧
        (∃ s', getWebHooksPage env now url (some resp) s
          = Res.ok (pageContract env.unmarshalWebHooks env resp) s')) ∧
      (resp.StatusCode = 401 → ∀ {α : Type} (decode : String → Option (List α)),
        pageContract decode env resp = .error ErrStatusUnauthorized) ∧
      (resp.StatusCode ≠ 401 → resp.StatusCode ≠ 200 →
        ∀ {α : Type} (decode : String → Option (List α)),
          pageContract decode env resp = .error ErrStatusNotAccepted) ∧
      ErrStatusUnauthorized ≠ ErrStatusNotAccepted ∧
      Err.unmarshal ≠ ErrStatusUnauthorized ∧ Err.unmarshal ≠ ErrStatusNotAccepted ∧
      Err.readBody ≠ ErrStatusUnauthorized ∧ Err.readBody ≠ ErrStatusNotAccepted := by
  refine ⟨?_, ?_, ?_, ?_, by decide, by decide, by decide, by decide, by decide⟩
  · rintro (hne | h)
    · refine ⟨{ s with calls := s.calls ++ [Call.getRepositories url] }, ?_⟩
      rw [getRepositoriesPage_not_ok env now url resp s hne]
      unfold pageContract
      by_cases h401 : resp.StatusCode = 401
      · rw [if_pos h401, if_pos h401]
      · rw [if_neg h401, if_neg h401, if_pos hne]
    · obtain ⟨s1, h1, -⟩ := getRepositoriesPage_contract env now url resp s h
      exact ⟨s1, h1⟩
  · intro h
    obtain ⟨-, s2, -, h2, -, -⟩ := getPullRequestsPage_contract env now url resp s h
    obtain ⟨-, s3, -, h3, -, -⟩ := getWebHooksPage_contract env now url resp s h
    exact ⟨⟨s2, h2⟩, ⟨s3, h3⟩⟩
  · intro h401 α decode
    unfold pageContract
    rw [if_pos h401]
  · intro h401 h200 α decode
    unfold pageContract
    rw [if_neg h401, if_pos h200]

set_option maxRecDepth 1000000 in
/-- Witness of `page_fetchers_contract`: `getRepositoriesPage` returns `ErrStatusUnauthorized` on
a 401 response without any header, and the other two fetchers return it on a 401 response whose
rate-limit headers parse. -/
theorem page_fetchers_contract_witness :
    (∃ s', getRepositoriesPage sampleEnv 0 "https://api.github.com/user/repos"
          (some (bareResponse 401 "")) (sampleState 0 [] 4000 false)
        = Res.ok (pageContract sampleEnv.unmarshalRepositories sampleEnv (bareResponse 401 ""))
            s') ∧
      pageContract sampleEnv.unmarshalRepositories sampleEnv (bareResponse 401 "")
        = .error ErrStatusUnauthorized ∧
      RateLimitsParse (sampleResponse 401 "0" "" "").Header ∧
      (∃ s', getPullRequestsPage sampleEnv 0 "https://api.github.com/repos/o/a/pulls?state=all"
          (some (sampleResponse 401 "0" "" "")) (sampleState 0 [] 4000 false)
        = Res.ok (pageContract sampleEnv.unmarshalPullRequests sampleEnv
            (sampleResponse 401 "0" "" "")) s') ∧
      (∃ s', getWebHooksPage sampleEnv 0 "https://api.github.com/repos/o/a/pulls?state=all"
          (some (sampleResponse 401 "0" "" "")) (sampleState 0 [] 4000 false)
        = Res.ok (pageContract sampleEnv.unmarshalWebHooks sampleEnv
            (sampleResponse 401 "0" "" "")) s') ∧
      pageContract sampleEnv.unmarshalPullRequests sampleEnv (sampleResponse 401 "0" "" "")
        = .error ErrStatusUnauthorized :=
  have hp : RateLimitsParse (sampleResponse 401 "0" "" "").Header := ⟨rfl, rfl, rfl, rfl⟩
  have hbare := page_fetchers_contract sampleEnv 0 "https://api.github.com/user/repos"
    (bareResponse 401 "") (sampleState 0 [] 4000 false)
  have h := page_fetchers_contract sampleEnv 0 "https://api.github.com/repos/o/a/pulls?state=all"
    (sampleResponse 401 "0" "" "") (sampleState 0 [] 4000 false)
  ⟨hbare.1 (Or.inl (by decide)), hbare.2.2.1 rfl _, hp, (h.2.1 hp).1, (h.2.1 hp).2,
    h.2.2.1 rfl _⟩

set_option maxRecDepth 1000000 in
/-- C13 as stated fails. By the explicit check of the read error, a 200 response whose body
cannot be read returns the read error from each of the three fetchers, also when the body is one
the decoder accepts. And a 401 response without rate-limit headers makes `getPullRequestsPage`
and `getWebHooksPage` panic instead of returning `ErrStatusUnauthorized`, as a 200 response
without them does to `getRepositoriesPage`. -/
theorem page_fetchers_contract_fails :
    sampleEnv.unmarshalRepositories "[A,B]" = some [repoA, repoB] ∧
      getRepositoriesPage sampleEnv 0 "https://api.github.com/user/repos"
        (some { sampleResponse 200 "4000" "" "[A,B]" with readErr := true })
        (sampleState 0 [] 4000 false)
      = Res.ok (.error Err.readBody) (sampleReached 0 [] [callList]) ∧
      sampleEnv.unmarshalPullRequests "[open]" = some [pullOpen] ∧
      getPullRequestsPage sampleEnv 0 "https://api.github.com/repos/o/a/pulls?state=all"
        (some { sampleResponse 200 "4000" "" "[open]" with readErr := true })
        (sampleState 0 [] 4000 false)
      = Res.ok (.error Err.readBody) (sampleReached 0 []
          [Call.getPullRequests "https://api.github.com/repos/o/a/pulls?state=all"]) ∧
      sampleEnv.unmarshalWebHooks "[]" = some [] ∧
      getWebHooksPage sampleEnv 0 "https://api.github.com/repos/o/a/hooks"
        (some { sampleResponse 200 "4000" "" "[]" with readErr := true })
        (sampleState 0 [] 4000 false)
      = Res.ok (.error Err.readBody) (sampleReached 0 []
          [Call.getWebHooks "https://api.github.com/repos/o/a/hooks"]) ∧
      getPullRequestsPage sampleEnv 0 "https://api.github.com/repos/o/a/pulls?state=all"
        (some (bareResponse 401 "")) (sampleState 0 [] 4000 false)
      = Res.panic Panic.nilDereference { sampleState 0 [] 4000 false with
          calls := [Call.getPullRequests "https://api.github.com/repos/o/a/pulls?state=all"] } ∧
      getWebHooksPage sampleEnv 0 "https://api.github.com/repos/o/a/hooks"
        (some (bareResponse 401 "")) (sampleState 0 [] 4000 false)
      = Res.panic Panic.nilDereference { sampleState 0 [] 4000 false with
          calls := [Call.getWebHooks "https://api.github.com/repos/o/a/hooks"] } ∧
      getRepositoriesPage sampleEnv 0 "https://api.github.com/user/repos"
        (some (bareResponse 200 "[A,B]")) (sampleState 0 [] 4000 false)
      = Res.panic Panic.nilDereference { sampleState 0 [] 4000 false with
          calls := [callList] } :=
  ⟨rfl, rfl, rfl, rfl, rfl, rfl, rfl, rfl, rfl⟩

/-! ## A failed listing (`Tick`, lines 34-57) -/

/-- What a tick does when the list is empty and the listing fails with an error other than
`ErrStatusUnauthorized`: the list is left empty and nothing but listing calls is issued; the tick
returns (setting the flag) when the quota is below 2000 with the flag clear, and in every other
case it indexes the empty list and panics. -/
theorem Tick_failed_listing (env : Env) (w : World) (s s1 : St) (e : Err)
    (hempty : s.c.list = [])
    (hlist : ListRepositories env w.now w.repoPages s = Res.ok (.error e) s1)
    (hne : e ≠ ErrStatusUnauthorized) :
    (s1.c.remaining < 2000 ∧ s1.c.lowNotise = false →
        Tick env w s = Res.ok ()
          { s1 with c := { s1.c with list := [], next := 0, lowNotise := true } }) ∧
      (¬ (s1.c.remaining < 2000 ∧ s1.c.lowNotise = false) →
        Tick env w s = Res.panic Panic.indexOutOfRange
          { s1 with c := { s1.c with list := [], next := 0, lowNotise := false } }) ∧
      (Tick env w s).state.c.list = [] ∧ (Tick env w s).state.calls = s1.calls ∧
      s1.c.lowNotise = s.c.lowNotise ∧
      ∃ new, s1.calls = s.calls ++ new ∧ ∀ call ∈ new, ∃ url, call = Call.getRepositories url := by
  have hf := ListRepositories_loop_frame (fun call => ∃ url, call = Call.getRepositories url)
    env w.now (fun url => ⟨url, rfl⟩) w.repoPages "https://api.github.com/user/repos" [] s
  unfold ListRepositories at hlist
  rw [hlist] at hf
  obtain ⟨-, -, -, hflag, hnew⟩ := hf
  have hrefresh : Tick env w s
      = Tick_process env w { s1 with c := { s1.c with list := [], next := 0 } } := by
    unfold Tick Tick_refresh ListRepositories
    simp only [bind_run, getCrawler, hempty, if_true, hlist]
    rw [if_neg hne]
    rfl
  have hlow : s1.c.remaining < 2000 ∧ s1.c.lowNotise = false →
      Tick env w s = Res.ok ()
        { s1 with c := { s1.c with list := [], next := 0, lowNotise := true } } := by
    intro hg
    rw [hrefresh]
    exact Tick_process_low env w _ hg.1 hg.2
  have hhigh : ¬ (s1.c.remaining < 2000 ∧ s1.c.lowNotise = false) →
      Tick env w s = Res.panic Panic.indexOutOfRange
        { s1 with c := { s1.c with list := [], next := 0, lowNotise := false } } := by
    intro hg
    rw [hrefresh]
    exact Tick_process_no_repository env w _ hg (index_nil _)
  refine ⟨hlow, hhigh, ?_, ?_, hflag, hnew⟩
  · by_cases hg : s1.c.remaining < 2000 ∧ s1.c.lowNotise = false
    · rw [hlow hg]; rfl
    · rw [hhigh hg]; rfl
  · by_cases hg : s1.c.remaining < 2000 ∧ s1.c.lowNotise = false
    · rw [hlow hg]; rfl
    · rw [hhigh hg]; rfl

set_option maxRecDepth 1000000 in
/-- C12, evaluated on an empty list with a failing listing. With a tracked quota of 4000 a
transport failure of the listing ends the tick in an index-out-of-range panic; so does a listing
answered with status 500 when the quota is 0 and the flag is set. Only with a quota below 2000
and the flag clear does the tick return. -/
theorem Tick_failed_listing_panics :
    Tick sampleEnv offlineWorld (sampleState 0 [] 4000 false)
        = Res.panic Panic.indexOutOfRange
            { sampleState 0 [] 4000 false with calls := [callList] } ∧
      Tick sampleEnv brokenWorld (sampleState 0 [] 0 true)
        = Res.panic Panic.indexOutOfRange
            { sampleState 0 [] 0 false with calls := [callList] } ∧
      Tick sampleEnv offlineWorld (sampleState 0 [] 0 false)
        = Res.ok () { sampleState 0 [] 0 true with calls := [callList] } :=
  ⟨Tick_of_parts sampleEnv offlineWorld (sampleState 0 [] 4000 false)
      { sampleState 0 [] 4000 false with calls := [callList] } _ rfl rfl,
    Tick_of_parts sampleEnv brokenWorld (sampleState 0 [] 0 true)
      { sampleState 0 [] 0 true with calls := [callList] } _ rfl rfl,
    Tick_of_parts sampleEnv offlineWorld (sampleState 0 [] 0 false)
      { sampleState 0 [] 0 false with calls := [callList] } _ rfl rfl⟩

/-! ## Failure isolation (`Tick`, lines 69-125) -/

/-- The loop over the pull requests isolates the failures it survives. When no closed pull
request lacks its `closed_at` and every answer of Elasticsearch is a transport failure, a status
up to 299, a 409 or an error whose body carries an error object, the loop returns; and whenever
the loop returns, the create requests it issued are those of the pull requests that pass the
retention policy, in list order, whatever the answers were. -/
theorem Tick_pulls_isolation (env : Env) (now : Int) (pulls : List PullRequest)
    (answers : List (Option EsResponse)) (s : St) :
    ((∀ pull ∈ pulls, pull.State = "closed" → pull.ClosedAt ≠ none) →
        (∀ a ∈ answers, Survivable env a) →
        ∃ s', Tick_pulls env now pulls answers s = Res.ok () s') ∧
      ∀ s', Tick_pulls env now pulls answers s = Res.ok () s' →
        s'.calls = s.calls ++ (pulls.filter (retained now)).map (submission env now) :=
  ⟨Tick_pulls_returns env now pulls answers s,
    fun s' h => Tick_pulls_returns_log env now pulls answers s s' h⟩

set_option maxRecDepth 1000000 in
/-- C14, evaluated on a repository with two open pull requests, list `[A, B]`, cursor 0 and quota
2001. When Elasticsearch answers the first create request with status 502 and a body that is
not a JSON error object, `printESError` panics on its type assertion: the second pull request is
never submitted, the webhooks are not reconciled and the cursor stays at 0. When the first
answer is a 409, both pull requests are submitted, the webhooks are reconciled and the cursor
moves to 1. -/
theorem Tick_index_error_panics :
    Tick twoPullsEnv (indexWorld { StatusCode := 502, Body := "<html>" })
        (sampleState 0 [repoA, repoB] 2001 false)
      = Res.panic Panic.typeAssertion (sampleReached 0 [repoA, repoB]
          [Call.getPullRequests "https://api.github.com/repos/o/a/pulls?state=all&per_page=50",
           Call.esCreate "idx" "a4c68cab-2bbe-9354-4e60-18aab0f84607" "event"]) ∧
      Tick twoPullsEnv (indexWorld { StatusCode := 409, Body := "" })
        (sampleState 0 [repoA, repoB] 2001 false)
      = Res.ok () (sampleReached 1 [repoA, repoB]
          [Call.getPullRequests "https://api.github.com/repos/o/a/pulls?state=all&per_page=50",
           Call.esCreate "idx" "a4c68cab-2bbe-9354-4e60-18aab0f84607" "event",
           Call.esCreate "idx" "6b5bcee3-cceb-63d1-f16c-6fb7904c5f66" "event",
           Call.getWebHooks "https://api.github.com/repos/o/a/hooks",
           Call.postWebHook "https://api.github.com/repos/o/a/hooks" "hook"]) := by
  refine ⟨rfl, ?_⟩
  rw [Tick_of_nonempty _ _ _ (by decide)]
  exact Tick_process_of_parts twoPullsEnv (indexWorld { StatusCode := 409, Body := "" })
    (sampleState 0 [repoA, repoB] 2001 false)
    (sampleReached 0 [repoA, repoB]
      [Call.getPullRequests "https://api.github.com/repos/o/a/pulls?state=all&per_page=50"])
    (sampleReached 0 [repoA, repoB]
      [Call.getPullRequests "https://api.github.com/repos/o/a/pulls?state=all&per_page=50",
       Call.esCreate "idx" "a4c68cab-2bbe-9354-4e60-18aab0f84607" "event",
       Call.esCreate "idx" "6b5bcee3-cceb-63d1-f16c-6fb7904c5f66" "event"])
    (sampleReached 0 [repoA, repoB]
      [Call.getPullRequests "https://api.github.com/repos/o/a/pulls?state=all&per_page=50",
       Call.esCreate "idx" "a4c68cab-2bbe-9354-4e60-18aab0f84607" "event",
       Call.esCreate "idx" "6b5bcee3-cceb-63d1-f16c-6fb7904c5f66" "event",
       Call.getWebHooks "https://api.github.com/repos/o/a/hooks",
       Call.postWebHook "https://api.github.com/repos/o/a/hooks" "hook"])
    repoA [pullOpen, pullOther] "" (some ErrStatusNotAccepted) (by decide) rfl rfl rfl rfl

/-! ## Webhook reconciliation (`crawlrequests.go`, lines 393-419) -/

/-- C15. The expected webhook URL is non-empty, the webhooks of the repository are listed
successfully, and the webhook object serializes. Then `updateWebHooks` issues the listing call
and, after it, one create request exactly when no listed webhook has the expected URL as its
`Config.URL`; a listed webhook with that URL suppresses the creation whatever its other fields
are, and no call but these is issued. -/
theorem updateWebHooks_creates_iff (env : Env) (w : World) (repoFullName : String) (s : St)
    (url : String) (resp : Response) (hooks : List WebHook) (body : String)
    (hurl : getWebHookURL s.c.Config = .ok url) (hne : url ≠ "")
    (hans : w.hooksAnswer = some resp) (hserve : ServesWebHooks env resp hooks)
    (hm : env.marshalWebHook (newWebhookObject url) = some body) :
    ((∃ hook ∈ hooks, hook.Config.URL = url) →
        (updateWebHooks env w repoFullName s).state.calls
          = s.calls ++ [Call.getWebHooks (hooksURL repoFullName)]) ∧
      ((¬ ∃ hook ∈ hooks, hook.Config.URL = url) →
        (updateWebHooks env w repoFullName s).state.calls
          = s.calls ++ [Call.getWebHooks (hooksURL repoFullName),
              Call.postWebHook (hooksURL repoFullName) body]) := by
  obtain ⟨s1, hcalls, hrun⟩ := updateWebHooks_run env w repoFullName s url resp hooks hurl hne
    hans hserve
  have hany : hooks.any (fun hook => hook.Config.URL = url) = true ↔
      ∃ hook ∈ hooks, hook.Config.URL = url := by
    simp [List.any_eq_true]
  constructor
  · intro hfound
    rw [hrun, if_pos (hany.mpr hfound)]
    exact hcalls
  · intro hnot
    rw [hrun, if_neg (fun h => hnot (hany.mp h))]
    have hc := createWebHook_calls env w.now (hooksURL repoFullName) (newWebhookObject url)
      w.hookPostAnswer s1 body hm
    generalize createWebHook env w.now _ _ w.hookPostAnswer s1 = g at hc
    rcases g with ⟨_ | hook, s2⟩ | ⟨p, s2⟩
    · simp only [Res.state] at hc ⊢
      rw [hc, hcalls]
      simp
    · simp only [Res.state] at hc
      simp only []
      cases WebHook_String hook <;> simp only [Res.state] <;> rw [hc, hcalls] <;> simp
    · simp only [Res.state] at hc ⊢
      rw [hc, hcalls]
      simp

set_option maxRecDepth 1000000 in
/-- Witness of `updateWebHooks_creates_iff`. On a repository without webhooks the listing is
followed by one create request; on a repository where a webhook with the expected URL is
registered (inactive, with another content type and another event) the listing is the only
call. -/
theorem updateWebHooks_creates_iff_witness :
    (updateWebHooks hookEnv sampleWorld "o/a" (sampleState 0 [repoA] 4000 false)).state.calls
        = (sampleState 0 [repoA] 4000 false).calls ++ [Call.getWebHooks (hooksURL "o/a"),
            Call.postWebHook (hooksURL "o/a") "hook"] ∧
      (∃ hook ∈ [driftedHook], hook.Config.URL = "http://localhost/webhook") ∧
      driftedHook ≠ newWebhookObject "http://localhost/webhook" ∧
      (updateWebHooks hookEnv driftedWorld "o/a" (sampleState 0 [repoA] 4000 false)).state.calls
        = (sampleState 0 [repoA] 4000 false).calls ++ [Call.getWebHooks (hooksURL "o/a")] :=
  have hfound : ∃ hook ∈ [driftedHook], hook.Config.URL = "http://localhost/webhook" :=
    ⟨driftedHook, List.mem_singleton.mpr rfl, rfl⟩
  ⟨(updateWebHooks_creates_iff hookEnv sampleWorld "o/a" (sampleState 0 [repoA] 4000 false)
      "http://localhost/webhook" (sampleResponse 200 "4000" "" "[]") [] "hook" rfl (by decide)
      rfl ⟨rfl, ⟨rfl, rfl, rfl, rfl⟩, rfl, rfl⟩ rfl).2 (by simp),
    hfound, by decide,
    (updateWebHooks_creates_iff hookEnv driftedWorld "o/a" (sampleState 0 [repoA] 4000 false)
      "http://localhost/webhook" (sampleResponse 200 "4000" "" "[drifted]") [driftedHook] "hook"
      rfl (by decide) rfl ⟨rfl, ⟨rfl, rfl, rfl, rfl⟩, rfl, rfl⟩ rfl).1 hfound⟩

/-! ## The webhook URL (`main.go`, lines 89-103) -/

/-- C16. For a non-empty address `b` that does not end in a slash and a non-empty endpoint `e`
that does not start with one, the four ways of writing the pair (with or without the slash at the
end of the address, with or without the slash at the start of the endpoint) all give
`b + "/" + e`. -/
theorem getWebHookURL_one_slash (c : ConfigGithub) (b e : String) (hb : b ≠ "")
    (hb' : b.data.getLast? ≠ some '/') (he : e ≠ "") (he' : e.data.head? ≠ some '/') :
    getWebHookURL { c with PublicAddress := b, Endpoint := e } = .ok (b ++ "/" ++ e) ∧
      getWebHookURL { c with PublicAddress := b ++ "/", Endpoint := e } = .ok (b ++ "/" ++ e) ∧
      getWebHookURL { c with PublicAddress := b, Endpoint := "/" ++ e } = .ok (b ++ "/" ++ e) ∧
      getWebHookURL { c with PublicAddress := b ++ "/", Endpoint := "/" ++ e }
        = .ok (b ++ "/" ++ e) := by
  have hbd : b.data ≠ [] := fun h => hb ((string_eq_empty_iff _).mpr h)
  obtain ⟨last, hlast⟩ : ∃ last, b.data.getLast? = some last := by
    cases h : b.data.getLast? with
    | none => exact (hbd (List.getLast?_eq_none_iff.mp h)).elim
    | some last => exact ⟨last, rfl⟩
  have hlast' : last ≠ '/' := by
    intro h
    rw [h] at hlast
    exact hb' hlast
  obtain ⟨e0, rest, hE⟩ : ∃ e0 rest, e.data = e0 :: rest := by
    cases h : e.data with
    | nil => exact (he ((string_eq_empty_iff _).mpr h)).elim
    | cons e0 rest => exact ⟨e0, rest, rfl⟩
  have he0 : e0 ≠ '/' := by
    intro h
    rw [hE, h] at he'
    exact he' rfl
  have hslash : (b ++ "/").data.getLast? = some '/' := by
    rw [String.data_append]
    exact List.getLast?_concat _
  have hE' : ("/" ++ e).data = '/' :: e.data := by
    rw [String.data_append]
    rfl
  refine ⟨?_, ?_, ?_, ?_⟩
  · rw [getWebHookURL_both _ last e0 rest hlast hE, if_neg hlast', if_neg he0]
  · rw [getWebHookURL_both _ '/' e0 rest hslash hE, if_pos rfl, if_neg he0]
  · rw [getWebHookURL_both _ last '/' e.data hlast hE', if_neg hlast', if_pos rfl]
    exact congrArg Except.ok (String.append_assoc b "/" e).symm
  · rw [getWebHookURL_both _ '/' '/' e.data hslash hE', if_pos rfl, if_pos rfl]

/-- Witness of `getWebHookURL_one_slash`, the four configurations of `Test_WebhookURL`: each
gives `http://localhost/webhook`. -/
theorem getWebHookURL_one_slash_witness :
    getWebHookURL { sampleConfig with PublicAddress := "http://localhost", Endpoint := "webhook" }
        = .ok ("http://localhost" ++ "/" ++ "webhook") ∧
      getWebHookURL { sampleConfig with PublicAddress := "http://localhost" ++ "/",
                                         Endpoint := "webhook" }
        = .ok ("http://localhost" ++ "/" ++ "webhook") ∧
      getWebHookURL { sampleConfig with PublicAddress := "http://localhost",
                                         Endpoint := "/" ++ "webhook" }
        = .ok ("http://localhost" ++ "/" ++ "webhook") ∧
      getWebHookURL { sampleConfig with PublicAddress := "http://localhost" ++ "/",
                                         Endpoint := "/" ++ "webhook" }
        = .ok ("http://localhost" ++ "/" ++ "webhook") :=
  getWebHookURL_one_slash sampleConfig "http://localhost" "webhook" (by decide) (by decide)
    (by decide) (by decide)

/-- C18. `getWebHookURL` returns (no index out of range) exactly when the address and the
endpoint are both empty or both non-empty; it returns the empty string exactly when both are
empty; and when exactly one of them is empty, as with the default endpoint `/webhook` and no
address configured, it indexes an empty string out of range. -/
theorem getWebHookURL_returns_iff (c : ConfigGithub) :
    ((∃ url, getWebHookURL c = .ok url) ↔
        ((c.PublicAddress = "" ∧ c.Endpoint = "") ∨ (c.PublicAddress ≠ "" ∧ c.Endpoint ≠ ""))) ∧
      (getWebHookURL c = .ok "" ↔ (c.PublicAddress = "" ∧ c.Endpoint = "")) ∧
      (((c.PublicAddress = "" ∧ c.Endpoint ≠ "") ∨ (c.PublicAddress ≠ "" ∧ c.Endpoint = "")) →
        getWebHookURL c = .error Panic.indexOutOfRange) ∧
      getWebHookURL { c with PublicAddress := "", Endpoint := "/webhook" }
        = .error Panic.indexOutOfRange := by
  have hdefault : getWebHookURL { c with PublicAddress := "", Endpoint := "/webhook" }
      = .error Panic.indexOutOfRange :=
    getWebHookURL_no_address _ rfl (show ("/webhook" : String) ≠ "" by decide)
  by_cases h1 : c.PublicAddress = ""
  · by_cases h2 : c.Endpoint = ""
    · have h := getWebHookURL_both_empty c h1 h2
      refine ⟨⟨fun _ => Or.inl ⟨h1, h2⟩, fun _ => ⟨_, h⟩⟩, ⟨fun _ => ⟨h1, h2⟩, fun _ => h⟩, ?_,
        hdefault⟩
      rintro (⟨-, h⟩ | ⟨h, -⟩)
      · exact (h h2).elim
      · exact (h h1).elim
    · have h := getWebHookURL_no_address c h1 h2
      refine ⟨⟨?_, ?_⟩, ⟨?_, fun hh => (h2 hh.2).elim⟩, fun _ => h,
        hdefault⟩
      · rintro ⟨url, hu⟩
        rw [h] at hu
        cases hu
      · rintro (⟨-, hh⟩ | ⟨hh, -⟩)
        · exact (h2 hh).elim
        · exact (hh h1).elim
      · intro hu
        rw [h] at hu
        cases hu
  · by_cases h2 : c.Endpoint = ""
    · have h := getWebHookURL_no_endpoint c h1 h2
      refine ⟨⟨?_, ?_⟩, ⟨?_, fun hh => (h1 hh.1).elim⟩, fun _ => h,
        hdefault⟩
      · rintro ⟨url, hu⟩
        rw [h] at hu
        cases hu
      · rintro (⟨hh, -⟩ | ⟨-, hh⟩)
        · exact (h1 hh).elim
        · exact (hh h2).elim
      · intro hu
        rw [h] at hu
        cases hu
    · obtain ⟨url, hu, hne⟩ := getWebHookURL_nonempty c h1 h2
      refine ⟨⟨fun _ => Or.inr ⟨h1, h2⟩, fun _ => ⟨url, hu⟩⟩, ⟨?_, fun hh => (h1 hh.1).elim⟩, ?_,
        hdefault⟩
      · intro hh
        rw [hu] at hh
        injection hh with hh
        exact (hne hh).elim
      · rintro (⟨hh, -⟩ | ⟨-, hh⟩)
        · exact (h1 hh).elim
        · exact (h2 hh).elim

/-- Witness of `getWebHookURL_returns_iff`: with the address `http://localhost` and the endpoint
`/webhook` the function returns; with the default endpoint and no address it indexes an empty
string out of range. -/
theorem getWebHookURL_returns_iff_witness :
    (∃ url, getWebHookURL sampleConfig = .ok url) ∧
      getWebHookURL { sampleConfig with PublicAddress := "" } = .error Panic.indexOutOfRange :=
  ⟨(getWebHookURL_returns_iff sampleConfig).1.mpr (Or.inr ⟨by decide, by decide⟩),
    (getWebHookURL_returns_iff { sampleConfig with PublicAddress := "" }).2.2.1
      (Or.inl ⟨rfl, by decide⟩)⟩

/-! ## Event normalisation (`crawlrequests.go`, lines 335-346; `payload.go`, lines 195-198) -/

/-- C17. `toPullRequestEvent` returns no error and an event with the action `periodic_pull`, the
creation time of the pull request as timestamp, its number, the pull request itself, the
repository of its base, the user of its head and its assignee. For every clock value, `parse`
leaves the receiver with the clock value as timestamp and every other field as it was, and
serializes the receiver in that state. -/
theorem toPullRequestEvent_then_parse (env : Env) (now : Int) (pr : PullRequest) :
    (∃ event, toPullRequestEvent pr = .ok event ∧ event.Action = "periodic_pull" ∧
        event.Timestamp = pr.CreatedAt ∧ event.Number = pr.Number ∧
        event.PullRequest = some pr ∧ event.Repository = pr.Base.Repo ∧
        event.Sender = pr.Head.User ∧ event.Assignee = pr.Assignee) ∧
      ∀ event : PullRequestEvent,
        (parse env now event).1.Timestamp = now ∧
          (parse env now event).1.Action = event.Action ∧
          (parse env now event).1.Number = event.Number ∧
          (parse env now event).1.PullRequest = event.PullRequest ∧
          (parse env now event).1.Repository = event.Repository ∧
          (parse env now event).1.Sender = event.Sender ∧
          (parse env now event).1.Assignee = event.Assignee ∧
          (parse env now event).2 =
            (match env.marshalEvent { event with Timestamp := now } with
             | none => .error Err.marshal
             | some bytes => .ok bytes) :=
  ⟨⟨_, rfl, rfl, rfl, rfl, rfl, rfl, rfl, rfl⟩,
    fun _ => ⟨rfl, rfl, rfl, rfl, rfl, rfl, rfl, rfl⟩⟩

/-! ## Cursor bounds (`Tick`, lines 34-57 and 120-125) -/

/-- C19. In every state reached from a crawler with an empty list and cursor 0 by a sequence of
ticks, whatever the answers: the cursor is inside the list when the list is non-empty and is 0
when the list is empty; and for the next tick, if it passes the gate, the read of `list[next]`
is in bounds exactly when the list is non-empty after the refresh step of that tick, the tick
ending in an index-out-of-range panic when it is empty. -/
theorem Tick_cursor_bounds (env : Env) (worlds : List World) (s0 s : St)
    (hlist : s0.c.list = []) (hnext : s0.c.next = 0)
    (hrun : Ticks env worlds s0 = Res.ok () s) :
    (s.c.list ≠ [] → 0 ≤ s.c.next ∧ s.c.next < s.c.list.length) ∧
      (s.c.list = [] → s.c.next = 0) ∧
      ∀ w s1, Tick_refresh env w s = Res.ok () s1 →
        ¬ (s1.c.remaining < 2000 ∧ s1.c.lowNotise = false) →
        ((∃ repository, index s1.c.list s1.c.next = some repository) ↔ s1.c.list ≠ []) ∧
          (s1.c.list = [] → ∃ s2, Tick env w s = Res.panic Panic.indexOutOfRange s2) := by
  have hinv0 : CursorInv s0 := ⟨fun _ => hnext, fun h => (h hlist).elim⟩
  have hinv := Ticks_inv env worlds s0 s hinv0 hrun
  refine ⟨hinv.2, hinv.1, ?_⟩
  intro w s1 href hgate
  have hinv1 := Tick_refresh_inv env w s s1 hinv href
  refine ⟨⟨?_, ?_⟩, ?_⟩
  · rintro ⟨repository, hidx⟩ hl
    rw [hl, index_nil] at hidx
    cases hidx
  · intro hne
    obtain ⟨h0, h1⟩ := hinv1.2 hne
    obtain ⟨a, ha, -⟩ := index_some s1.c.list s1.c.next h0 h1
    exact ⟨a, ha⟩
  · intro hl
    refine ⟨{ s1 with c := { s1.c with lowNotise := false } }, ?_⟩
    unfold Tick
    rw [bind_run, href]
    exact Tick_process_no_repository env w s1 hgate (by rw [hl]; exact index_nil _)

set_option maxRecDepth 1000000 in
/-- Witness of `Tick_cursor_bounds`: after one tick from the initial crawler the list is `[A, B]`
and the cursor is 1; the next tick reads `list[1]`. -/
theorem Tick_cursor_bounds_witness :
    Ticks sampleEnv [quietWorld] (sampleState 0 [] 0 false)
        = Res.ok () (sampleReached 1 [repoA, repoB] (callList :: callsA)) ∧
      (0 ≤ (sampleReached 1 [repoA, repoB] (callList :: callsA)).c.next ∧
        (sampleReached 1 [repoA, repoB] (callList :: callsA)).c.next
          < (sampleReached 1 [repoA, repoB] (callList :: callsA)).c.list.length) ∧
      ∃ repository, index (sampleReached 1 [repoA, repoB] (callList :: callsA)).c.list
        (sampleReached 1 [repoA, repoB] (callList :: callsA)).c.next = some repository := by
  have hrun : Ticks sampleEnv [quietWorld] (sampleState 0 [] 0 false)
      = Res.ok () (sampleReached 1 [repoA, repoB] (callList :: callsA)) :=
    Ticks_cons_ok sampleEnv quietWorld [] (sampleState 0 [] 0 false)
      (sampleReached 1 [repoA, repoB] (callList :: callsA))
      (Res.ok () (sampleReached 1 [repoA, repoB] (callList :: callsA)))
      (Tick_of_parts sampleEnv quietWorld (sampleState 0 [] 0 false)
        (sampleReached 0 [repoA, repoB] [callList]) _ rfl rfl) rfl
  have h := Tick_cursor_bounds sampleEnv [quietWorld] (sampleState 0 [] 0 false)
    (sampleReached 1 [repoA, repoB] (callList :: callsA)) rfl rfl hrun
  exact ⟨hrun, h.1 (by decide),
    ((h.2.2 quietWorld (sampleReached 1 [repoA, repoB] (callList :: callsA)) rfl
      (by decide)).1).mpr (by decide)⟩

/-! ## Webhook creation (`crawlrequests.go`, lines 466-506) -/

/-- C20 (amended). `createWebHook` never reports success: whenever it returns, it returns an
error. For a response to the POST whose rate-limit headers parse it does return, with
`ErrStatusUnauthorized` for status 401, `ErrStatusNotAccepted` for any other status but 200
(201 Created included), and for status 200 the read error or else the error of decoding into a
nil pointer. Consequently, when the expected URL is non-empty, the listing succeeds and no
listed webhook has the expected URL, `updateWebHooks` returns an error whenever it returns, and
it does return, with the error of the creation, when the rate-limit headers of the response to
the POST parse. -/
theorem createWebHook_never_succeeds (env : Env) (now : Int) (url : String) (webhook : WebHook)
    (answer : Option Response) (s : St) :
    (∀ r s', createWebHook env now url webhook answer s = Res.ok r s' → ∃ e, r = .error e) ∧
      (∀ resp body, answer = some resp → env.marshalWebHook webhook = some body →
        RateLimitsParse resp.Header →
        ∃ s', createWebHook env now url webhook answer s
          = Res.ok (.error (createContract resp)) s') ∧
      (∀ resp, resp.StatusCode = 201 → createContract resp = ErrStatusNotAccepted) ∧
      (∀ (w : World) (repoFullName expected : String) (listed : Response) (hooks : List WebHook),
        getWebHookURL s.c.Config = .ok expected → expected ≠ "" →
        w.hooksAnswer = some listed → ServesWebHooks env listed hooks →
        (¬ ∃ hook ∈ hooks, hook.Config.URL = expected) →
        (∀ r s', updateWebHooks env w repoFullName s = Res.ok r s' → ∃ e, r = some e) ∧
          (∀ resp body, w.hookPostAnswer = some resp →
            env.marshalWebHook (newWebhookObject expected) = some body →
            RateLimitsParse resp.Header →
            ∃ s', updateWebHooks env w repoFullName s
              = Res.ok (some (createContract resp)) s')) := by
  refine ⟨fun r s' h => createWebHook_never_ok env now url webhook answer s s' r h, ?_, ?_, ?_⟩
  · intro resp body ha hm hp
    rw [ha]
    exact createWebHook_contract env now url webhook resp s body hm hp
  · intro resp h201
    unfold createContract
    rw [if_neg (by rw [h201]; decide), if_pos (by rw [h201]; decide)]
  · intro w repoFullName expected listed hooks hurl hne hans hserve hnot
    obtain ⟨s1, -, hrun⟩ := updateWebHooks_run env w repoFullName s expected listed hooks hurl
      hne hans hserve
    have hany : ¬ hooks.any (fun hook => hook.Config.URL = expected) = true := by
      intro h
      apply hnot
      simpa [List.any_eq_true] using h
    rw [if_neg hany] at hrun
    constructor
    · intro r s' hret
      rw [hrun] at hret
      cases hc : createWebHook env w.now (hooksURL repoFullName) (newWebhookObject expected)
          w.hookPostAnswer s1 with
      | panic p s2 =>
        rw [hc] at hret
        cases hret
      | ok res s2 =>
        obtain ⟨e, he⟩ := createWebHook_never_ok env w.now _ _ w.hookPostAnswer s1 s2 res hc
        subst he
        rw [hc] at hret
        simp only [] at hret
        injection hret with h1 _
        exact ⟨e, h1.symm⟩
    · intro resp body ha hm hp
      rw [ha] at hrun
      obtain ⟨s2, hc⟩ := createWebHook_contract env w.now (hooksURL repoFullName)
        (newWebhookObject expected) resp s1 body hm hp
      rw [hc] at hrun
      exact ⟨s2, hrun⟩

set_option maxRecDepth 1000000 in
/-- Witness of `createWebHook_never_succeeds`: the POST is answered with 201 Created and
rate-limit headers that parse; `createWebHook` returns `ErrStatusNotAccepted`, and so does
`updateWebHooks` on a repository without webhooks. -/
theorem createWebHook_never_succeeds_witness :
    (∃ s', createWebHook sampleEnv 0 (hooksURL "o/a") (newWebhookObject "http://localhost/webhook")
        (some (sampleResponse 201 "4000" "" "")) (sampleState 0 [repoA] 4000 false)
      = Res.ok (.error (createContract (sampleResponse 201 "4000" "" ""))) s') ∧
      createContract (sampleResponse 201 "4000" "" "") = ErrStatusNotAccepted ∧
      (∃ s', updateWebHooks sampleEnv sampleWorld "o/a" (sampleState 0 [repoA] 4000 false)
        = Res.ok (some (createContract (sampleResponse 201 "4000" "" ""))) s') :=
  have h := createWebHook_never_succeeds sampleEnv 0 (hooksURL "o/a")
    (newWebhookObject "http://localhost/webhook") (some (sampleResponse 201 "4000" "" ""))
    (sampleState 0 [repoA] 4000 false)
  ⟨h.2.1 _ "hook" rfl rfl ⟨rfl, rfl, rfl, rfl⟩, h.2.2.1 _ rfl,
    (h.2.2.2 sampleWorld "o/a" "http://localhost/webhook" (sampleResponse 200 "4000" "" "[]") []
      rfl (by decide) rfl ⟨rfl, ⟨rfl, rfl, rfl, rfl⟩, rfl, rfl⟩ (by simp)).2
      (sampleResponse 201 "4000" "" "") "hook" rfl rfl ⟨rfl, rfl, rfl, rfl⟩⟩

set_option maxRecDepth 1000000 in
/-- C20 as stated fails on two kinds of responses to the POST. A 401 response, which is not a
200, yields `ErrStatusUnauthorized` and not `ErrStatusNotAccepted`; a 201 response without
rate-limit headers makes `createWebHook` panic in `getRateLimits` instead of returning an
error. -/
theorem createWebHook_other_outcomes :
    createWebHook sampleEnv 0 (hooksURL "o/a") (newWebhookObject "http://localhost/webhook")
        (some (sampleResponse 401 "4000" "" "")) (sampleState 0 [repoA] 4000 false)
      = Res.ok (.error ErrStatusUnauthorized)
          (sampleReached 0 [repoA] [Call.postWebHook (hooksURL "o/a") "hook"]) ∧
      ErrStatusUnauthorized ≠ ErrStatusNotAccepted ∧
      createWebHook sampleEnv 0 (hooksURL "o/a") (newWebhookObject "http://localhost/webhook")
        (some (bareResponse 201 "")) (sampleState 0 [repoA] 4000 false)
      = Res.panic Panic.nilDereference { sampleState 0 [repoA] 4000 false with
          calls := [Call.postWebHook (hooksURL "o/a") "hook"] } :=
  ⟨rfl, by decide, rfl⟩

end GithubTimedEvents
